import Mathlib

/-!
# GPIO output controllers of `src/gpiocmds.c`

A shallow embedding of the three scheduled-output controllers (digital out,
hardware PWM out, software PWM out) and of the timer callbacks they install.

* `uint32_t` and `uint8_t` values are natural numbers; every store into a
  machine word that can leave its range is reduced modulo `2^32` or `2^8`.
* `shutdown(msg)` does not return in C: a function that can reach it returns
  `Except String _` and the halt is `Except.error msg`.
* A record found by `lookup_oid` is passed in and the updated record is returned.
* A timer is the pair `func`/`waketime` of the C struct plus the bit `armed`
  that says whether the scheduler currently holds it.
-/

namespace Gpiocmds

/-! ## Collaborators declared in headers outside `gpiocmds.c` -/

/-- Modelled from the spec: the status code of a timer callback (`sched.h`),
"done" (stay unarmed) or "reschedule" (re-arm at the wake time the callback wrote). -/
inductive sched_flag where
  | SF_DONE
  | SF_RESCHEDULE
deriving DecidableEq, Repr

/-- The callbacks that `gpiocmds.c` stores in `timer.func`; `null` is the value in a
record fresh from `alloc_oid`, which zeroes the memory. -/
inductive timer_func where
  | null
  | digital_end_event
  | digital_out_event
  | pwm_event
  | soft_pwm_toggle_event
  | soft_pwm_load_event
deriving DecidableEq, Repr

/-- Modelled from the spec: `struct timer` of `sched.h`, a callback and an absolute wake
time; `armed` records whether the scheduler holds the timer. -/
structure timer where
  func : timer_func
  waketime : Nat
  armed : Bool
deriving DecidableEq, Repr

/-- Modelled from the spec: `sched_timer` of `sched.h`, "arm a callback at an absolute tick". -/
def sched_timer (t : timer) : timer :=
  { t with armed := true }

/-- Modelled from the spec: `sched_del_timer` of `sched.h`, "disarm". -/
def sched_del_timer (t : timer) : timer :=
  { t with armed := false }

/-- Modelled from the spec: `sched_is_before` of `sched.h`, "compare two absolute ticks
respecting wraparound (is A before B)": the signed 32-bit difference `time1 - time2`
is negative. -/
def sched_is_before (time1 time2 : Nat) : Bool :=
  decide (2 ^ 31 ≤ (time1 % 2 ^ 32 + (2 ^ 32 - time2 % 2 ^ 32)) % 2 ^ 32)

/-- Modelled from the spec: `struct gpio_out` of `board/gpio.h`, a pin handle; `level` is
the boolean the pin is driven to. -/
structure gpio_out where
  pin : Nat
  level : Bool
deriving DecidableEq, Repr

/-- Modelled from the spec: `gpio_out_setup`, "configure a digital pin to an initial
boolean state and return a handle". -/
def gpio_out_setup (pin val : Nat) : gpio_out :=
  { pin := pin, level := decide (val ≠ 0) }

/-- Modelled from the spec: `gpio_out_write`, "write a boolean to a handle". -/
def gpio_out_write (g : gpio_out) (val : Nat) : gpio_out :=
  { g with level := decide (val ≠ 0) }

/-- Modelled from the spec: `gpio_out_toggle`, "toggle a handle". -/
def gpio_out_toggle (g : gpio_out) : gpio_out :=
  { g with level := !g.level }

/-- Modelled from the spec: `struct gpio_pwm` of `board/gpio.h`, a pin with a
hardware-managed duty cycle. -/
structure gpio_pwm where
  pin : Nat
  cycle_ticks : Nat
  duty : Nat
deriving DecidableEq, Repr

/-- Modelled from the spec: `gpio_pwm_setup`, "configure a PWM pin with a cycle length
and initial duty and return a handle". -/
def gpio_pwm_setup (pin cycle_ticks val : Nat) : gpio_pwm :=
  { pin := pin, cycle_ticks := cycle_ticks, duty := val }

/-- Modelled from the spec: `gpio_pwm_write`, "write a duty to a handle". -/
def gpio_pwm_write (g : gpio_pwm) (val : Nat) : gpio_pwm :=
  { g with duty := val }

/-- Modelled from the spec: `shutdown`, "a single halt-the-system call taking a reason
string, after which no further commands are processed". -/
def shutdown {α : Type} (msg : String) : Except String α :=
  Except.error msg

/-- The `timer` inside a record that `alloc_oid` has just zeroed. -/
def timer_zero : timer :=
  { func := timer_func.null, waketime := 0, armed := false }

/-- Modelled from the spec: what the scheduler does with the status a callback returns,
"done" (stay unarmed) or "reschedule" (re-arm at the wake time the callback wrote). -/
def sched_after_callback (t : timer) (r : sched_flag) : timer :=
  match r with
  | sched_flag.SF_DONE => sched_del_timer t
  | sched_flag.SF_RESCHEDULE => sched_timer t

/-- Whether a result is a halt. -/
def halted {α : Type} (r : Except String α) : Bool :=
  match r with
  | Except.error _ => true
  | Except.ok _ => false

/-- The message of a halt, if the result is one. -/
def halt_message {α : Type} (r : Except String α) : Option String :=
  match r with
  | Except.error m => some m
  | Except.ok _ => none

/-! ## Digital out pins -/

/-- The record `struct digital_out_s`. -/
structure digital_out_s where
  timer : timer
  pin : gpio_out
  max_duration : Nat
  value : Nat
  default_value : Nat
deriving DecidableEq, Repr

/-- The callback `digital_end_event`; it is also the revert callback of `pwm_event`. -/
def digital_end_event {α : Type} (_r : α) : Except String (α × sched_flag) :=
  shutdown "Missed scheduling of next pin event"

/-- The callback `digital_out_event`. -/
def digital_out_event (d : digital_out_s) : digital_out_s × sched_flag :=
  let d := { d with pin := gpio_out_write d.pin d.value }
  if d.value = d.default_value ∨ d.max_duration = 0 then
    (d, sched_flag.SF_DONE)
  else
    let d := { d with timer :=
      { d.timer with waketime := (d.timer.waketime + d.max_duration) % 2 ^ 32 } }
    let d := { d with timer := { d.timer with func := timer_func.digital_end_event } }
    (d, sched_flag.SF_RESCHEDULE)

/-- The command `config_digital_out oid pin default_value max_duration` on the zeroed
record from `alloc_oid`; the arguments are `args[1]`..`args[3]`. -/
def command_config_digital_out (pin default_value max_duration : Nat) : digital_out_s :=
  let dv := default_value % 2 ^ 8
  { timer := timer_zero
    value := 0
    default_value := dv
    pin := gpio_out_setup (pin % 2 ^ 32) dv
    max_duration := max_duration % 2 ^ 32 }

/-- The command `schedule_digital_out oid clock value` on the record `d` that
`lookup_oid` returns. -/
def command_schedule_digital_out (d : digital_out_s) (clock value : Nat) : digital_out_s :=
  let d := { d with timer := sched_del_timer d.timer }
  let d := { d with timer := { d.timer with func := timer_func.digital_out_event } }
  let d := { d with timer := { d.timer with waketime := clock % 2 ^ 32 } }
  let d := { d with value := value % 2 ^ 8 }
  { d with timer := sched_timer d.timer }

/-- The shutdown handler `digital_out_shutdown` over the records that `foreach_oid` visits. -/
def digital_out_shutdown (ds : List digital_out_s) : List digital_out_s :=
  ds.map fun d => { d with pin := gpio_out_write d.pin d.default_value }

/-- Modelled from the spec: the scheduler invoking the armed timer of a digital-out
record when it is due, and re-arming it or not according to the returned status. -/
def digital_out_fire (d : digital_out_s) : Except String digital_out_s :=
  match d.timer.func with
  | timer_func.digital_out_event =>
    let r := digital_out_event d
    Except.ok { r.1 with timer := sched_after_callback r.1.timer r.2 }
  | timer_func.digital_end_event =>
    (digital_end_event d).map fun r => { r.1 with timer := sched_after_callback r.1.timer r.2 }
  | _ => Except.ok d

/-! ## Hardware PWM pins -/

/-- The record `struct pwm_out_s`. -/
structure pwm_out_s where
  timer : timer
  pin : gpio_pwm
  max_duration : Nat
  value : Nat
  default_value : Nat
deriving DecidableEq, Repr

/-- The callback `pwm_event`. -/
def pwm_event (p : pwm_out_s) : pwm_out_s × sched_flag :=
  let p := { p with pin := gpio_pwm_write p.pin p.value }
  if p.value = p.default_value ∨ p.max_duration = 0 then
    (p, sched_flag.SF_DONE)
  else
    let p := { p with timer :=
      { p.timer with waketime := (p.timer.waketime + p.max_duration) % 2 ^ 32 } }
    let p := { p with timer := { p.timer with func := timer_func.digital_end_event } }
    (p, sched_flag.SF_RESCHEDULE)

/-- The command `config_pwm_out oid pin cycle_ticks default_value max_duration` on the
zeroed record from `alloc_oid`; the arguments are `args[1]`..`args[4]`. -/
def command_config_pwm_out (pin cycle_ticks default_value max_duration : Nat) : pwm_out_s :=
  let dv := default_value % 2 ^ 8
  { timer := timer_zero
    value := 0
    default_value := dv
    pin := gpio_pwm_setup (pin % 2 ^ 32) (cycle_ticks % 2 ^ 32) dv
    max_duration := max_duration % 2 ^ 32 }

/-- The command `schedule_pwm_out oid clock value` on the record `p` that `lookup_oid`
returns. -/
def command_schedule_pwm_out (p : pwm_out_s) (clock value : Nat) : pwm_out_s :=
  let p := { p with timer := sched_del_timer p.timer }
  let p := { p with timer := { p.timer with func := timer_func.pwm_event } }
  let p := { p with timer := { p.timer with waketime := clock % 2 ^ 32 } }
  let p := { p with value := value % 2 ^ 8 }
  { p with timer := sched_timer p.timer }

/-- The shutdown handler `pwm_shutdown` over the records that `foreach_oid` visits. -/
def pwm_shutdown (ps : List pwm_out_s) : List pwm_out_s :=
  ps.map fun p => { p with pin := gpio_pwm_write p.pin p.default_value }

/-- Modelled from the spec: the scheduler invoking the armed timer of a PWM-out record
when it is due, and re-arming it or not according to the returned status. -/
def pwm_out_fire (p : pwm_out_s) : Except String pwm_out_s :=
  match p.timer.func with
  | timer_func.pwm_event =>
    let r := pwm_event p
    Except.ok { r.1 with timer := sched_after_callback r.1.timer r.2 }
  | timer_func.digital_end_event =>
    (digital_end_event p).map fun r => { r.1 with timer := sched_after_callback r.1.timer r.2 }
  | _ => Except.ok p

/-! ## Soft PWM output pins -/

/-- The record `struct soft_pwm_s`. -/
structure soft_pwm_s where
  timer : timer
  on_duration : Nat
  off_duration : Nat
  end_time : Nat
  next_on_duration : Nat
  next_off_duration : Nat
  max_duration : Nat
  cycle_time : Nat
  pulse_time : Nat
  pin : gpio_out
  default_value : Nat
  flags : Nat
deriving DecidableEq, Repr

def SPF_ON : Nat := 1 <<< 0
def SPF_TOGGLING : Nat := 1 <<< 1
def SPF_CHECK_END : Nat := 1 <<< 2
def SPF_HAVE_NEXT : Nat := 1 <<< 3
def SPF_NEXT_ON : Nat := 1 <<< 4
def SPF_NEXT_TOGGLING : Nat := 1 <<< 5
def SPF_NEXT_CHECK_END : Nat := 1 <<< 6

/-- The callback `soft_pwm_toggle_event`: normal pulse change event. -/
def soft_pwm_toggle_event (s : soft_pwm_s) : soft_pwm_s × sched_flag :=
  let s := { s with pin := gpio_out_toggle s.pin }
  let s := { s with flags := (s.flags ^^^ SPF_ON) % 2 ^ 8 }
  let waketime := s.timer.waketime
  let waketime :=
    if s.flags &&& SPF_ON ≠ 0 then (waketime + s.on_duration) % 2 ^ 32
    else (waketime + s.off_duration) % 2 ^ 32
  if s.flags &&& SPF_CHECK_END ≠ 0 ∧ sched_is_before waketime s.end_time = false then
    -- End of normal pulsing - next event loads new pwm settings
    let s := { s with timer := { s.timer with func := timer_func.soft_pwm_load_event } }
    let waketime := s.end_time
    ({ s with timer := { s.timer with waketime := waketime } }, sched_flag.SF_RESCHEDULE)
  else
    ({ s with timer := { s.timer with waketime := waketime } }, sched_flag.SF_RESCHEDULE)

/-- The callback `soft_pwm_load_event`: load next pwm settings. -/
def soft_pwm_load_event (s : soft_pwm_s) : Except String (soft_pwm_s × sched_flag) :=
  if s.flags &&& SPF_HAVE_NEXT = 0 then
    shutdown "Missed scheduling of next pwm event"
  else
    let flags := (s.flags >>> 4) % 2 ^ 8
    let s := { s with flags := flags }
    let s := { s with pin := gpio_out_write s.pin (flags &&& SPF_ON) }
    if flags &&& SPF_TOGGLING = 0 then
      -- Pin is in an always on (value=255) or always off (value=0) state
      if flags &&& SPF_CHECK_END = 0 then
        Except.ok (s, sched_flag.SF_DONE)
      else
        let s := { s with end_time := (s.end_time + s.max_duration) % 2 ^ 32 }
        let s := { s with timer := { s.timer with waketime := s.end_time } }
        Except.ok (s, sched_flag.SF_RESCHEDULE)
    else
      -- Schedule normal pin toggle timer events
      let s := { s with timer := { s.timer with func := timer_func.soft_pwm_toggle_event } }
      let s := { s with off_duration := s.next_off_duration }
      let s := { s with on_duration := s.next_on_duration }
      let s := { s with timer :=
        { s.timer with waketime := (s.end_time + s.on_duration) % 2 ^ 32 } }
      let s := { s with end_time := (s.end_time + s.max_duration) % 2 ^ 32 }
      Except.ok (s, sched_flag.SF_RESCHEDULE)

/-- The command `config_soft_pwm_out oid pin cycle_ticks default_value max_duration`:
the record is the zeroed one from `alloc_oid`; the arguments are `args[1]`..`args[4]`,
each a `uint32_t`. -/
def command_config_soft_pwm_out (pin cycle_ticks default_value max_duration : Nat) :
    soft_pwm_s :=
  let cycle_time := cycle_ticks % 2 ^ 32
  let dv : Nat := if default_value % 2 ^ 32 ≠ 0 then 1 else 0
  { timer := timer_zero
    on_duration := 0
    off_duration := 0
    end_time := 0
    next_on_duration := 0
    next_off_duration := 0
    cycle_time := cycle_time
    pulse_time := cycle_time / 255
    default_value := dv
    max_duration := max_duration % 2 ^ 32
    flags := if dv ≠ 0 then SPF_ON else 0
    pin := gpio_out_setup (pin % 2 ^ 32) dv }

/-- The values `next_on_duration`, `next_off_duration`, `next_flags` that
`command_schedule_soft_pwm_out` computes from the `uint8_t value` before it enters the
critical section (lines 245-258). -/
def schedule_soft_pwm_next (s : soft_pwm_s) (value : Nat) : Nat × Nat × Nat :=
  let next_flags := SPF_CHECK_END ||| SPF_HAVE_NEXT
  if value = 0 ∨ value = 255 then
    let next_flags := next_flags ||| (if value ≠ 0 then SPF_NEXT_ON else 0)
    let next_flags :=
      if (if value ≠ 0 then 1 else 0) ≠ s.default_value ∧ s.max_duration ≠ 0 then
        next_flags ||| SPF_NEXT_CHECK_END
      else next_flags
    (0, 0, next_flags)
  else
    let next_on_duration := (s.pulse_time * value) % 2 ^ 32
    let next_off_duration := (s.cycle_time + (2 ^ 32 - next_on_duration)) % 2 ^ 32
    let next_flags := next_flags ||| (SPF_NEXT_ON ||| SPF_NEXT_TOGGLING)
    let next_flags := if s.max_duration ≠ 0 then next_flags ||| SPF_NEXT_CHECK_END else next_flags
    (next_on_duration, next_off_duration, next_flags)

/-- The command `schedule_soft_pwm_out oid clock value` on the record `s` that
`lookup_oid` returns; `clock` is `args[1]` and `value` is `args[2]`. -/
def command_schedule_soft_pwm_out (s : soft_pwm_s) (clock value : Nat) :
    Except String soft_pwm_s :=
  let time := clock % 2 ^ 32
  let value := value % 2 ^ 8
  let (next_on_duration, next_off_duration, next_flags) := schedule_soft_pwm_next s value
  if s.flags &&& SPF_CHECK_END ≠ 0 ∧ sched_is_before s.end_time time = true then
    shutdown "next soft pwm extends existing pwm"
  else
    let s := { s with end_time := time }
    let s := { s with next_on_duration := next_on_duration }
    let s := { s with next_off_duration := next_off_duration }
    let s := { s with flags := (s.flags ||| next_flags) % 2 ^ 8 }
    if s.flags &&& SPF_TOGGLING ≠ 0 ∧ sched_is_before s.timer.waketime time = true then
      -- soft_pwm_toggle_event() will schedule a load event when ready
      Except.ok s
    else
      -- Schedule the loading of the pwm parameters at the requested time
      let s := { s with timer := sched_del_timer s.timer }
      let s := { s with timer := { s.timer with waketime := time } }
      let s := { s with timer := { s.timer with func := timer_func.soft_pwm_load_event } }
      let s := { s with timer := sched_timer s.timer }
      Except.ok s

/-- The shutdown handler `soft_pwm_shutdown` over the records that `foreach_oid` visits. -/
def soft_pwm_shutdown (ss : List soft_pwm_s) : List soft_pwm_s :=
  ss.map fun s =>
    let s := { s with pin := gpio_out_write s.pin s.default_value }
    { s with flags := if s.default_value ≠ 0 then SPF_ON else 0 }

/-- Modelled from the spec: the scheduler invoking the armed timer of a soft-PWM record
when it is due, and re-arming it or not according to the returned status. -/
def soft_pwm_fire (s : soft_pwm_s) : Except String soft_pwm_s :=
  match s.timer.func with
  | timer_func.soft_pwm_toggle_event =>
    let r := soft_pwm_toggle_event s
    Except.ok { r.1 with timer := sched_after_callback r.1.timer r.2 }
  | timer_func.soft_pwm_load_event =>
    (soft_pwm_load_event s).map fun r => { r.1 with timer := sched_after_callback r.1.timer r.2 }
  | _ => Except.ok s

/-- The record after `k` successive firings of `soft_pwm_toggle_event`, each at the wake
time the previous one wrote. -/
def soft_pwm_toggle_run (s : soft_pwm_s) : Nat → soft_pwm_s
  | 0 => s
  | k + 1 => (soft_pwm_toggle_event (soft_pwm_toggle_run s k)).1

/-- The soft-PWM records that can arise: a configure command, then schedule commands that
do not halt and firings of the armed timer that do not halt, in any order. -/
inductive soft_pwm_reachable : soft_pwm_s → Prop where
  | config (pin cycle_ticks default_value max_duration : Nat) :
      soft_pwm_reachable (command_config_soft_pwm_out pin cycle_ticks default_value max_duration)
  | schedule {s s1 : soft_pwm_s} (clock value : Nat) :
      soft_pwm_reachable s → command_schedule_soft_pwm_out s clock value = Except.ok s1 →
      soft_pwm_reachable s1
  | fire {s s1 : soft_pwm_s} :
      soft_pwm_reachable s → s.timer.armed = true → soft_pwm_fire s = Except.ok s1 →
      soft_pwm_reachable s1

/-- The number of ticks from `now` forward to `target` on the 32-bit tick circle, the
unsigned difference `target - now`. -/
def ticks_until (now target : Nat) : Nat :=
  (target % 2 ^ 32 + (2 ^ 32 - now % 2 ^ 32)) % 2 ^ 32

/-- The soft-PWM records that can arise while the deadline covers the on phase:
`cycle_ticks` and `max_duration` are below `2^31`, and a requested program with
next-must-check-end has `next_on_duration <= max_duration`, so that its first toggle is
not due after its deadline. -/
inductive soft_pwm_reachable_in_range : soft_pwm_s → Prop where
  | config (pin cycle_ticks default_value max_duration : Nat) :
      cycle_ticks % 2 ^ 32 < 2 ^ 31 → max_duration % 2 ^ 32 < 2 ^ 31 →
      soft_pwm_reachable_in_range
        (command_config_soft_pwm_out pin cycle_ticks default_value max_duration)
  | schedule {s s1 : soft_pwm_s} (clock value : Nat) :
      soft_pwm_reachable_in_range s →
      command_schedule_soft_pwm_out s clock value = Except.ok s1 →
      (s1.flags &&& SPF_NEXT_CHECK_END ≠ 0 → s1.next_on_duration ≤ s1.max_duration) →
      soft_pwm_reachable_in_range s1
  | fire {s s1 : soft_pwm_s} :
      soft_pwm_reachable_in_range s → s.timer.armed = true →
      soft_pwm_fire s = Except.ok s1 →
      soft_pwm_reachable_in_range s1

/-! ## Concrete records used in the evaluations below -/

/-- The record after `config_soft_pwm_out pin=7 cycle_ticks=1000 default_value=0
max_duration=5000` followed by `schedule_soft_pwm_out clock=1000 value=64`. -/
def soft_pwm_pending_64 : soft_pwm_s :=
  { timer := { func := timer_func.soft_pwm_load_event, waketime := 1000, armed := true }
    on_duration := 0
    off_duration := 0
    end_time := 1000
    next_on_duration := 192
    next_off_duration := 808
    max_duration := 5000
    cycle_time := 1000
    pulse_time := 3
    pin := { pin := 7, level := false }
    default_value := 0
    flags := 124 }

/-- The record `soft_pwm_pending_64` after its load callback has fired. -/
def soft_pwm_loaded_64 : soft_pwm_s :=
  { timer := { func := timer_func.soft_pwm_toggle_event, waketime := 1192, armed := true }
    on_duration := 192
    off_duration := 808
    end_time := 6000
    next_on_duration := 192
    next_off_duration := 808
    max_duration := 5000
    cycle_time := 1000
    pulse_time := 3
    pin := { pin := 7, level := true }
    default_value := 0
    flags := 7 }

/-- The record after `config_soft_pwm_out pin=3 cycle_ticks=2550 default_value=0
max_duration=0` followed by `schedule_soft_pwm_out clock=100 value=128`. -/
def soft_pwm_pending_128 : soft_pwm_s :=
  { timer := { func := timer_func.soft_pwm_load_event, waketime := 100, armed := true }
    on_duration := 0
    off_duration := 0
    end_time := 100
    next_on_duration := 1280
    next_off_duration := 1270
    max_duration := 0
    cycle_time := 2550
    pulse_time := 10
    pin := { pin := 3, level := false }
    default_value := 0
    flags := 60 }

/-- The record after `config_soft_pwm_out pin=7 cycle_ticks=1000 default_value=0
max_duration=5000` followed by `schedule_soft_pwm_out clock=1000 value=128`. -/
def soft_pwm_request_128 : soft_pwm_s :=
  { timer := { func := timer_func.soft_pwm_load_event, waketime := 1000, armed := true }
    on_duration := 0
    off_duration := 0
    end_time := 1000
    next_on_duration := 384
    next_off_duration := 616
    max_duration := 5000
    cycle_time := 1000
    pulse_time := 3
    pin := { pin := 7, level := false }
    default_value := 0
    flags := 124 }

/-- The record `soft_pwm_request_128` after a further `schedule_soft_pwm_out clock=1000
value=0`, issued before the load callback has fired. -/
def soft_pwm_request_128_then_0 : soft_pwm_s :=
  { soft_pwm_request_128 with next_on_duration := 0, next_off_duration := 0 }

/-- The record `soft_pwm_request_128_then_0` after its load callback has fired. -/
def soft_pwm_loaded_128_then_0 : soft_pwm_s :=
  { timer := { func := timer_func.soft_pwm_toggle_event, waketime := 1000, armed := true }
    on_duration := 0
    off_duration := 0
    end_time := 6000
    next_on_duration := 0
    next_off_duration := 0
    max_duration := 5000
    cycle_time := 1000
    pulse_time := 3
    pin := { pin := 7, level := true }
    default_value := 0
    flags := 7 }

/-- A digital-out record after `config_digital_out pin=5 default_value=0 max_duration=0`,
`schedule_digital_out clock=2000 value=1` and the firing of its timer. -/
def digital_out_written_1 : digital_out_s :=
  { timer := { func := timer_func.digital_out_event, waketime := 2000, armed := false }
    pin := { pin := 5, level := true }
    max_duration := 0
    value := 1
    default_value := 0 }

/-- A PWM-out record after `config_pwm_out pin=6 cycle_ticks=1000 default_value=0
max_duration=0`, `schedule_pwm_out clock=2000 value=1` and the firing of its timer. -/
def pwm_out_written_1 : pwm_out_s :=
  { timer := { func := timer_func.pwm_event, waketime := 2000, armed := false }
    pin := { pin := 6, cycle_ticks := 1000, duty := 1 }
    max_duration := 0
    value := 1
    default_value := 0 }


/-- A digital-out record after `config_digital_out pin=5 default_value=0
max_duration=300`, `schedule_digital_out clock=2000 value=1` and the firing of its timer. -/
def digital_out_deadline_2300 : digital_out_s :=
  { timer := { func := timer_func.digital_end_event, waketime := 2300, armed := true }
    pin := { pin := 5, level := true }
    max_duration := 300
    value := 1
    default_value := 0 }

/-- A PWM-out record after `config_pwm_out pin=6 cycle_ticks=1000 default_value=0
max_duration=300`, `schedule_pwm_out clock=2000 value=1` and the firing of its timer. -/
def pwm_out_deadline_2300 : pwm_out_s :=
  { timer := { func := timer_func.digital_end_event, waketime := 2300, armed := true }
    pin := { pin := 6, cycle_ticks := 1000, duty := 1 }
    max_duration := 300
    value := 1
    default_value := 0 }

/-- The record `soft_pwm_loaded_64` (toggling, next toggle at 1192, `end_time = 6000`) after
`schedule_soft_pwm_out clock=3000 value=0`. -/
def soft_pwm_loaded_64_then_0 : soft_pwm_s :=
  { timer := { func := timer_func.soft_pwm_toggle_event, waketime := 1192, armed := true }
    on_duration := 192
    off_duration := 808
    end_time := 3000
    next_on_duration := 0
    next_off_duration := 0
    max_duration := 5000
    cycle_time := 1000
    pulse_time := 3
    pin := { pin := 7, level := true }
    default_value := 0
    flags := 15 }

/-- The record after `config_soft_pwm_out pin=7 cycle_ticks=1000 default_value=0
max_duration=5000` followed by `schedule_soft_pwm_out clock=1000 value=255`. -/
def soft_pwm_pending_255 : soft_pwm_s :=
  { timer := { func := timer_func.soft_pwm_load_event, waketime := 1000, armed := true }
    on_duration := 0
    off_duration := 0
    end_time := 1000
    next_on_duration := 0
    next_off_duration := 0
    max_duration := 5000
    cycle_time := 1000
    pulse_time := 3
    pin := { pin := 7, level := false }
    default_value := 0
    flags := 92 }

/-- The record `soft_pwm_pending_255` after its load callback has fired. -/
def soft_pwm_loaded_255 : soft_pwm_s :=
  { timer := { func := timer_func.soft_pwm_load_event, waketime := 6000, armed := true }
    on_duration := 0
    off_duration := 0
    end_time := 6000
    next_on_duration := 0
    next_off_duration := 0
    max_duration := 5000
    cycle_time := 1000
    pulse_time := 3
    pin := { pin := 7, level := true }
    default_value := 0
    flags := 5 }

/-- The record after `config_soft_pwm_out pin=7 cycle_ticks=1000 default_value=0
max_duration=0` followed by `schedule_soft_pwm_out clock=1000 value=0`. -/
def soft_pwm_pending_default : soft_pwm_s :=
  { timer := { func := timer_func.soft_pwm_load_event, waketime := 1000, armed := true }
    on_duration := 0
    off_duration := 0
    end_time := 1000
    next_on_duration := 0
    next_off_duration := 0
    max_duration := 0
    cycle_time := 1000
    pulse_time := 3
    pin := { pin := 7, level := false }
    default_value := 0
    flags := 12 }

/-- The record after `config_soft_pwm_out pin=7 cycle_ticks=1000 default_value=0
max_duration=100`, `schedule_soft_pwm_out clock=1000 value=128` and the firing of the load
callback at 1000: the first toggle is due at 1384, after the deadline `end_time = 1100`. -/
def soft_pwm_loaded_past_deadline : soft_pwm_s :=
  { timer := { func := timer_func.soft_pwm_toggle_event, waketime := 1384, armed := true }
    on_duration := 384
    off_duration := 616
    end_time := 1100
    next_on_duration := 384
    next_off_duration := 616
    max_duration := 100
    cycle_time := 1000
    pulse_time := 3
    pin := { pin := 7, level := true }
    default_value := 0
    flags := 7 }

/-- The record after `config_soft_pwm_out pin=7 cycle_ticks=1000 default_value=0
max_duration=500`, `schedule_soft_pwm_out clock=1000 value=128` and the firing of the load
callback at 1000: the first toggle is due at 1384, before the deadline `end_time = 1500`. -/
def soft_pwm_loaded_near_deadline : soft_pwm_s :=
  { timer := { func := timer_func.soft_pwm_toggle_event, waketime := 1384, armed := true }
    on_duration := 384
    off_duration := 616
    end_time := 1500
    next_on_duration := 384
    next_off_duration := 616
    max_duration := 500
    cycle_time := 1000
    pulse_time := 3
    pin := { pin := 7, level := true }
    default_value := 0
    flags := 7 }

/-- The record after `config_soft_pwm_out pin=7 cycle_ticks=0 default_value=0
max_duration=0`, `schedule_soft_pwm_out clock=1000 value=128` and the firing of the load
callback at 1000: a toggling program with `on_duration = off_duration = 0`. -/
def soft_pwm_zero_cycle_loaded : soft_pwm_s :=
  { timer := { func := timer_func.soft_pwm_toggle_event, waketime := 1000, armed := true }
    on_duration := 0
    off_duration := 0
    end_time := 1000
    next_on_duration := 0
    next_off_duration := 0
    max_duration := 0
    cycle_time := 0
    pulse_time := 0
    pin := { pin := 7, level := true }
    default_value := 0
    flags := 3 }

/-- The record `soft_pwm_zero_cycle_loaded` after `schedule_soft_pwm_out clock=3000
value=0`: the toggle timer is kept at 1000 and `end_time = 3000`. -/
def soft_pwm_zero_cycle_then_0 : soft_pwm_s :=
  { timer := { func := timer_func.soft_pwm_toggle_event, waketime := 1000, armed := true }
    on_duration := 0
    off_duration := 0
    end_time := 3000
    next_on_duration := 0
    next_off_duration := 0
    max_duration := 0
    cycle_time := 0
    pulse_time := 0
    pin := { pin := 7, level := true }
    default_value := 0
    flags := 15 }

/-! ## Shared lemmas: results, tick comparison, flag bits -/

theorem ok_of_not_halted {α : Type} (r : Except String α) (h : halted r = false) :
    ∃ a, r = Except.ok a := by
  cases r with
  | error e => simp [halted] at h
  | ok a => exact ⟨a, rfl⟩

theorem sched_is_before_irrefl (t : Nat) : sched_is_before t t = false := by
  unfold sched_is_before
  have h : t % 2 ^ 32 < 2 ^ 32 := Nat.mod_lt _ (by norm_num)
  simp only [decide_eq_false_iff_not, not_le]
  omega

theorem land_two_pow_eq_zero (x i : Nat) : x &&& 2 ^ i = 0 ↔ x.testBit i = false := by
  rw [Nat.and_two_pow]
  cases h : x.testBit i <;> simp

theorem SPF_ON_test (x : Nat) : x &&& SPF_ON = 0 ↔ x.testBit 0 = false :=
  land_two_pow_eq_zero x 0

theorem SPF_TOGGLING_test (x : Nat) : x &&& SPF_TOGGLING = 0 ↔ x.testBit 1 = false :=
  land_two_pow_eq_zero x 1

theorem SPF_CHECK_END_test (x : Nat) : x &&& SPF_CHECK_END = 0 ↔ x.testBit 2 = false :=
  land_two_pow_eq_zero x 2

theorem SPF_HAVE_NEXT_test (x : Nat) : x &&& SPF_HAVE_NEXT = 0 ↔ x.testBit 3 = false :=
  land_two_pow_eq_zero x 3

theorem SPF_NEXT_ON_test (x : Nat) : x &&& SPF_NEXT_ON = 0 ↔ x.testBit 4 = false :=
  land_two_pow_eq_zero x 4

theorem SPF_NEXT_TOGGLING_test (x : Nat) :
    x &&& SPF_NEXT_TOGGLING = 0 ↔ x.testBit 5 = false :=
  land_two_pow_eq_zero x 5

theorem SPF_NEXT_CHECK_END_test (x : Nat) :
    x &&& SPF_NEXT_CHECK_END = 0 ↔ x.testBit 6 = false :=
  land_two_pow_eq_zero x 6

/-- The bits of `next_flags` as computed on lines 245-258. -/
theorem next_flags_bits (s : soft_pwm_s) (value : Nat) :
    (schedule_soft_pwm_next s value).2.2.testBit 0 = false ∧
    (schedule_soft_pwm_next s value).2.2.testBit 1 = false ∧
    (schedule_soft_pwm_next s value).2.2.testBit 2 = true ∧
    (schedule_soft_pwm_next s value).2.2.testBit 3 = true ∧
    (schedule_soft_pwm_next s value).2.2.testBit 4 = decide (value ≠ 0) ∧
    (schedule_soft_pwm_next s value).2.2.testBit 5 = decide (value ≠ 0 ∧ value ≠ 255) ∧
    (schedule_soft_pwm_next s value).2.2.testBit 6 =
      (decide (s.max_duration ≠ 0) &&
        (decide (value ≠ 0 ∧ value ≠ 255) ||
          decide ((if value ≠ 0 then 1 else 0) ≠ s.default_value))) := by
  have e2 : SPF_CHECK_END = 2 ^ 2 := rfl
  have e3 : SPF_HAVE_NEXT = 2 ^ 3 := rfl
  have e4 : SPF_NEXT_ON = 2 ^ 4 := rfl
  have e5 : SPF_NEXT_TOGGLING = 2 ^ 5 := rfl
  have e6 : SPF_NEXT_CHECK_END = 2 ^ 6 := rfl
  unfold schedule_soft_pwm_next
  simp only [e2, e3, e4, e5, e6]
  split_ifs <;> simp only [Nat.testBit_or, Nat.testBit_two_pow, Nat.zero_testBit] <;>
    simp_all <;> tauto

/-! ## The schedule command of the soft-PWM controller -/

theorem schedule_halted_iff (s : soft_pwm_s) (clock value : Nat) :
    halted (command_schedule_soft_pwm_out s clock value) = true ↔
      (s.flags &&& SPF_CHECK_END ≠ 0 ∧ sched_is_before s.end_time (clock % 2 ^ 32) = true) := by
  unfold command_schedule_soft_pwm_out
  simp only []
  split
  · rename_i h
    exact ⟨fun _ => h, fun _ => rfl⟩
  · rename_i h
    simp only [h, iff_false]
    split <;> simp [halted]

theorem schedule_halt_message (s : soft_pwm_s) (clock value : Nat)
    (h : halted (command_schedule_soft_pwm_out s clock value) = true) :
    command_schedule_soft_pwm_out s clock value =
      Except.error "next soft pwm extends existing pwm" := by
  have h2 := (schedule_halted_iff s clock value).1 h
  unfold command_schedule_soft_pwm_out
  simp only []
  rw [if_pos h2]
  rfl

theorem schedule_end_time (s s1 : soft_pwm_s) (clock value : Nat)
    (h : command_schedule_soft_pwm_out s clock value = Except.ok s1) :
    s1.end_time = clock % 2 ^ 32 := by
  unfold command_schedule_soft_pwm_out at h
  simp only [] at h
  split at h
  · simp [shutdown] at h
  · split at h <;> (injection h with h; subst h; rfl)

theorem schedule_flags (s s1 : soft_pwm_s) (clock value : Nat)
    (h : command_schedule_soft_pwm_out s clock value = Except.ok s1) :
    s1.flags = (s.flags ||| (schedule_soft_pwm_next s (value % 2 ^ 8)).2.2) % 2 ^ 8 := by
  unfold command_schedule_soft_pwm_out at h
  simp only [] at h
  split at h
  · simp [shutdown] at h
  · split at h <;> (injection h with h; subst h; rfl)

theorem schedule_sets_check_end (s s1 : soft_pwm_s) (clock value : Nat)
    (h : command_schedule_soft_pwm_out s clock value = Except.ok s1) :
    s1.flags &&& SPF_CHECK_END ≠ 0 ∧ s1.flags &&& SPF_HAVE_NEXT ≠ 0 := by
  rw [Ne, Ne, SPF_CHECK_END_test, SPF_HAVE_NEXT_test, schedule_flags s s1 clock value h]
  have hb := next_flags_bits s (value % 2 ^ 8)
  simp only [Nat.testBit_mod_two_pow, Nat.testBit_or, hb.2.2.1, hb.2.2.2.1]
  simp

/-- C1 (the claim as stated fails): on the record left by `config(cycle_ticks=1000,
default_value=0, max_duration=5000)` and `schedule(1000, 64)` the must-check-end flag is
set and `end_time = 1000`; a schedule at `t = 500`, which is before `end_time`, does not
halt, and a schedule at `t = 2000`, which is after `end_time`, halts. -/
theorem schedule_soft_pwm_halt_direction_refuted :
    command_schedule_soft_pwm_out (command_config_soft_pwm_out 7 1000 0 5000) 1000 64
        = Except.ok soft_pwm_pending_64 ∧
      (soft_pwm_pending_64.flags &&& SPF_CHECK_END ≠ 0 ∧
        sched_is_before 500 soft_pwm_pending_64.end_time = true ∧
        halted (command_schedule_soft_pwm_out soft_pwm_pending_64 500 64) = false) ∧
      (sched_is_before 2000 soft_pwm_pending_64.end_time = false ∧
        halted (command_schedule_soft_pwm_out soft_pwm_pending_64 2000 64) = true) := by
  refine ⟨rfl, by decide, by decide⟩

/-- C1 (amended): `command_schedule_soft_pwm_out` halts, with the message "next soft pwm
extends existing pwm", if and only if the record's must-check-end flag is set and its
stored `end_time` is before the target time `t` (the signed 32-bit difference
`end_time - t` is negative). In every other case, `t` equal to `end_time` included, it
does not halt and stores `end_time = t`. For two successive schedule commands, the second
halts if and only if the `end_time` left by the first is before the second target. -/
theorem schedule_soft_pwm_halts_iff_end_before_target (s : soft_pwm_s) (clock value : Nat) :
    (halted (command_schedule_soft_pwm_out s clock value) = true ↔
      (s.flags &&& SPF_CHECK_END ≠ 0 ∧ sched_is_before s.end_time (clock % 2 ^ 32) = true)) ∧
    (halted (command_schedule_soft_pwm_out s clock value) = true →
      halt_message (command_schedule_soft_pwm_out s clock value)
        = some "next soft pwm extends existing pwm") ∧
    (halted (command_schedule_soft_pwm_out s clock value) = false →
      ∃ s1, command_schedule_soft_pwm_out s clock value = Except.ok s1 ∧
        s1.end_time = clock % 2 ^ 32) ∧
    (s.end_time = clock % 2 ^ 32 →
      halted (command_schedule_soft_pwm_out s clock value) = false) ∧
    (∀ s1 clock2 value2, command_schedule_soft_pwm_out s clock value = Except.ok s1 →
      (halted (command_schedule_soft_pwm_out s1 clock2 value2) = true ↔
        sched_is_before s1.end_time (clock2 % 2 ^ 32) = true)) := by
  refine ⟨schedule_halted_iff s clock value, ?_, ?_, ?_, ?_⟩
  · intro h
    rw [schedule_halt_message s clock value h]
    rfl
  · intro h
    obtain ⟨s1, hs1⟩ := ok_of_not_halted _ h
    exact ⟨s1, hs1, schedule_end_time s s1 clock value hs1⟩
  · intro h
    rw [Bool.eq_false_iff]
    intro hh
    have := ((schedule_halted_iff s clock value).1 hh).2
    rw [h, sched_is_before_irrefl] at this
    exact Bool.noConfusion this
  · intro s1 clock2 value2 h
    rw [schedule_halted_iff]
    exact ⟨fun hh => hh.2, fun hh => ⟨(schedule_sets_check_end s s1 clock value h).1, hh⟩⟩

theorem schedule_next_durations (s s1 : soft_pwm_s) (clock value : Nat)
    (h : command_schedule_soft_pwm_out s clock value = Except.ok s1) :
    s1.next_on_duration = (schedule_soft_pwm_next s (value % 2 ^ 8)).1 ∧
    s1.next_off_duration = (schedule_soft_pwm_next s (value % 2 ^ 8)).2.1 := by
  unfold command_schedule_soft_pwm_out at h
  simp only [] at h
  split at h
  · simp [shutdown] at h
  · split at h <;> (injection h with h; subst h; exact ⟨rfl, rfl⟩)

/-- The schedule command neither reads nor writes the pin handle. -/
theorem schedule_with_pin (s : soft_pwm_s) (g : gpio_out) (clock value : Nat) :
    command_schedule_soft_pwm_out { s with pin := g } clock value =
      (command_schedule_soft_pwm_out s clock value).map fun r => { r with pin := g } := by
  unfold command_schedule_soft_pwm_out
  simp only []
  have h : schedule_soft_pwm_next { s with pin := g } (value % 2 ^ 8)
      = schedule_soft_pwm_next s (value % 2 ^ 8) := rfl
  rw [h]
  split_ifs <;> rfl

/-- The load callback uses the pin handle only to write the loaded level to it. -/
theorem load_with_pin (s : soft_pwm_s) (g : gpio_out) :
    soft_pwm_load_event { s with pin := g } =
      (soft_pwm_load_event s).map fun r =>
        ({ r.1 with pin := gpio_out_write g (r.1.flags &&& SPF_ON) }, r.2) := by
  unfold soft_pwm_load_event
  simp only []
  split_ifs <;> rfl

/-- C2: `command_config_soft_pwm_out` stores `pulse_time = cycle_time / 255` for every
32-bit `cycle_time`; on a record that holds this `cycle_time` and `pulse_time`, a
`command_schedule_soft_pwm_out` with `value` in `0..255` that does not halt stores
`next_on_duration = next_off_duration = 0` when `value` is 0 or 255, and otherwise
`next_on_duration = pulse_time * value` (at most `cycle_time`) and
`next_off_duration = cycle_time - next_on_duration`. -/
theorem soft_pwm_duty_mapping (pin cycle_ticks default_value max_duration : Nat)
    (s s1 : soft_pwm_s) (clock value : Nat)
    (hc : cycle_ticks < 2 ^ 32) (hv : value ≤ 255)
    (hcycle : s.cycle_time =
      (command_config_soft_pwm_out pin cycle_ticks default_value max_duration).cycle_time)
    (hpulse : s.pulse_time =
      (command_config_soft_pwm_out pin cycle_ticks default_value max_duration).pulse_time)
    (hok : command_schedule_soft_pwm_out s clock value = Except.ok s1) :
    (command_config_soft_pwm_out pin cycle_ticks default_value max_duration).pulse_time
        = cycle_ticks / 255 ∧
      (value = 0 ∨ value = 255 → s1.next_on_duration = 0 ∧ s1.next_off_duration = 0) ∧
      (¬ (value = 0 ∨ value = 255) →
        s1.next_on_duration = s.pulse_time * value ∧
        s1.next_on_duration ≤ s.cycle_time ∧
        s1.next_off_duration = s.cycle_time - s1.next_on_duration) := by
  have hcfg : (command_config_soft_pwm_out pin cycle_ticks default_value max_duration).pulse_time
      = cycle_ticks / 255 := by
    show cycle_ticks % 2 ^ 32 / 255 = cycle_ticks / 255
    rw [Nat.mod_eq_of_lt hc]
  have hcfg2 : (command_config_soft_pwm_out pin cycle_ticks default_value max_duration).cycle_time
      = cycle_ticks := by
    show cycle_ticks % 2 ^ 32 = cycle_ticks
    rw [Nat.mod_eq_of_lt hc]
  rw [hcfg] at hpulse
  rw [hcfg2] at hcycle
  obtain ⟨hon, hoff⟩ := schedule_next_durations s s1 clock value hok
  have hv8 : value % 2 ^ 8 = value := Nat.mod_eq_of_lt (by omega)
  rw [hv8] at hon hoff
  refine ⟨hcfg, ?_, ?_⟩
  · intro h0
    rw [hon, hoff]
    unfold schedule_soft_pwm_next
    simp only [if_pos h0]
    exact ⟨trivial, trivial⟩
  · intro h0
    have hon2 : s1.next_on_duration = (s.pulse_time * value) % 2 ^ 32 := by
      rw [hon]; unfold schedule_soft_pwm_next; simp only [if_neg h0]
    have hoff2 : s1.next_off_duration =
        (s.cycle_time + (2 ^ 32 - (s.pulse_time * value) % 2 ^ 32)) % 2 ^ 32 := by
      rw [hoff]; unfold schedule_soft_pwm_next; simp only [if_neg h0]
    have h1 : s.pulse_time * value ≤ s.pulse_time * 254 :=
      Nat.mul_le_mul_left _ (by omega)
    have h2 : s.pulse_time * 255 ≤ cycle_ticks := by
      rw [hpulse]; exact Nat.div_mul_le_self _ _
    rw [hon2, hoff2, hcycle]
    generalize s.pulse_time * value = m at *
    have hm : m % 2 ^ 32 = m := Nat.mod_eq_of_lt (by omega)
    rw [hm]
    refine ⟨rfl, by omega, ?_⟩
    omega

/-- C2 (witness): `cycle_time = 2550` gives `pulse_time = 10`, and `value = 128` gives
`next_on_duration = 1280`, `next_off_duration = 1270`. -/
theorem soft_pwm_duty_mapping_witness :
    ((2550 : Nat) < 2 ^ 32 ∧ (128 : Nat) ≤ 255 ∧
      command_schedule_soft_pwm_out (command_config_soft_pwm_out 3 2550 0 0) 100 128
        = Except.ok soft_pwm_pending_128) ∧
    ((command_config_soft_pwm_out 3 2550 0 0).pulse_time = 2550 / 255 ∧
      ((128 : Nat) = 0 ∨ (128 : Nat) = 255 →
        soft_pwm_pending_128.next_on_duration = 0 ∧
          soft_pwm_pending_128.next_off_duration = 0) ∧
      (¬ ((128 : Nat) = 0 ∨ (128 : Nat) = 255) →
        soft_pwm_pending_128.next_on_duration
            = (command_config_soft_pwm_out 3 2550 0 0).pulse_time * 128 ∧
          soft_pwm_pending_128.next_on_duration
            ≤ (command_config_soft_pwm_out 3 2550 0 0).cycle_time ∧
          soft_pwm_pending_128.next_off_duration
            = (command_config_soft_pwm_out 3 2550 0 0).cycle_time
              - soft_pwm_pending_128.next_on_duration)) ∧
    ((command_config_soft_pwm_out 3 2550 0 0).pulse_time = 10 ∧
      soft_pwm_pending_128.next_on_duration = 1280 ∧
      soft_pwm_pending_128.next_off_duration = 1270) :=
  ⟨⟨by decide, by decide, rfl⟩,
    soft_pwm_duty_mapping 3 2550 0 0 (command_config_soft_pwm_out 3 2550 0 0)
      soft_pwm_pending_128 100 128 (by decide) (by decide) rfl rfl rfl,
    ⟨rfl, rfl, rfl⟩⟩

/-- C3 (the claim as stated fails): after `config(cycle_ticks=1000, default_value=0,
max_duration=5000)` and `schedule(clock=1000, value=64)` the load callback leaves
`on_duration = 192`, `off_duration = 808` and the toggle armed at `1192`, not
`250`, `750` and `1250`, because `pulse_time = 1000 / 255 = 3`. -/
theorem soft_pwm_scenario_durations_refuted :
    command_schedule_soft_pwm_out (command_config_soft_pwm_out 7 1000 0 5000) 1000 64
        = Except.ok soft_pwm_pending_64 ∧
      soft_pwm_load_event soft_pwm_pending_64
        = Except.ok (soft_pwm_loaded_64, sched_flag.SF_RESCHEDULE) ∧
      soft_pwm_loaded_64.on_duration ≠ 250 ∧
      soft_pwm_loaded_64.off_duration ≠ 750 ∧
      soft_pwm_loaded_64.timer.waketime ≠ 1250 := by
  refine ⟨rfl, rfl, by decide, by decide, by decide⟩

/-- C3 (amended): after `command_config_soft_pwm_out` with `cycle_ticks = 1000`,
`default_value = 0`, `max_duration = 5000` and `command_schedule_soft_pwm_out` with
`clock = 1000`, `value = 64`, the load callback is armed at wake time 1000; when it fires
the pin is written high, `on_duration = 192`, `off_duration = 808`, the timer is re-armed
with the toggle callback at wake time 1192, and `end_time = 6000`. -/
theorem soft_pwm_scenario_1000_64 (pin : Nat) :
    ∃ s1 s2 s3,
      command_schedule_soft_pwm_out (command_config_soft_pwm_out pin 1000 0 5000) 1000 64
        = Except.ok s1 ∧
      s1.timer = { func := timer_func.soft_pwm_load_event, waketime := 1000, armed := true } ∧
      soft_pwm_load_event s1 = Except.ok (s2, sched_flag.SF_RESCHEDULE) ∧
      s2.pin.level = true ∧
      s2.on_duration = 192 ∧
      s2.off_duration = 808 ∧
      s2.timer.func = timer_func.soft_pwm_toggle_event ∧
      s2.timer.waketime = 1192 ∧
      s2.end_time = 6000 ∧
      soft_pwm_fire s1 = Except.ok s3 ∧
      s3.timer =
        { func := timer_func.soft_pwm_toggle_event, waketime := 1192, armed := true } := by
  have hc : command_config_soft_pwm_out pin 1000 0 5000 =
      { command_config_soft_pwm_out 7 1000 0 5000 with pin := gpio_out_setup (pin % 2 ^ 32) 0 } :=
    rfl
  have h1 : command_schedule_soft_pwm_out (command_config_soft_pwm_out 7 1000 0 5000) 1000 64
      = Except.ok soft_pwm_pending_64 := rfl
  have h2 : soft_pwm_load_event soft_pwm_pending_64
      = Except.ok (soft_pwm_loaded_64, sched_flag.SF_RESCHEDULE) := rfl
  refine ⟨{ soft_pwm_pending_64 with pin := gpio_out_setup (pin % 2 ^ 32) 0 },
    { soft_pwm_loaded_64 with pin := gpio_out_write (gpio_out_setup (pin % 2 ^ 32) 0) 1 },
    { soft_pwm_loaded_64 with pin := gpio_out_write (gpio_out_setup (pin % 2 ^ 32) 0) 1 },
    ?_, rfl, ?_, rfl, rfl, rfl, rfl, rfl, rfl, ?_, rfl⟩
  · rw [hc, schedule_with_pin, h1]; rfl
  · rw [load_with_pin, h2]; rfl
  · unfold soft_pwm_fire
    show (soft_pwm_load_event _).map _ = _
    rw [load_with_pin, h2]; rfl

/-! ## The load callback of the soft-PWM controller -/

theorem testBit_false_of_lt {x i j : Nat} (h : x < 2 ^ i) (hij : i ≤ j) :
    x.testBit j = false :=
  Nat.testBit_lt_two_pow (lt_of_lt_of_le h (Nat.pow_le_pow_right (by decide) hij))

theorem load_halted_iff (s : soft_pwm_s) :
    halted (soft_pwm_load_event s) = true ↔ s.flags &&& SPF_HAVE_NEXT = 0 := by
  unfold soft_pwm_load_event
  simp only []
  split
  · rename_i h
    exact ⟨fun _ => h, fun _ => rfl⟩
  · rename_i h
    simp only [h, iff_false]
    split_ifs <;> simp [halted]

theorem load_halt_message (s : soft_pwm_s) (h : s.flags &&& SPF_HAVE_NEXT = 0) :
    soft_pwm_load_event s = Except.error "Missed scheduling of next pwm event" := by
  unfold soft_pwm_load_event
  simp only []
  rw [if_pos h]
  rfl

theorem load_ok (s : soft_pwm_s) (h : s.flags &&& SPF_HAVE_NEXT ≠ 0) :
    ∃ s1 r, soft_pwm_load_event s = Except.ok (s1, r) ∧
      s1.flags = (s.flags >>> 4) % 2 ^ 8 ∧
      s1.pin = gpio_out_write s.pin (((s.flags >>> 4) % 2 ^ 8) &&& SPF_ON) := by
  unfold soft_pwm_load_event
  simp only []
  rw [if_neg h]
  split_ifs <;> exact ⟨_, _, rfl, rfl, rfl⟩

/-- C4 (evaluation at the failing input): on the record left by `config(cycle_ticks=1000,
default_value=0, max_duration=5000)`, `schedule(1000, 128)` and then `schedule(1000, 0)`
issued before the load callback has fired, the schedule command has overwritten the
durations with `0`/`0` but has OR-ed the new flags onto the stale next-is-on and
next-is-toggling bits of the first request, so the load callback loads a toggling, on
program and writes the pin on although the last request was `value = 0`. -/
theorem soft_pwm_load_keeps_stale_next_flags :
    command_schedule_soft_pwm_out (command_config_soft_pwm_out 7 1000 0 5000) 1000 128
        = Except.ok soft_pwm_request_128 ∧
      command_schedule_soft_pwm_out soft_pwm_request_128 1000 0
        = Except.ok soft_pwm_request_128_then_0 ∧
      soft_pwm_load_event soft_pwm_request_128_then_0
        = Except.ok (soft_pwm_loaded_128_then_0, sched_flag.SF_RESCHEDULE) ∧
      soft_pwm_loaded_128_then_0.flags &&& SPF_TOGGLING ≠ 0 ∧
      soft_pwm_loaded_128_then_0.flags &&& SPF_ON ≠ 0 ∧
      soft_pwm_loaded_128_then_0.pin.level = true ∧
      soft_pwm_loaded_128_then_0.on_duration = 0 ∧
      soft_pwm_loaded_128_then_0.off_duration = 0 := by
  refine ⟨rfl, rfl, rfl, by decide, by decide, rfl, rfl, rfl⟩

/-- When the next half holds no stale next-is-on or next-is-toggling bit, the program
loaded after a schedule command is the one requested. -/
theorem load_after_schedule_without_pending (s s1 : soft_pwm_s) (clock value : Nat)
    (h4 : s.flags &&& SPF_NEXT_ON = 0) (h5 : s.flags &&& SPF_NEXT_TOGGLING = 0)
    (hok : command_schedule_soft_pwm_out s clock value = Except.ok s1) :
    ∃ s2 r, soft_pwm_load_event s1 = Except.ok (s2, r) ∧
      (s2.flags &&& SPF_TOGGLING ≠ 0 ↔ (0 < value % 2 ^ 8 ∧ value % 2 ^ 8 < 255)) ∧
      (s2.flags &&& SPF_ON ≠ 0 ↔ value % 2 ^ 8 ≠ 0) ∧
      (s2.pin.level = true ↔ value % 2 ^ 8 ≠ 0) := by
  obtain ⟨s2, r, hl, hflags, hpin⟩ := load_ok s1 (schedule_sets_check_end s s1 clock value hok).2
  have hb := next_flags_bits s (value % 2 ^ 8)
  have hv : value % 2 ^ 8 < 2 ^ 8 := Nat.mod_lt _ (by decide)
  rw [SPF_NEXT_ON_test] at h4
  rw [SPF_NEXT_TOGGLING_test] at h5
  have hon : s2.flags.testBit 0 = decide (value % 2 ^ 8 ≠ 0) := by
    rw [hflags, Nat.testBit_mod_two_pow, Nat.testBit_shiftRight,
      schedule_flags s s1 clock value hok, Nat.testBit_mod_two_pow, Nat.testBit_or, h4,
      hb.2.2.2.2.1]
    simp
  have htog : s2.flags.testBit 1 = decide (value % 2 ^ 8 ≠ 0 ∧ value % 2 ^ 8 ≠ 255) := by
    rw [hflags, Nat.testBit_mod_two_pow, Nat.testBit_shiftRight,
      schedule_flags s s1 clock value hok, Nat.testBit_mod_two_pow, Nat.testBit_or, h5,
      hb.2.2.2.2.2.1]
    simp
  refine ⟨s2, r, hl, ?_, ?_, ?_⟩
  · rw [Ne, SPF_TOGGLING_test, htog]
    simp only [Bool.decide_eq_false, Bool.not_eq_true, decide_eq_false_iff_not, not_not]
    omega
  · rw [Ne, SPF_ON_test, hon]
    simp
  · rw [hpin, ← hflags]
    show decide (s2.flags &&& SPF_ON ≠ 0) = true ↔ _
    rw [decide_eq_true_iff, Ne, SPF_ON_test, hon]
    simp

/-- C5: on a record whose flag word uses only the seven defined bits,
`soft_pwm_load_event` halts with "Missed scheduling of next pwm event" if and only if
have-next is clear; when it does not halt, the new flag word is the old one shifted right
by 4, so the current half equals the old next half, have-next and the whole next half are
clear, and a second firing of the load callback halts. -/
theorem soft_pwm_load_event_consumes_next (s : soft_pwm_s) (hf : s.flags < 128) :
    (halted (soft_pwm_load_event s) = true ↔ s.flags &&& SPF_HAVE_NEXT = 0) ∧
    (halted (soft_pwm_load_event s) = true →
      halt_message (soft_pwm_load_event s) = some "Missed scheduling of next pwm event") ∧
    (s.flags &&& SPF_HAVE_NEXT ≠ 0 →
      ∃ s1 r, soft_pwm_load_event s = Except.ok (s1, r) ∧
        s1.flags = s.flags >>> 4 ∧
        (s1.flags &&& SPF_ON ≠ 0 ↔ s.flags &&& SPF_NEXT_ON ≠ 0) ∧
        (s1.flags &&& SPF_TOGGLING ≠ 0 ↔ s.flags &&& SPF_NEXT_TOGGLING ≠ 0) ∧
        (s1.flags &&& SPF_CHECK_END ≠ 0 ↔ s.flags &&& SPF_NEXT_CHECK_END ≠ 0) ∧
        s1.flags &&& SPF_HAVE_NEXT = 0 ∧
        s1.flags &&& SPF_NEXT_ON = 0 ∧
        s1.flags &&& SPF_NEXT_TOGGLING = 0 ∧
        s1.flags &&& SPF_NEXT_CHECK_END = 0 ∧
        halted (soft_pwm_load_event s1) = true) := by
  refine ⟨load_halted_iff s, ?_, ?_⟩
  · intro h
    rw [load_halt_message s ((load_halted_iff s).1 h)]
    rfl
  · intro h
    obtain ⟨s1, r, hok, hflags, -⟩ := load_ok s h
    have hsh : (s.flags >>> 4) % 2 ^ 8 = s.flags >>> 4 := by
      rw [Nat.shiftRight_eq_div_pow]
      apply Nat.mod_eq_of_lt
      have : s.flags / 2 ^ 4 ≤ s.flags := Nat.div_le_self _ _
      omega
    rw [hsh] at hflags
    have h7 : s.flags < 2 ^ 7 := hf
    have hhave : s1.flags &&& SPF_HAVE_NEXT = 0 := by
      rw [SPF_HAVE_NEXT_test, hflags, Nat.testBit_shiftRight]
      exact testBit_false_of_lt h7 (by decide)
    refine ⟨s1, r, hok, hflags, ?_, ?_, ?_, hhave, ?_, ?_, ?_, ?_⟩
    · rw [Ne, Ne, SPF_ON_test, SPF_NEXT_ON_test, hflags, Nat.testBit_shiftRight]
    · rw [Ne, Ne, SPF_TOGGLING_test, SPF_NEXT_TOGGLING_test, hflags, Nat.testBit_shiftRight]
    · rw [Ne, Ne, SPF_CHECK_END_test, SPF_NEXT_CHECK_END_test, hflags, Nat.testBit_shiftRight]
    · rw [SPF_NEXT_ON_test, hflags, Nat.testBit_shiftRight]
      exact testBit_false_of_lt h7 (by decide)
    · rw [SPF_NEXT_TOGGLING_test, hflags, Nat.testBit_shiftRight]
      exact testBit_false_of_lt h7 (by decide)
    · rw [SPF_NEXT_CHECK_END_test, hflags, Nat.testBit_shiftRight]
      exact testBit_false_of_lt h7 (by decide)
    · exact (load_halted_iff s1).2 hhave

/-- C5 (witness): the record left by `config` and `schedule(1000, 64)`, flag word 124. -/
theorem soft_pwm_load_event_consumes_next_witness :
    soft_pwm_pending_64.flags < 128 ∧
    soft_pwm_pending_64.flags &&& SPF_HAVE_NEXT ≠ 0 ∧
    ∃ s1 r, soft_pwm_load_event soft_pwm_pending_64 = Except.ok (s1, r) ∧
      s1.flags = soft_pwm_pending_64.flags >>> 4 ∧
      (s1.flags &&& SPF_ON ≠ 0 ↔ soft_pwm_pending_64.flags &&& SPF_NEXT_ON ≠ 0) ∧
      (s1.flags &&& SPF_TOGGLING ≠ 0 ↔ soft_pwm_pending_64.flags &&& SPF_NEXT_TOGGLING ≠ 0) ∧
      (s1.flags &&& SPF_CHECK_END ≠ 0 ↔
        soft_pwm_pending_64.flags &&& SPF_NEXT_CHECK_END ≠ 0) ∧
      s1.flags &&& SPF_HAVE_NEXT = 0 ∧
      s1.flags &&& SPF_NEXT_ON = 0 ∧
      s1.flags &&& SPF_NEXT_TOGGLING = 0 ∧
      s1.flags &&& SPF_NEXT_CHECK_END = 0 ∧
      halted (soft_pwm_load_event s1) = true :=
  ⟨by decide, by decide,
    (soft_pwm_load_event_consumes_next soft_pwm_pending_64 (by decide)).2.2 (by decide)⟩

/-! ## Digital-out and hardware-PWM-out controllers -/

theorem digital_out_event_done (d : digital_out_s)
    (h : d.value = d.default_value ∨ d.max_duration = 0) :
    digital_out_event d = ({ d with pin := gpio_out_write d.pin d.value }, sched_flag.SF_DONE) := by
  unfold digital_out_event
  simp only []
  rw [if_pos h]

theorem digital_out_event_rearm (d : digital_out_s)
    (h : ¬ (d.value = d.default_value ∨ d.max_duration = 0)) :
    digital_out_event d =
      ({ d with
          pin := gpio_out_write d.pin d.value
          timer := { d.timer with
            waketime := (d.timer.waketime + d.max_duration) % 2 ^ 32
            func := timer_func.digital_end_event } },
        sched_flag.SF_RESCHEDULE) := by
  unfold digital_out_event
  simp only []
  rw [if_neg h]

theorem pwm_event_done (p : pwm_out_s)
    (h : p.value = p.default_value ∨ p.max_duration = 0) :
    pwm_event p = ({ p with pin := gpio_pwm_write p.pin p.value }, sched_flag.SF_DONE) := by
  unfold pwm_event
  simp only []
  rw [if_pos h]

theorem pwm_event_rearm (p : pwm_out_s)
    (h : ¬ (p.value = p.default_value ∨ p.max_duration = 0)) :
    pwm_event p =
      ({ p with
          pin := gpio_pwm_write p.pin p.value
          timer := { p.timer with
            waketime := (p.timer.waketime + p.max_duration) % 2 ^ 32
            func := timer_func.digital_end_event } },
        sched_flag.SF_RESCHEDULE) := by
  unfold pwm_event
  simp only []
  rw [if_neg h]

/-- C6: for the digital-out and the hardware-PWM-out controller, for every record and every
`schedule(target_time, value)`: the command arms the write callback at `target_time`, and
when that timer fires the callback writes exactly the scheduled value to the pin, whatever
it returns. It returns done if and only if `value == default_value` or
`max_duration == 0`; in that case it changes neither the wake time nor the callback of the
timer, the timer is left unarmed, and a later shutdown sweep writes the pin to
`default_value`. -/
theorem scheduled_write_without_followup (d : digital_out_s) (p : pwm_out_s)
    (clock value : Nat) :
    ((command_schedule_digital_out d clock value).timer =
        { func := timer_func.digital_out_event, waketime := clock % 2 ^ 32, armed := true } ∧
      (digital_out_event (command_schedule_digital_out d clock value)).1.pin
        = gpio_out_write d.pin (value % 2 ^ 8) ∧
      (∃ d2, digital_out_fire (command_schedule_digital_out d clock value) = Except.ok d2 ∧
        d2.pin = gpio_out_write d.pin (value % 2 ^ 8)) ∧
      ((digital_out_event (command_schedule_digital_out d clock value)).2
          = sched_flag.SF_DONE ↔
        (value % 2 ^ 8 = d.default_value ∨ d.max_duration = 0)) ∧
      ((value % 2 ^ 8 = d.default_value ∨ d.max_duration = 0) →
        (digital_out_event (command_schedule_digital_out d clock value)).2
          = sched_flag.SF_DONE ∧
        (digital_out_event (command_schedule_digital_out d clock value)).1.timer
          = (command_schedule_digital_out d clock value).timer ∧
        ∃ d2, digital_out_fire (command_schedule_digital_out d clock value) = Except.ok d2 ∧
          d2.pin = gpio_out_write d.pin (value % 2 ^ 8) ∧
          d2.timer.armed = false ∧
          (digital_out_shutdown [d2]).map (fun r => r.pin)
            = [gpio_out_write d2.pin d.default_value])) ∧
    ((command_schedule_pwm_out p clock value).timer =
        { func := timer_func.pwm_event, waketime := clock % 2 ^ 32, armed := true } ∧
      (pwm_event (command_schedule_pwm_out p clock value)).1.pin
        = gpio_pwm_write p.pin (value % 2 ^ 8) ∧
      (∃ p2, pwm_out_fire (command_schedule_pwm_out p clock value) = Except.ok p2 ∧
        p2.pin = gpio_pwm_write p.pin (value % 2 ^ 8)) ∧
      ((pwm_event (command_schedule_pwm_out p clock value)).2 = sched_flag.SF_DONE ↔
        (value % 2 ^ 8 = p.default_value ∨ p.max_duration = 0)) ∧
      ((value % 2 ^ 8 = p.default_value ∨ p.max_duration = 0) →
        (pwm_event (command_schedule_pwm_out p clock value)).2 = sched_flag.SF_DONE ∧
        (pwm_event (command_schedule_pwm_out p clock value)).1.timer
          = (command_schedule_pwm_out p clock value).timer ∧
        ∃ p2, pwm_out_fire (command_schedule_pwm_out p clock value) = Except.ok p2 ∧
          p2.pin = gpio_pwm_write p.pin (value % 2 ^ 8) ∧
          p2.timer.armed = false ∧
          (pwm_shutdown [p2]).map (fun r => r.pin)
            = [gpio_pwm_write p2.pin p.default_value])) := by
  have hdpin : (digital_out_event (command_schedule_digital_out d clock value)).1.pin
      = gpio_out_write d.pin (value % 2 ^ 8) := by
    by_cases h : (command_schedule_digital_out d clock value).value
        = (command_schedule_digital_out d clock value).default_value ∨
        (command_schedule_digital_out d clock value).max_duration = 0
    · rw [digital_out_event_done _ h]; rfl
    · rw [digital_out_event_rearm _ h]; rfl
  have hppin : (pwm_event (command_schedule_pwm_out p clock value)).1.pin
      = gpio_pwm_write p.pin (value % 2 ^ 8) := by
    by_cases h : (command_schedule_pwm_out p clock value).value
        = (command_schedule_pwm_out p clock value).default_value ∨
        (command_schedule_pwm_out p clock value).max_duration = 0
    · rw [pwm_event_done _ h]; rfl
    · rw [pwm_event_rearm _ h]; rfl
  have hdiff : (digital_out_event (command_schedule_digital_out d clock value)).2
      = sched_flag.SF_DONE ↔ (value % 2 ^ 8 = d.default_value ∨ d.max_duration = 0) := by
    constructor
    · intro hdone
      by_contra h
      have h1 : ¬ ((command_schedule_digital_out d clock value).value
          = (command_schedule_digital_out d clock value).default_value ∨
          (command_schedule_digital_out d clock value).max_duration = 0) := h
      rw [digital_out_event_rearm _ h1] at hdone
      exact sched_flag.noConfusion hdone
    · intro h
      have h1 : (command_schedule_digital_out d clock value).value
          = (command_schedule_digital_out d clock value).default_value ∨
          (command_schedule_digital_out d clock value).max_duration = 0 := h
      rw [digital_out_event_done _ h1]
  have hpiff : (pwm_event (command_schedule_pwm_out p clock value)).2
      = sched_flag.SF_DONE ↔ (value % 2 ^ 8 = p.default_value ∨ p.max_duration = 0) := by
    constructor
    · intro hdone
      by_contra h
      have h1 : ¬ ((command_schedule_pwm_out p clock value).value
          = (command_schedule_pwm_out p clock value).default_value ∨
          (command_schedule_pwm_out p clock value).max_duration = 0) := h
      rw [pwm_event_rearm _ h1] at hdone
      exact sched_flag.noConfusion hdone
    · intro h
      have h1 : (command_schedule_pwm_out p clock value).value
          = (command_schedule_pwm_out p clock value).default_value ∨
          (command_schedule_pwm_out p clock value).max_duration = 0 := h
      rw [pwm_event_done _ h1]
  constructor
  · refine ⟨rfl, hdpin, ⟨_, rfl, hdpin⟩, hdiff, ?_⟩
    intro hd
    have hd1 : (command_schedule_digital_out d clock value).value
        = (command_schedule_digital_out d clock value).default_value ∨
        (command_schedule_digital_out d clock value).max_duration = 0 := hd
    refine ⟨hdiff.2 hd, ?_, ?_⟩
    · rw [digital_out_event_done _ hd1]
    · unfold digital_out_fire
      show ∃ d2, Except.ok _ = Except.ok d2 ∧ _
      rw [digital_out_event_done _ hd1]
      exact ⟨_, rfl, rfl, rfl, rfl⟩
  · refine ⟨rfl, hppin, ⟨_, rfl, hppin⟩, hpiff, ?_⟩
    intro hp
    have hp1 : (command_schedule_pwm_out p clock value).value
        = (command_schedule_pwm_out p clock value).default_value ∨
        (command_schedule_pwm_out p clock value).max_duration = 0 := hp
    refine ⟨hpiff.2 hp, ?_, ?_⟩
    · rw [pwm_event_done _ hp1]
    · unfold pwm_out_fire
      show ∃ p2, Except.ok _ = Except.ok p2 ∧ _
      rw [pwm_event_done _ hp1]
      exact ⟨_, rfl, rfl, rfl, rfl⟩

/-- C6 (witness): `default_value = 0`, `max_duration = 0`, `schedule(2000, 1)` writes 1,
arms nothing further, and the shutdown sweep writes the pin back to 0. -/
theorem scheduled_write_without_followup_witness :
    ((1 % 2 ^ 8 = (command_config_digital_out 5 0 0).default_value ∨
        (command_config_digital_out 5 0 0).max_duration = 0) ∧
      (1 % 2 ^ 8 = (command_config_pwm_out 6 1000 0 0).default_value ∨
        (command_config_pwm_out 6 1000 0 0).max_duration = 0)) ∧
    ((digital_out_event
        (command_schedule_digital_out (command_config_digital_out 5 0 0) 2000 1)).2
        = sched_flag.SF_DONE ∧
      (pwm_event (command_schedule_pwm_out (command_config_pwm_out 6 1000 0 0) 2000 1)).2
        = sched_flag.SF_DONE) ∧
    (digital_out_fire (command_schedule_digital_out (command_config_digital_out 5 0 0) 2000 1)
        = Except.ok digital_out_written_1 ∧
      digital_out_written_1.pin = { pin := 5, level := true } ∧
      digital_out_shutdown [digital_out_written_1]
        = [{ digital_out_written_1 with pin := { pin := 5, level := false } }] ∧
      pwm_out_fire (command_schedule_pwm_out (command_config_pwm_out 6 1000 0 0) 2000 1)
        = Except.ok pwm_out_written_1 ∧
      pwm_out_written_1.pin = { pin := 6, cycle_ticks := 1000, duty := 1 } ∧
      pwm_shutdown [pwm_out_written_1]
        = [{ pwm_out_written_1 with pin := { pin := 6, cycle_ticks := 1000, duty := 0 } }]) :=
  ⟨⟨by decide, by decide⟩,
    ⟨((scheduled_write_without_followup (command_config_digital_out 5 0 0)
        (command_config_pwm_out 6 1000 0 0) 2000 1).1.2.2.2.2 (by decide)).1,
      ((scheduled_write_without_followup (command_config_digital_out 5 0 0)
        (command_config_pwm_out 6 1000 0 0) 2000 1).2.2.2.2.2 (by decide)).1⟩,
    ⟨rfl, rfl, rfl, rfl, rfl, rfl⟩⟩

theorem add_mod_pow32 (a b : Nat) : (a % 2 ^ 32 + b) % 2 ^ 32 = (a + b) % 2 ^ 32 := by
  omega

/-- C7: for the digital-out and the hardware-PWM-out controller, with
`value != default_value` and `max_duration = D != 0`, when the timer armed by
`schedule(target_time, value)` fires the callback returns reschedule and leaves the timer
armed at wake time `target_time + D` (modulo `2^32`) with the callback
`digital_end_event`; firing that timer halts with "Missed scheduling of next pin event",
`digital_end_event` halts on every record, and a schedule command issued first replaces
the callback and the wake time, after which firing does not halt. -/
theorem scheduled_write_arms_revert_deadline (d : digital_out_s) (p : pwm_out_s)
    (clock value : Nat)
    (hdv : value % 2 ^ 8 ≠ d.default_value) (hdm : d.max_duration ≠ 0)
    (hpv : value % 2 ^ 8 ≠ p.default_value) (hpm : p.max_duration ≠ 0) :
    ((digital_out_event (command_schedule_digital_out d clock value)).2
        = sched_flag.SF_RESCHEDULE ∧
      (∃ d2, digital_out_fire (command_schedule_digital_out d clock value) = Except.ok d2 ∧
        d2.timer = { func := timer_func.digital_end_event
                     waketime := (clock + d.max_duration) % 2 ^ 32
                     armed := true } ∧
        digital_out_fire d2 = Except.error "Missed scheduling of next pin event" ∧
        ∀ clock2 value2,
          (command_schedule_digital_out d2 clock2 value2).timer =
            { func := timer_func.digital_out_event, waketime := clock2 % 2 ^ 32
              armed := true } ∧
          halted (digital_out_fire (command_schedule_digital_out d2 clock2 value2)) = false)) ∧
    ((pwm_event (command_schedule_pwm_out p clock value)).2 = sched_flag.SF_RESCHEDULE ∧
      (∃ p2, pwm_out_fire (command_schedule_pwm_out p clock value) = Except.ok p2 ∧
        p2.timer = { func := timer_func.digital_end_event
                     waketime := (clock + p.max_duration) % 2 ^ 32
                     armed := true } ∧
        pwm_out_fire p2 = Except.error "Missed scheduling of next pin event" ∧
        ∀ clock2 value2,
          (command_schedule_pwm_out p2 clock2 value2).timer =
            { func := timer_func.pwm_event, waketime := clock2 % 2 ^ 32, armed := true } ∧
          halted (pwm_out_fire (command_schedule_pwm_out p2 clock2 value2)) = false)) ∧
    (∀ x : digital_out_s, halt_message (digital_end_event x)
        = some "Missed scheduling of next pin event") ∧
    (∀ x : pwm_out_s, halt_message (digital_end_event x)
        = some "Missed scheduling of next pin event") := by
  have hd1 : ¬ ((command_schedule_digital_out d clock value).value
      = (command_schedule_digital_out d clock value).default_value ∨
      (command_schedule_digital_out d clock value).max_duration = 0) := by
    rintro (h | h)
    · exact hdv h
    · exact hdm h
  have hp1 : ¬ ((command_schedule_pwm_out p clock value).value
      = (command_schedule_pwm_out p clock value).default_value ∨
      (command_schedule_pwm_out p clock value).max_duration = 0) := by
    rintro (h | h)
    · exact hpv h
    · exact hpm h
  refine ⟨⟨?_, ?_⟩, ⟨?_, ?_⟩, fun _ => rfl, fun _ => rfl⟩
  · rw [digital_out_event_rearm _ hd1]
  · unfold digital_out_fire
    show ∃ d2, Except.ok _ = Except.ok d2 ∧ _
    rw [digital_out_event_rearm _ hd1]
    refine ⟨_, rfl, ?_, rfl, fun clock2 value2 => ⟨rfl, rfl⟩⟩
    show timer.mk _ _ _ = _
    congr 1
    exact add_mod_pow32 clock d.max_duration
  · rw [pwm_event_rearm _ hp1]
  · unfold pwm_out_fire
    show ∃ p2, Except.ok _ = Except.ok p2 ∧ _
    rw [pwm_event_rearm _ hp1]
    refine ⟨_, rfl, ?_, rfl, fun clock2 value2 => ⟨rfl, rfl⟩⟩
    show timer.mk _ _ _ = _
    congr 1
    exact add_mod_pow32 clock p.max_duration

/-- C7 (witness): `default_value = 0`, `max_duration = 300`, `schedule(2000, 1)`. -/
theorem scheduled_write_arms_revert_deadline_witness :
    ((1 % 2 ^ 8 ≠ (command_config_digital_out 5 0 300).default_value ∧
        (command_config_digital_out 5 0 300).max_duration ≠ 0) ∧
      (1 % 2 ^ 8 ≠ (command_config_pwm_out 6 1000 0 300).default_value ∧
        (command_config_pwm_out 6 1000 0 300).max_duration ≠ 0)) ∧
    ((digital_out_event
        (command_schedule_digital_out (command_config_digital_out 5 0 300) 2000 1)).2
        = sched_flag.SF_RESCHEDULE ∧
      (pwm_event (command_schedule_pwm_out (command_config_pwm_out 6 1000 0 300) 2000 1)).2
        = sched_flag.SF_RESCHEDULE) ∧
    (digital_out_fire (command_schedule_digital_out (command_config_digital_out 5 0 300) 2000 1)
        = Except.ok digital_out_deadline_2300 ∧
      digital_out_fire digital_out_deadline_2300
        = Except.error "Missed scheduling of next pin event" ∧
      pwm_out_fire (command_schedule_pwm_out (command_config_pwm_out 6 1000 0 300) 2000 1)
        = Except.ok pwm_out_deadline_2300 ∧
      pwm_out_fire pwm_out_deadline_2300
        = Except.error "Missed scheduling of next pin event") :=
  ⟨⟨⟨by decide, by decide⟩, ⟨by decide, by decide⟩⟩,
    ⟨(scheduled_write_arms_revert_deadline (command_config_digital_out 5 0 300)
        (command_config_pwm_out 6 1000 0 300) 2000 1
        (by decide) (by decide) (by decide) (by decide)).1.1,
      (scheduled_write_arms_revert_deadline (command_config_digital_out 5 0 300)
        (command_config_pwm_out 6 1000 0 300) 2000 1
        (by decide) (by decide) (by decide) (by decide)).2.1.1⟩,
    ⟨rfl, rfl, rfl, rfl⟩⟩

/-! ## The toggle callback and the reachable records of the soft-PWM controller -/

theorem toggle_event_fields (s : soft_pwm_s) :
    (soft_pwm_toggle_event s).1.on_duration = s.on_duration ∧
    (soft_pwm_toggle_event s).1.off_duration = s.off_duration ∧
    (soft_pwm_toggle_event s).1.end_time = s.end_time ∧
    (soft_pwm_toggle_event s).1.pin = gpio_out_toggle s.pin ∧
    (soft_pwm_toggle_event s).1.flags = (s.flags ^^^ SPF_ON) % 2 ^ 8 ∧
    (soft_pwm_toggle_event s).1.timer.armed = s.timer.armed ∧
    (soft_pwm_toggle_event s).2 = sched_flag.SF_RESCHEDULE := by
  unfold soft_pwm_toggle_event
  simp only []
  split_ifs <;> exact ⟨rfl, rfl, rfl, rfl, rfl, rfl, rfl⟩

/-- The wake time a toggle firing computes before the end check. -/
theorem toggle_event_timer (s : soft_pwm_s) :
    ((s.flags ^^^ SPF_ON) % 2 ^ 8 &&& SPF_CHECK_END ≠ 0 ∧
        sched_is_before
          (if (s.flags ^^^ SPF_ON) % 2 ^ 8 &&& SPF_ON ≠ 0
            then (s.timer.waketime + s.on_duration) % 2 ^ 32
            else (s.timer.waketime + s.off_duration) % 2 ^ 32) s.end_time = false →
      (soft_pwm_toggle_event s).1.timer =
        { s.timer with func := timer_func.soft_pwm_load_event, waketime := s.end_time }) ∧
    (¬ ((s.flags ^^^ SPF_ON) % 2 ^ 8 &&& SPF_CHECK_END ≠ 0 ∧
        sched_is_before
          (if (s.flags ^^^ SPF_ON) % 2 ^ 8 &&& SPF_ON ≠ 0
            then (s.timer.waketime + s.on_duration) % 2 ^ 32
            else (s.timer.waketime + s.off_duration) % 2 ^ 32) s.end_time = false) →
      (soft_pwm_toggle_event s).1.timer =
        { s.timer with waketime :=
            if (s.flags ^^^ SPF_ON) % 2 ^ 8 &&& SPF_ON ≠ 0
              then (s.timer.waketime + s.on_duration) % 2 ^ 32
              else (s.timer.waketime + s.off_duration) % 2 ^ 32 }) := by
  unfold soft_pwm_toggle_event
  simp only []
  constructor
  · intro h
    rw [if_pos h]
  · intro h
    rw [if_neg h]

theorem xor_SPF_ON_testBit_zero (x : Nat) :
    ((x ^^^ SPF_ON) % 2 ^ 8).testBit 0 = !x.testBit 0 := by
  have e : SPF_ON = 2 ^ 0 := rfl
  rw [Nat.testBit_mod_two_pow, Nat.testBit_xor, e, Nat.testBit_two_pow_self]
  simp

theorem xor_SPF_ON_testBit_succ (x i : Nat) (hi : i + 1 < 8) :
    ((x ^^^ SPF_ON) % 2 ^ 8).testBit (i + 1) = x.testBit (i + 1) := by
  have e : SPF_ON = 2 ^ 0 := rfl
  rw [Nat.testBit_mod_two_pow, Nat.testBit_xor, e, Nat.testBit_two_pow]
  simp [hi]


theorem toggle_run_parity (s0 : soft_pwm_s) (hon : s0.flags.testBit 0 = true)
    (hpin : s0.pin.level = true) (j : Nat) :
    (soft_pwm_toggle_run s0 j).on_duration = s0.on_duration ∧
    (soft_pwm_toggle_run s0 j).off_duration = s0.off_duration ∧
    (soft_pwm_toggle_run s0 j).end_time = s0.end_time ∧
    (soft_pwm_toggle_run s0 j).flags.testBit 0 = decide (j % 2 = 0) ∧
    (soft_pwm_toggle_run s0 j).pin.level = decide (j % 2 = 0) := by
  induction j with
  | zero => exact ⟨rfl, rfl, rfl, by simpa using hon, by simpa using hpin⟩
  | succ j ih =>
    obtain ⟨h1, h2, h3, h4, h5⟩ := ih
    obtain ⟨f1, f2, f3, f4, f5, -, -⟩ := toggle_event_fields (soft_pwm_toggle_run s0 j)
    refine ⟨?_, ?_, ?_, ?_, ?_⟩
    · show (soft_pwm_toggle_event (soft_pwm_toggle_run s0 j)).1.on_duration = _
      rw [f1, h1]
    · show (soft_pwm_toggle_event (soft_pwm_toggle_run s0 j)).1.off_duration = _
      rw [f2, h2]
    · show (soft_pwm_toggle_event (soft_pwm_toggle_run s0 j)).1.end_time = _
      rw [f3, h3]
    · show (soft_pwm_toggle_event (soft_pwm_toggle_run s0 j)).1.flags.testBit 0 = _
      rw [f5, xor_SPF_ON_testBit_zero, h4]
      rcases Nat.mod_two_eq_zero_or_one j with h | h <;>
        simp [h, Nat.succ_mod_two_eq_zero_iff, Nat.add_mod]
    · show (soft_pwm_toggle_event (soft_pwm_toggle_run s0 j)).1.pin.level = _
      rw [f4]
      show (!(soft_pwm_toggle_run s0 j).pin.level) = _
      rw [h5]
      rcases Nat.mod_two_eq_zero_or_one j with h | h <;>
        simp [h, Nat.succ_mod_two_eq_zero_iff, Nat.add_mod]

theorem toggle_run_waketime (s0 : soft_pwm_s) (t0 : Nat)
    (hw : s0.timer.waketime = (t0 + s0.on_duration) % 2 ^ 32)
    (hon : s0.flags.testBit 0 = true) (hpin : s0.pin.level = true) (j : Nat)
    (hno : ∀ i, i ≤ j →
      (soft_pwm_toggle_run s0 i).timer.func = timer_func.soft_pwm_toggle_event) :
    (soft_pwm_toggle_run s0 j).timer.waketime =
      (t0 + (j + 2) / 2 * s0.on_duration + (j + 1) / 2 * s0.off_duration) % 2 ^ 32 := by
  induction j with
  | zero =>
    show s0.timer.waketime = _
    rw [hw]
    simp
  | succ j ih =>
    have ihj := ih (fun i hi => hno i (Nat.le_succ_of_le hi))
    have hf := hno (j + 1) (Nat.le_refl _)
    obtain ⟨h1, h2, -, -, -⟩ := toggle_run_parity s0 hon hpin j
    obtain ⟨-, -, -, h4, -⟩ := toggle_run_parity s0 hon hpin (j + 1)
    obtain ⟨t1, t2⟩ := toggle_event_timer (soft_pwm_toggle_run s0 j)
    have hflags : (soft_pwm_toggle_run s0 (j + 1)).flags
        = ((soft_pwm_toggle_run s0 j).flags ^^^ SPF_ON) % 2 ^ 8 :=
      (toggle_event_fields (soft_pwm_toggle_run s0 j)).2.2.2.2.1
    by_cases hc : (((soft_pwm_toggle_run s0 j).flags ^^^ SPF_ON) % 2 ^ 8 &&& SPF_CHECK_END ≠ 0 ∧
        sched_is_before
          (if ((soft_pwm_toggle_run s0 j).flags ^^^ SPF_ON) % 2 ^ 8 &&& SPF_ON ≠ 0
            then ((soft_pwm_toggle_run s0 j).timer.waketime
              + (soft_pwm_toggle_run s0 j).on_duration) % 2 ^ 32
            else ((soft_pwm_toggle_run s0 j).timer.waketime
              + (soft_pwm_toggle_run s0 j).off_duration) % 2 ^ 32)
          (soft_pwm_toggle_run s0 j).end_time = false)
    · have := t1 hc
      have hh : (soft_pwm_toggle_run s0 (j + 1)).timer.func = timer_func.soft_pwm_load_event := by
        show (soft_pwm_toggle_event (soft_pwm_toggle_run s0 j)).1.timer.func = _
        rw [this]
      rw [hh] at hf
      exact absurd hf (by decide)
    · have := t2 hc
      show (soft_pwm_toggle_event (soft_pwm_toggle_run s0 j)).1.timer.waketime = _
      rw [this]
      show (if ((soft_pwm_toggle_run s0 j).flags ^^^ SPF_ON) % 2 ^ 8 &&& SPF_ON ≠ 0
            then ((soft_pwm_toggle_run s0 j).timer.waketime
              + (soft_pwm_toggle_run s0 j).on_duration) % 2 ^ 32
            else ((soft_pwm_toggle_run s0 j).timer.waketime
              + (soft_pwm_toggle_run s0 j).off_duration) % 2 ^ 32) = _
      have hbit : ((soft_pwm_toggle_run s0 (j + 1)).flags &&& SPF_ON ≠ 0) ↔ (j + 1) % 2 = 0 := by
        rw [Ne, SPF_ON_test, h4]
        simp
      rw [← hflags]
      simp only [hbit]
      rw [ihj, h1, h2]
      generalize s0.on_duration = A
      generalize s0.off_duration = B
      rcases Nat.even_or_odd' j with ⟨m, rfl | rfl⟩
      · have e1 : (2 * m + 1) % 2 = 1 := by omega
        have e2 : (2 * m + 2) / 2 = m + 1 := by omega
        have e3 : (2 * m + 1) / 2 = m := by omega
        have e4 : (2 * m + 1 + 2) / 2 = m + 1 := by omega
        have e5 : (2 * m + 1 + 1) / 2 = m + 1 := by omega
        simp only [e1, e2, e3, e4, e5]
        simp only [Nat.add_mul, Nat.one_mul]
        generalize m * A = a
        generalize m * B = b
        norm_num
        omega
      · have e1 : (2 * m + 1 + 1) % 2 = 0 := by omega
        have e2 : (2 * m + 1 + 2) / 2 = m + 1 := by omega
        have e3 : (2 * m + 1 + 1) / 2 = m + 1 := by omega
        have e4 : (2 * m + 1 + 1 + 2) / 2 = m + 2 := by omega
        have e5 : (2 * m + 1 + 1 + 1) / 2 = m + 1 := by omega
        simp only [e1, e2, e3, e4, e5]
        simp only [Nat.add_mul, Nat.one_mul]
        generalize m * A = a
        generalize m * B = b
        norm_num
        omega


theorem load_event_toggling_eq (s : soft_pwm_s) (hn : s.flags &&& SPF_HAVE_NEXT ≠ 0)
    (ht : (s.flags >>> 4) % 2 ^ 8 &&& SPF_TOGGLING ≠ 0) :
    soft_pwm_load_event s = Except.ok
      ({ s with
          flags := (s.flags >>> 4) % 2 ^ 8
          pin := gpio_out_write s.pin ((s.flags >>> 4) % 2 ^ 8 &&& SPF_ON)
          timer := { s.timer with
            func := timer_func.soft_pwm_toggle_event
            waketime := (s.end_time + s.next_on_duration) % 2 ^ 32 }
          off_duration := s.next_off_duration
          on_duration := s.next_on_duration
          end_time := (s.end_time + s.max_duration) % 2 ^ 32 },
        sched_flag.SF_RESCHEDULE) := by
  unfold soft_pwm_load_event
  simp only []
  rw [if_neg hn, if_neg ht]

theorem load_ok_have_next (s s0 : soft_pwm_s) (r : sched_flag)
    (h : soft_pwm_load_event s = Except.ok (s0, r)) : s.flags &&& SPF_HAVE_NEXT ≠ 0 := by
  intro hn
  rw [load_halt_message s hn] at h
  exact Except.noConfusion h

theorem load_event_steady_done_eq (s : soft_pwm_s) (hn : s.flags &&& SPF_HAVE_NEXT ≠ 0)
    (ht : (s.flags >>> 4) % 2 ^ 8 &&& SPF_TOGGLING = 0)
    (hc : (s.flags >>> 4) % 2 ^ 8 &&& SPF_CHECK_END = 0) :
    soft_pwm_load_event s = Except.ok
      ({ s with
          flags := (s.flags >>> 4) % 2 ^ 8
          pin := gpio_out_write s.pin ((s.flags >>> 4) % 2 ^ 8 &&& SPF_ON) },
        sched_flag.SF_DONE) := by
  unfold soft_pwm_load_event
  simp only []
  rw [if_neg hn, if_pos ht, if_pos hc]

theorem load_event_steady_check_eq (s : soft_pwm_s) (hn : s.flags &&& SPF_HAVE_NEXT ≠ 0)
    (ht : (s.flags >>> 4) % 2 ^ 8 &&& SPF_TOGGLING = 0)
    (hc : (s.flags >>> 4) % 2 ^ 8 &&& SPF_CHECK_END ≠ 0) :
    soft_pwm_load_event s = Except.ok
      ({ s with
          flags := (s.flags >>> 4) % 2 ^ 8
          pin := gpio_out_write s.pin ((s.flags >>> 4) % 2 ^ 8 &&& SPF_ON)
          end_time := (s.end_time + s.max_duration) % 2 ^ 32
          timer := { s.timer with waketime := (s.end_time + s.max_duration) % 2 ^ 32 } },
        sched_flag.SF_RESCHEDULE) := by
  unfold soft_pwm_load_event
  simp only []
  rw [if_neg hn, if_pos ht, if_neg hc]

/-- The current half of the loaded flag word is the old next half. -/
theorem shifted_flags_testBit (x i : Nat) (hi : i < 4) :
    ((x >>> 4) % 2 ^ 8).testBit i = x.testBit (4 + i) := by
  rw [Nat.testBit_mod_two_pow, Nat.testBit_shiftRight]
  have : i < 8 := by omega
  simp [this]

/-- C8 (the claim as stated fails): after the load at `t0 = 1000` of the program
`A = 192`, `B = 808`, the first two firings of the toggle callback do not hand over, and
the second firing happens at wake time `2000 = t0 + A + B`, whereas the stated formula
`t0 + ceil(k/2)*A + floor((k-1)/2)*B` gives `1192` for `k = 2`. -/
theorem soft_pwm_second_toggle_time_refuted :
    soft_pwm_load_event soft_pwm_pending_64
        = Except.ok (soft_pwm_loaded_64, sched_flag.SF_RESCHEDULE) ∧
      (∀ j, j < 2 →
        (soft_pwm_toggle_run soft_pwm_loaded_64 j).timer.func
          = timer_func.soft_pwm_toggle_event) ∧
      (soft_pwm_toggle_run soft_pwm_loaded_64 (2 - 1)).timer.waketime = 2000 ∧
      (soft_pwm_pending_64.end_time + (2 + 1) / 2 * soft_pwm_loaded_64.on_duration
        + (2 - 1) / 2 * soft_pwm_loaded_64.off_duration) % 2 ^ 32 = 1192 ∧
      (soft_pwm_toggle_run soft_pwm_loaded_64 (2 - 1)).timer.waketime ≠
        (soft_pwm_pending_64.end_time + (2 + 1) / 2 * soft_pwm_loaded_64.on_duration
          + (2 - 1) / 2 * soft_pwm_loaded_64.off_duration) % 2 ^ 32 := by
  refine ⟨rfl, by decide, by decide, by decide, by decide⟩

/-- C8 (amended): let `soft_pwm_load_event`, entered with `end_time = t0`, load a toggling
program with the pin on, `on_duration = A` and `off_duration = B` (pin written on, first
toggle armed at `t0 + A`). Then for every `k >= 1` such that no handover to the load
callback has occurred before the `k`-th firing, the `k`-th firing of
`soft_pwm_toggle_event` happens at wake time `t0 + ceil(k/2)*A + floor(k/2)*B` (modulo
`2^32`) and leaves the pin and the is-on bit off when `k` is odd and on when `k` is even. -/
theorem soft_pwm_toggle_fidelity (s s0 : soft_pwm_s) (r : sched_flag) (k : Nat)
    (hload : soft_pwm_load_event s = Except.ok (s0, r))
    (htog : s0.flags &&& SPF_TOGGLING ≠ 0) (hon : s0.flags &&& SPF_ON ≠ 0)
    (hk : 1 ≤ k)
    (hno : ∀ j, j < k →
      (soft_pwm_toggle_run s0 j).timer.func = timer_func.soft_pwm_toggle_event) :
    s0.pin.level = true ∧
    s0.timer.waketime = (s.end_time + s0.on_duration) % 2 ^ 32 ∧
    (soft_pwm_toggle_run s0 (k - 1)).timer.waketime =
      (s.end_time + (k + 1) / 2 * s0.on_duration + k / 2 * s0.off_duration) % 2 ^ 32 ∧
    (soft_pwm_toggle_run s0 k).pin.level = decide (k % 2 = 0) ∧
    ((soft_pwm_toggle_run s0 k).flags &&& SPF_ON ≠ 0 ↔ k % 2 = 0) := by
  have hn := load_ok_have_next s s0 r hload
  obtain ⟨s0', r', hl, hflags, hpin⟩ := load_ok s hn
  rw [hload] at hl
  injection hl with hl
  injection hl with hs hr
  subst hs
  have ht : (s.flags >>> 4) % 2 ^ 8 &&& SPF_TOGGLING ≠ 0 := by rw [← hflags]; exact htog
  have heq := load_event_toggling_eq s hn ht
  rw [hload] at heq
  injection heq with heq
  injection heq with heq _
  have hlevel : s0.pin.level = true := by
    rw [hpin, ← hflags]
    show decide (s0.flags &&& SPF_ON ≠ 0) = true
    exact decide_eq_true hon
  have hw : s0.timer.waketime = (s.end_time + s0.on_duration) % 2 ^ 32 := by
    rw [heq]
  have hbit : s0.flags.testBit 0 = true := by
    rw [Ne, SPF_ON_test] at hon
    simpa using hon
  obtain ⟨k, rfl⟩ : ∃ m, k = m + 1 := ⟨k - 1, by omega⟩
  have hwk := toggle_run_waketime s0 s.end_time hw hbit hlevel k
    (fun i hi => hno i (Nat.lt_succ_of_le hi))
  obtain ⟨-, -, -, p4, p5⟩ := toggle_run_parity s0 hbit hlevel (k + 1)
  refine ⟨hlevel, hw, ?_, p5, ?_⟩
  · rw [Nat.add_sub_cancel, hwk]
  · rw [Ne, SPF_ON_test, p4]
    simp

/-- C8 (witness): the program `A = 192`, `B = 808` loaded at `t0 = 1000`, second firing. -/
theorem soft_pwm_toggle_fidelity_witness :
    (soft_pwm_load_event soft_pwm_pending_64
        = Except.ok (soft_pwm_loaded_64, sched_flag.SF_RESCHEDULE) ∧
      soft_pwm_loaded_64.flags &&& SPF_TOGGLING ≠ 0 ∧
      soft_pwm_loaded_64.flags &&& SPF_ON ≠ 0 ∧
      1 ≤ 2 ∧
      ∀ j, j < 2 →
        (soft_pwm_toggle_run soft_pwm_loaded_64 j).timer.func
          = timer_func.soft_pwm_toggle_event) ∧
    (soft_pwm_loaded_64.pin.level = true ∧
      soft_pwm_loaded_64.timer.waketime
        = (soft_pwm_pending_64.end_time + soft_pwm_loaded_64.on_duration) % 2 ^ 32 ∧
      (soft_pwm_toggle_run soft_pwm_loaded_64 (2 - 1)).timer.waketime =
        (soft_pwm_pending_64.end_time + (2 + 1) / 2 * soft_pwm_loaded_64.on_duration
          + 2 / 2 * soft_pwm_loaded_64.off_duration) % 2 ^ 32 ∧
      (soft_pwm_toggle_run soft_pwm_loaded_64 2).pin.level = decide (2 % 2 = 0) ∧
      ((soft_pwm_toggle_run soft_pwm_loaded_64 2).flags &&& SPF_ON ≠ 0 ↔ 2 % 2 = 0)) ∧
    (soft_pwm_toggle_run soft_pwm_loaded_64 1).timer.waketime = 2000 ∧
    (soft_pwm_toggle_run soft_pwm_loaded_64 2).pin.level = true :=
  ⟨⟨rfl, by decide, by decide, by decide, by decide⟩,
    soft_pwm_toggle_fidelity soft_pwm_pending_64 soft_pwm_loaded_64 sched_flag.SF_RESCHEDULE 2
      rfl (by decide) (by decide) (by decide) (by decide),
    by decide, by decide⟩

/-- C10: when have-next and next-is-toggling are set, with `E` the stored `end_time` on
entry, `soft_pwm_load_event` sets `on_duration = next_on_duration` and
`off_duration = next_off_duration`, sets the timer to `soft_pwm_toggle_event` at wake time
`E + on_duration`, sets `end_time = E + max_duration` (all modulo `2^32`) and returns
reschedule, on which the scheduler re-arms the timer. -/
theorem soft_pwm_load_event_toggling (s : soft_pwm_s)
    (hn : s.flags &&& SPF_HAVE_NEXT ≠ 0) (ht : s.flags &&& SPF_NEXT_TOGGLING ≠ 0) :
    ∃ s1, soft_pwm_load_event s = Except.ok (s1, sched_flag.SF_RESCHEDULE) ∧
      s1.on_duration = s.next_on_duration ∧
      s1.off_duration = s.next_off_duration ∧
      s1.timer.func = timer_func.soft_pwm_toggle_event ∧
      s1.timer.waketime = (s.end_time + s1.on_duration) % 2 ^ 32 ∧
      s1.end_time = (s.end_time + s.max_duration) % 2 ^ 32 ∧
      sched_after_callback s1.timer sched_flag.SF_RESCHEDULE =
        { func := timer_func.soft_pwm_toggle_event
          waketime := (s.end_time + s.next_on_duration) % 2 ^ 32
          armed := true } := by
  have ht2 : (s.flags >>> 4) % 2 ^ 8 &&& SPF_TOGGLING ≠ 0 := by
    rw [Ne, SPF_TOGGLING_test, shifted_flags_testBit _ 1 (by decide)]
    rw [Ne, SPF_NEXT_TOGGLING_test] at ht
    exact ht
  exact ⟨_, load_event_toggling_eq s hn ht2, rfl, rfl, rfl, rfl, rfl, rfl⟩

/-- C10 (witness): the record left by `config` and `schedule(1000, 64)`. -/
theorem soft_pwm_load_event_toggling_witness :
    (soft_pwm_pending_64.flags &&& SPF_HAVE_NEXT ≠ 0 ∧
      soft_pwm_pending_64.flags &&& SPF_NEXT_TOGGLING ≠ 0) ∧
    (∃ s1, soft_pwm_load_event soft_pwm_pending_64 = Except.ok (s1, sched_flag.SF_RESCHEDULE) ∧
      s1.on_duration = soft_pwm_pending_64.next_on_duration ∧
      s1.off_duration = soft_pwm_pending_64.next_off_duration ∧
      s1.timer.func = timer_func.soft_pwm_toggle_event ∧
      s1.timer.waketime = (soft_pwm_pending_64.end_time + s1.on_duration) % 2 ^ 32 ∧
      s1.end_time = (soft_pwm_pending_64.end_time + soft_pwm_pending_64.max_duration) % 2 ^ 32 ∧
      sched_after_callback s1.timer sched_flag.SF_RESCHEDULE =
        { func := timer_func.soft_pwm_toggle_event
          waketime :=
            (soft_pwm_pending_64.end_time + soft_pwm_pending_64.next_on_duration) % 2 ^ 32
          armed := true }) ∧
    soft_pwm_load_event soft_pwm_pending_64
      = Except.ok (soft_pwm_loaded_64, sched_flag.SF_RESCHEDULE) :=
  ⟨⟨by decide, by decide⟩,
    soft_pwm_load_event_toggling soft_pwm_pending_64 (by decide) (by decide), rfl⟩

theorem config_soft_pwm_flags_lt (pin cycle_ticks default_value max_duration : Nat) :
    (command_config_soft_pwm_out pin cycle_ticks default_value max_duration).flags < 2 := by
  unfold command_config_soft_pwm_out
  simp only []
  split_ifs <;> simp [SPF_ON]

theorem schedule_toggling_test (s : soft_pwm_s) (value : Nat) :
    ((s.flags ||| (schedule_soft_pwm_next s value).2.2) % 2 ^ 8 &&& SPF_TOGGLING ≠ 0) ↔
      s.flags &&& SPF_TOGGLING ≠ 0 := by
  rw [Ne, Ne, SPF_TOGGLING_test, SPF_TOGGLING_test, Nat.testBit_mod_two_pow, Nat.testBit_or,
    (next_flags_bits s value).2.1]
  simp

theorem schedule_timer_kept (s s1 : soft_pwm_s) (clock value : Nat)
    (hok : command_schedule_soft_pwm_out s clock value = Except.ok s1)
    (hb : s.flags &&& SPF_TOGGLING ≠ 0 ∧
      sched_is_before s.timer.waketime (clock % 2 ^ 32) = true) :
    s1.timer = s.timer := by
  unfold command_schedule_soft_pwm_out at hok
  simp only [] at hok
  split at hok
  · simp [shutdown] at hok
  · split at hok
    · injection hok with hok
      subst hok
      rfl
    · rename_i hneg
      exact absurd ⟨(schedule_toggling_test s _).2 hb.1, hb.2⟩ hneg

theorem schedule_timer_armed (s s1 : soft_pwm_s) (clock value : Nat)
    (hok : command_schedule_soft_pwm_out s clock value = Except.ok s1)
    (hb : ¬ (s.flags &&& SPF_TOGGLING ≠ 0 ∧
      sched_is_before s.timer.waketime (clock % 2 ^ 32) = true)) :
    s1.timer =
      { func := timer_func.soft_pwm_load_event, waketime := clock % 2 ^ 32, armed := true } := by
  unfold command_schedule_soft_pwm_out at hok
  simp only [] at hok
  split at hok
  · simp [shutdown] at hok
  · split at hok
    · rename_i hpos
      exact absurd ⟨(schedule_toggling_test s _).1 hpos.1, hpos.2⟩ hb
    · injection hok with hok
      subst hok
      rfl

/-- A schedule command leaves the current is-toggling bit as it was. -/
theorem schedule_keeps_toggling (s s1 : soft_pwm_s) (clock value : Nat)
    (hok : command_schedule_soft_pwm_out s clock value = Except.ok s1) :
    (s1.flags &&& SPF_TOGGLING ≠ 0 ↔ s.flags &&& SPF_TOGGLING ≠ 0) := by
  have hv : s.flags.testBit 1 = true ↔ s.flags &&& SPF_TOGGLING ≠ 0 := by
    rw [Ne, SPF_TOGGLING_test]; simp
  rw [← hv, Ne, SPF_TOGGLING_test, schedule_flags s s1 clock value hok,
    Nat.testBit_mod_two_pow, Nat.testBit_or, (next_flags_bits s (value % 2 ^ 8)).2.1]
  simp

/-- On every reachable record: while the is-toggling bit is set the timer is armed with the
toggle or the load callback, and an armed load callback has must-check-end set and its
wake time equal to `end_time`. -/
theorem soft_pwm_reachable_timer (s : soft_pwm_s) (h : soft_pwm_reachable s) :
    (s.flags &&& SPF_TOGGLING ≠ 0 →
      s.timer.armed = true ∧
        (s.timer.func = timer_func.soft_pwm_toggle_event ∨
          s.timer.func = timer_func.soft_pwm_load_event)) ∧
    (s.timer.func = timer_func.soft_pwm_load_event → s.timer.armed = true →
      s.flags &&& SPF_CHECK_END ≠ 0 ∧ s.timer.waketime = s.end_time) := by
  induction h with
  | config pin cycle_ticks default_value max_duration =>
    constructor
    · intro ht
      exfalso
      apply ht
      rw [SPF_TOGGLING_test]
      have := config_soft_pwm_flags_lt pin cycle_ticks default_value max_duration
      exact testBit_false_of_lt (i := 1) (by simpa using this) (by decide)
    · intro hf
      exact timer_func.noConfusion hf
  | @schedule s s1 clock value _ hok ih =>
    obtain ⟨i1, i2⟩ := ih
    have hce := (schedule_sets_check_end s s1 clock value hok).1
    have het := schedule_end_time s s1 clock value hok
    have hnh : ¬ (s.flags &&& SPF_CHECK_END ≠ 0 ∧
        sched_is_before s.end_time (clock % 2 ^ 32) = true) := by
      intro hh
      have := (schedule_halted_iff s clock value).2 hh
      rw [hok] at this
      exact Bool.noConfusion this
    by_cases hb : s.flags &&& SPF_TOGGLING ≠ 0 ∧
        sched_is_before s.timer.waketime (clock % 2 ^ 32) = true
    · have ht := schedule_timer_kept s s1 clock value hok hb
      obtain ⟨ha, hfn⟩ := i1 hb.1
      have hnl : s.timer.func ≠ timer_func.soft_pwm_load_event := by
        intro hl
        obtain ⟨c1, c2⟩ := i2 hl ha
        apply hnh
        refine ⟨c1, ?_⟩
        rw [← c2]
        exact hb.2
      rw [ht]
      exact ⟨fun _ => ⟨ha, hfn⟩, fun hl => absurd hl hnl⟩
    · have ht := schedule_timer_armed s s1 clock value hok hb
      rw [ht]
      refine ⟨fun _ => ⟨rfl, Or.inr rfl⟩, fun _ _ => ⟨hce, ?_⟩⟩
      rw [het]
  | @fire s s1 _ harmed hfire ih =>
    obtain ⟨i1, i2⟩ := ih
    unfold soft_pwm_fire at hfire
    split at hfire
    · rename_i hfunc
      have e := (Except.ok.inj hfire).symm
      obtain ⟨-, -, f3, -, f5, -, f7⟩ := toggle_event_fields s
      obtain ⟨t1, t2⟩ := toggle_event_timer s
      have hs1t : s1.timer = sched_timer (soft_pwm_toggle_event s).1.timer := by
        rw [e]
        show sched_after_callback _ (soft_pwm_toggle_event s).2 = _
        rw [f7]
        rfl
      have hs1f : s1.flags = (s.flags ^^^ SPF_ON) % 2 ^ 8 := by rw [e]; exact f5
      have hs1e : s1.end_time = s.end_time := by rw [e]; exact f3
      rw [hs1t, hs1f, hs1e]
      by_cases hc : ((s.flags ^^^ SPF_ON) % 2 ^ 8 &&& SPF_CHECK_END ≠ 0 ∧
        sched_is_before
          (if (s.flags ^^^ SPF_ON) % 2 ^ 8 &&& SPF_ON ≠ 0
            then (s.timer.waketime + s.on_duration) % 2 ^ 32
            else (s.timer.waketime + s.off_duration) % 2 ^ 32) s.end_time = false)
      · rw [t1 hc]
        exact ⟨fun _ => ⟨rfl, Or.inr rfl⟩, fun _ _ => ⟨hc.1, rfl⟩⟩
      · rw [t2 hc]
        refine ⟨fun _ => ⟨rfl, Or.inl hfunc⟩, fun hl => ?_⟩
        have hl2 : s.timer.func = timer_func.soft_pwm_load_event := hl
        rw [hfunc] at hl2
        exact timer_func.noConfusion hl2
    · rename_i hfunc
      have hn : s.flags &&& SPF_HAVE_NEXT ≠ 0 := by
        intro hn
        rw [load_halt_message s hn] at hfire
        exact Except.noConfusion hfire
      by_cases ht : (s.flags >>> 4) % 2 ^ 8 &&& SPF_TOGGLING = 0
      · by_cases hc : (s.flags >>> 4) % 2 ^ 8 &&& SPF_CHECK_END = 0
        · rw [load_event_steady_done_eq s hn ht hc] at hfire
          have e := (Except.ok.inj hfire).symm
          rw [e]
          exact ⟨fun h => absurd ht h, fun _ ha => Bool.noConfusion ha⟩
        · rw [load_event_steady_check_eq s hn ht hc] at hfire
          have e := (Except.ok.inj hfire).symm
          rw [e]
          exact ⟨fun h => absurd ht h, fun _ _ => ⟨hc, rfl⟩⟩
      · rw [load_event_toggling_eq s hn ht] at hfire
        have e := (Except.ok.inj hfire).symm
        rw [e]
        exact ⟨fun _ => ⟨rfl, Or.inl rfl⟩, fun hl => timer_func.noConfusion hl⟩
    · have e := (Except.ok.inj hfire).symm
      rw [e]
      exact ⟨i1, i2⟩

/-- The flag set computed by the schedule command uses only the seven defined bits. -/
theorem next_flags_lt (s : soft_pwm_s) (value : Nat) :
    (schedule_soft_pwm_next s value).2.2 < 2 ^ 7 := by
  unfold schedule_soft_pwm_next
  simp only []
  split_ifs <;> first
    | decide
    | (show SPF_CHECK_END ||| SPF_HAVE_NEXT ||| (SPF_NEXT_ON ||| SPF_NEXT_TOGGLING)
          ||| SPF_NEXT_CHECK_END < 2 ^ 7
       decide)
    | (show SPF_CHECK_END ||| SPF_HAVE_NEXT ||| (SPF_NEXT_ON ||| SPF_NEXT_TOGGLING) < 2 ^ 7
       decide)

/-- Every reachable record uses only the seven defined bits of the flag word. -/
theorem soft_pwm_reachable_flags (s : soft_pwm_s) (h : soft_pwm_reachable s) :
    s.flags < 128 := by
  induction h with
  | config pin cycle_ticks default_value max_duration =>
    have := config_soft_pwm_flags_lt pin cycle_ticks default_value max_duration
    omega
  | @schedule s s1 clock value _ hok ih =>
    rw [schedule_flags s s1 clock value hok]
    have h7 : s.flags < 2 ^ 7 := ih
    have := Nat.or_lt_two_pow h7 (next_flags_lt s (value % 2 ^ 8))
    exact lt_of_le_of_lt (Nat.mod_le _ _) this
  | @fire s s1 _ harmed hfire ih =>
    unfold soft_pwm_fire at hfire
    split at hfire
    · have e := (Except.ok.inj hfire).symm
      have hf : s1.flags = (s.flags ^^^ SPF_ON) % 2 ^ 8 := by
        rw [e]; exact (toggle_event_fields s).2.2.2.2.1
      rw [hf]
      have h7 : s.flags < 2 ^ 7 := ih
      have h1 : SPF_ON < 2 ^ 7 := by decide
      exact lt_of_le_of_lt (Nat.mod_le _ _) (Nat.xor_lt_two_pow h7 h1)
    · have hn : s.flags &&& SPF_HAVE_NEXT ≠ 0 := by
        intro hn
        rw [load_halt_message s hn] at hfire
        exact Except.noConfusion hfire
      obtain ⟨s2, r, hl, hflags, -⟩ := load_ok s hn
      rw [hl] at hfire
      have e := (Except.ok.inj hfire).symm
      have hf : s1.flags = (s.flags >>> 4) % 2 ^ 8 := by rw [e]; exact hflags
      rw [hf, Nat.shiftRight_eq_div_pow]
      have : s.flags / 2 ^ 4 % 2 ^ 8 ≤ s.flags / 2 ^ 4 := Nat.mod_le _ _
      omega
    · have e := (Except.ok.inj hfire).symm
      rw [e]
      exact ih

/-! ## Steady programs, the requested flag set, shutdown, frame and configuration -/

/-- C11: on a record whose flag word uses only the seven defined bits, with have-next set
and next-is-toggling clear, `soft_pwm_load_event` returns done (timer and `end_time`
unchanged, timer left unarmed) if and only if next-must-check-end is clear; otherwise,
with `E` the stored `end_time` on entry, it sets both `end_time` and the wake time of the
timer to `E + max_duration` (modulo `2^32`), leaves the callback as it is and returns
reschedule, and the next firing of the load callback halts unless a schedule command
came first. -/
theorem soft_pwm_load_event_steady (s : soft_pwm_s) (hf : s.flags < 128)
    (hn : s.flags &&& SPF_HAVE_NEXT ≠ 0) (ht : s.flags &&& SPF_NEXT_TOGGLING = 0) :
    ((∃ s1, soft_pwm_load_event s = Except.ok (s1, sched_flag.SF_DONE)) ↔
      s.flags &&& SPF_NEXT_CHECK_END = 0) ∧
    (s.flags &&& SPF_NEXT_CHECK_END = 0 →
      ∃ s1, soft_pwm_load_event s = Except.ok (s1, sched_flag.SF_DONE) ∧
        s1.end_time = s.end_time ∧
        s1.timer = s.timer ∧
        (sched_after_callback s1.timer sched_flag.SF_DONE).armed = false) ∧
    (s.flags &&& SPF_NEXT_CHECK_END ≠ 0 →
      ∃ s1, soft_pwm_load_event s = Except.ok (s1, sched_flag.SF_RESCHEDULE) ∧
        s1.end_time = (s.end_time + s.max_duration) % 2 ^ 32 ∧
        s1.timer.waketime = (s.end_time + s.max_duration) % 2 ^ 32 ∧
        s1.timer.func = s.timer.func ∧
        (sched_after_callback s1.timer sched_flag.SF_RESCHEDULE).armed = true ∧
        halted (soft_pwm_load_event s1) = true ∧
        ∀ s2 clock value, command_schedule_soft_pwm_out s1 clock value = Except.ok s2 →
          halted (soft_pwm_load_event s2) = false) := by
  have ht2 : (s.flags >>> 4) % 2 ^ 8 &&& SPF_TOGGLING = 0 := by
    rw [SPF_TOGGLING_test, shifted_flags_testBit _ 1 (by decide)]
    rw [SPF_NEXT_TOGGLING_test] at ht
    exact ht
  have hce : ((s.flags >>> 4) % 2 ^ 8 &&& SPF_CHECK_END = 0) ↔
      s.flags &&& SPF_NEXT_CHECK_END = 0 := by
    rw [SPF_CHECK_END_test, shifted_flags_testBit _ 2 (by decide), SPF_NEXT_CHECK_END_test]
  have hdone : s.flags &&& SPF_NEXT_CHECK_END = 0 →
      soft_pwm_load_event s = Except.ok
        ({ s with
            flags := (s.flags >>> 4) % 2 ^ 8
            pin := gpio_out_write s.pin ((s.flags >>> 4) % 2 ^ 8 &&& SPF_ON) },
          sched_flag.SF_DONE) :=
    fun h => load_event_steady_done_eq s hn ht2 (hce.2 h)
  have hre : s.flags &&& SPF_NEXT_CHECK_END ≠ 0 →
      soft_pwm_load_event s = Except.ok
        ({ s with
            flags := (s.flags >>> 4) % 2 ^ 8
            pin := gpio_out_write s.pin ((s.flags >>> 4) % 2 ^ 8 &&& SPF_ON)
            end_time := (s.end_time + s.max_duration) % 2 ^ 32
            timer := { s.timer with waketime := (s.end_time + s.max_duration) % 2 ^ 32 } },
          sched_flag.SF_RESCHEDULE) :=
    fun h => load_event_steady_check_eq s hn ht2 (fun h0 => h (hce.1 h0))
  refine ⟨⟨?_, fun h => ⟨_, hdone h⟩⟩, fun h => ⟨_, hdone h, rfl, rfl, rfl⟩, ?_⟩
  · rintro ⟨s1, h1⟩
    by_contra hc
    rw [hre hc] at h1
    injection h1 with h1
    injection h1 with _ h2
    exact sched_flag.noConfusion h2
  · intro h
    refine ⟨_, hre h, rfl, rfl, rfl, rfl, ?_, ?_⟩
    · rw [load_halted_iff, SPF_HAVE_NEXT_test]
      show ((s.flags >>> 4) % 2 ^ 8).testBit 3 = false
      rw [shifted_flags_testBit _ 3 (by decide)]
      exact testBit_false_of_lt (i := 7) hf (by decide)
    · intro s2 clock value hok
      rw [Bool.eq_false_iff, Ne, load_halted_iff]
      exact (schedule_sets_check_end _ s2 clock value hok).2

/-- C11 (witness): the steady request `value = 255` with `max_duration = 5000`. -/
theorem soft_pwm_load_event_steady_witness :
    (soft_pwm_pending_255.flags < 128 ∧
      soft_pwm_pending_255.flags &&& SPF_HAVE_NEXT ≠ 0 ∧
      soft_pwm_pending_255.flags &&& SPF_NEXT_TOGGLING = 0 ∧
      soft_pwm_pending_255.flags &&& SPF_NEXT_CHECK_END ≠ 0) ∧
    (∃ s1, soft_pwm_load_event soft_pwm_pending_255
          = Except.ok (s1, sched_flag.SF_RESCHEDULE) ∧
        s1.end_time
          = (soft_pwm_pending_255.end_time + soft_pwm_pending_255.max_duration) % 2 ^ 32 ∧
        s1.timer.waketime
          = (soft_pwm_pending_255.end_time + soft_pwm_pending_255.max_duration) % 2 ^ 32 ∧
        s1.timer.func = soft_pwm_pending_255.timer.func ∧
        (sched_after_callback s1.timer sched_flag.SF_RESCHEDULE).armed = true ∧
        halted (soft_pwm_load_event s1) = true ∧
        ∀ s2 clock value, command_schedule_soft_pwm_out s1 clock value = Except.ok s2 →
          halted (soft_pwm_load_event s2) = false) ∧
    (command_schedule_soft_pwm_out (command_config_soft_pwm_out 7 1000 0 5000) 1000 255
        = Except.ok soft_pwm_pending_255 ∧
      soft_pwm_load_event soft_pwm_pending_255
        = Except.ok (soft_pwm_loaded_255, sched_flag.SF_RESCHEDULE) ∧
      halted (soft_pwm_load_event soft_pwm_loaded_255) = true) :=
  ⟨⟨by decide, by decide, by decide, by decide⟩,
    (soft_pwm_load_event_steady soft_pwm_pending_255 (by decide) (by decide)
      (by decide)).2.2 (by decide),
    ⟨rfl, rfl, rfl⟩⟩

/-- C12: for every record and every `v` in `0..255`, the flag set that
`command_schedule_soft_pwm_out` ORs into the record contains have-next; it contains
next-must-check-end if and only if `max_duration != 0` and either `0 < v < 255` or the
requested steady level `v != 0` differs from `default_value`; it contains next-is-on if
and only if `v != 0` and next-is-toggling if and only if `0 < v < 255`. -/
theorem schedule_soft_pwm_next_flags (s : soft_pwm_s) (v : Nat) (hv : v ≤ 255) :
    (schedule_soft_pwm_next s v).2.2 &&& SPF_HAVE_NEXT ≠ 0 ∧
    ((schedule_soft_pwm_next s v).2.2 &&& SPF_NEXT_CHECK_END ≠ 0 ↔
      (s.max_duration ≠ 0 ∧
        ((0 < v ∧ v < 255) ∨ (if v ≠ 0 then 1 else 0) ≠ s.default_value))) ∧
    ((schedule_soft_pwm_next s v).2.2 &&& SPF_NEXT_ON ≠ 0 ↔ v ≠ 0) ∧
    ((schedule_soft_pwm_next s v).2.2 &&& SPF_NEXT_TOGGLING ≠ 0 ↔ (0 < v ∧ v < 255)) ∧
    (∀ s1 clock, command_schedule_soft_pwm_out s clock v = Except.ok s1 →
      s1.flags = (s.flags ||| (schedule_soft_pwm_next s v).2.2) % 2 ^ 8) := by
  obtain ⟨-, -, -, b3, b4, b5, b6⟩ := next_flags_bits s v
  refine ⟨?_, ?_, ?_, ?_, ?_⟩
  · rw [Ne, SPF_HAVE_NEXT_test, b3]; simp
  · rw [Ne, SPF_NEXT_CHECK_END_test, b6]
    have e : (v ≠ 0 ∧ v ≠ 255) ↔ (0 < v ∧ v < 255) := by omega
    simp only [Bool.not_eq_false, Bool.and_eq_true, Bool.or_eq_true, decide_eq_true_eq, e]
  · rw [Ne, SPF_NEXT_ON_test, b4]; simp
  · rw [Ne, SPF_NEXT_TOGGLING_test, b5]
    have e : (v ≠ 0 ∧ v ≠ 255) ↔ (0 < v ∧ v < 255) := by omega
    simp only [Bool.not_eq_false, decide_eq_true_eq, e]
  · intro s1 clock hok
    have h := schedule_flags s s1 clock v hok
    have hv8 : v % 2 ^ 8 = v := Nat.mod_eq_of_lt (by omega)
    rw [hv8] at h
    exact h

/-- C12 (witness): `value = 64` on a record with `default_value = 0`,
`max_duration = 5000`. -/
theorem schedule_soft_pwm_next_flags_witness :
    (64 : Nat) ≤ 255 ∧
    ((schedule_soft_pwm_next (command_config_soft_pwm_out 7 1000 0 5000) 64).2.2
        &&& SPF_HAVE_NEXT ≠ 0 ∧
      ((schedule_soft_pwm_next (command_config_soft_pwm_out 7 1000 0 5000) 64).2.2
          &&& SPF_NEXT_CHECK_END ≠ 0 ↔
        ((command_config_soft_pwm_out 7 1000 0 5000).max_duration ≠ 0 ∧
          ((0 < 64 ∧ 64 < 255) ∨
            (if (64 : Nat) ≠ 0 then 1 else 0)
              ≠ (command_config_soft_pwm_out 7 1000 0 5000).default_value)))) ∧
    (schedule_soft_pwm_next (command_config_soft_pwm_out 7 1000 0 5000) 64).2.2 = 124 :=
  ⟨by decide,
    ⟨(schedule_soft_pwm_next_flags (command_config_soft_pwm_out 7 1000 0 5000) 64
        (by decide)).1,
      (schedule_soft_pwm_next_flags (command_config_soft_pwm_out 7 1000 0 5000) 64
        (by decide)).2.1⟩,
    rfl⟩

/-- C13: for all lists of digital-out, PWM-out and soft-PWM records in any state, the
shutdown handlers write the pin of each record to its `default_value` and set the flag
word of each soft-PWM record to exactly is-on if `default_value` is on and to 0 otherwise;
running the handlers a second time leaves every record identical. -/
theorem shutdown_sweep_idempotent (ds : List digital_out_s) (ps : List pwm_out_s)
    (ss : List soft_pwm_s) :
    ((digital_out_shutdown ds).map (fun d => d.pin)
        = ds.map (fun d => gpio_out_write d.pin d.default_value) ∧
      (pwm_shutdown ps).map (fun p => p.pin)
        = ps.map (fun p => gpio_pwm_write p.pin p.default_value) ∧
      (soft_pwm_shutdown ss).map (fun s => s.pin)
        = ss.map (fun s => gpio_out_write s.pin s.default_value) ∧
      (soft_pwm_shutdown ss).map (fun s => s.flags)
        = ss.map (fun s => if s.default_value ≠ 0 then SPF_ON else 0)) ∧
    (digital_out_shutdown (digital_out_shutdown ds) = digital_out_shutdown ds ∧
      pwm_shutdown (pwm_shutdown ps) = pwm_shutdown ps ∧
      soft_pwm_shutdown (soft_pwm_shutdown ss) = soft_pwm_shutdown ss) := by
  refine ⟨⟨?_, ?_, ?_, ?_⟩, ?_, ?_, ?_⟩
  · simp [digital_out_shutdown, List.map_map, Function.comp_def]
  · simp [pwm_shutdown, List.map_map, Function.comp_def]
  · simp [soft_pwm_shutdown, List.map_map, Function.comp_def]
  · simp [soft_pwm_shutdown, List.map_map, Function.comp_def]
  · simp [digital_out_shutdown, List.map_map, Function.comp_def, gpio_out_write]
  · simp [pwm_shutdown, List.map_map, Function.comp_def, gpio_pwm_write]
  · simp [soft_pwm_shutdown, List.map_map, Function.comp_def, gpio_out_write]

theorem schedule_frame_fields (s s1 : soft_pwm_s) (clock value : Nat)
    (h : command_schedule_soft_pwm_out s clock value = Except.ok s1) :
    s1.on_duration = s.on_duration ∧ s1.off_duration = s.off_duration ∧
    s1.pin = s.pin ∧ s1.cycle_time = s.cycle_time ∧ s1.pulse_time = s.pulse_time ∧
    s1.max_duration = s.max_duration ∧ s1.default_value = s.default_value := by
  unfold command_schedule_soft_pwm_out at h
  simp only [] at h
  split at h
  · simp [shutdown] at h
  · split at h <;> (injection h with h; subst h; exact ⟨rfl, rfl, rfl, rfl, rfl, rfl, rfl⟩)

/-- C14 (the claim as stated fails): a freshly configured record has must-check-end
clear in the current half of its flag word; after `schedule(1000, 64)` it is set. -/
theorem schedule_soft_pwm_sets_current_check_end :
    (command_config_soft_pwm_out 7 1000 0 5000).flags &&& SPF_CHECK_END = 0 ∧
      command_schedule_soft_pwm_out (command_config_soft_pwm_out 7 1000 0 5000) 1000 64
        = Except.ok soft_pwm_pending_64 ∧
      soft_pwm_pending_64.flags &&& SPF_CHECK_END ≠ 0 := by
  refine ⟨by decide, rfl, by decide⟩

/-- C14 (amended): `command_schedule_soft_pwm_out`, when it does not halt, leaves the
current `on_duration` and `off_duration`, the pin, `cycle_time`, `pulse_time`,
`max_duration` and `default_value` unchanged, leaves the is-pin-on and is-toggling bits
of the current half of the flag word unchanged, sets the current must-check-end bit and
have-next, clears no bit of the flag word, and either leaves the timer as it was or arms
it with the load callback at `t`; the load callback that fires next replaces the flag
word by its next half, shifted right by 4. -/
theorem schedule_soft_pwm_frame (s s1 : soft_pwm_s) (clock value : Nat)
    (hok : command_schedule_soft_pwm_out s clock value = Except.ok s1) :
    (s1.on_duration = s.on_duration ∧ s1.off_duration = s.off_duration ∧
      s1.pin = s.pin ∧ s1.cycle_time = s.cycle_time ∧ s1.pulse_time = s.pulse_time ∧
      s1.max_duration = s.max_duration ∧ s1.default_value = s.default_value) ∧
    ((s1.flags &&& SPF_ON ≠ 0 ↔ s.flags &&& SPF_ON ≠ 0) ∧
      (s1.flags &&& SPF_TOGGLING ≠ 0 ↔ s.flags &&& SPF_TOGGLING ≠ 0)) ∧
    (s1.flags &&& SPF_CHECK_END ≠ 0 ∧ s1.flags &&& SPF_HAVE_NEXT ≠ 0) ∧
    (∀ i, i < 8 → s.flags.testBit i = true → s1.flags.testBit i = true) ∧
    (s1.timer = s.timer ∨
      s1.timer =
        { func := timer_func.soft_pwm_load_event, waketime := clock % 2 ^ 32
          armed := true }) ∧
    (∃ s2 r, soft_pwm_load_event s1 = Except.ok (s2, r) ∧
      s2.flags = (s1.flags >>> 4) % 2 ^ 8) := by
  have hfl := schedule_flags s s1 clock value hok
  have hb := next_flags_bits s (value % 2 ^ 8)
  refine ⟨schedule_frame_fields s s1 clock value hok,
    ⟨?_, schedule_keeps_toggling s s1 clock value hok⟩,
    schedule_sets_check_end s s1 clock value hok, ?_, ?_, ?_⟩
  · rw [Ne, Ne, SPF_ON_test, SPF_ON_test, hfl, Nat.testBit_mod_two_pow, Nat.testBit_or, hb.1]
    simp
  · intro i hi hbit
    rw [hfl, Nat.testBit_mod_two_pow, Nat.testBit_or, hbit]
    simp [hi]
  · by_cases hc : s.flags &&& SPF_TOGGLING ≠ 0 ∧
        sched_is_before s.timer.waketime (clock % 2 ^ 32) = true
    · exact Or.inl (schedule_timer_kept s s1 clock value hok hc)
    · exact Or.inr (schedule_timer_armed s s1 clock value hok hc)
  · obtain ⟨s2, r, h1, h2, -⟩ := load_ok s1 (schedule_sets_check_end s s1 clock value hok).2
    exact ⟨s2, r, h1, h2⟩

/-- C14 (witness): `schedule(1000, 64)` on a freshly configured record. -/
theorem schedule_soft_pwm_frame_witness :
    command_schedule_soft_pwm_out (command_config_soft_pwm_out 7 1000 0 5000) 1000 64
        = Except.ok soft_pwm_pending_64 ∧
    ((soft_pwm_pending_64.flags &&& SPF_ON ≠ 0 ↔
        (command_config_soft_pwm_out 7 1000 0 5000).flags &&& SPF_ON ≠ 0) ∧
      (soft_pwm_pending_64.flags &&& SPF_TOGGLING ≠ 0 ↔
        (command_config_soft_pwm_out 7 1000 0 5000).flags &&& SPF_TOGGLING ≠ 0)) ∧
    (soft_pwm_pending_64.flags &&& SPF_CHECK_END ≠ 0 ∧
      soft_pwm_pending_64.flags &&& SPF_HAVE_NEXT ≠ 0) ∧
    soft_pwm_pending_64.pin = (command_config_soft_pwm_out 7 1000 0 5000).pin :=
  ⟨rfl,
    (schedule_soft_pwm_frame (command_config_soft_pwm_out 7 1000 0 5000) soft_pwm_pending_64
      1000 64 rfl).2.1,
    (schedule_soft_pwm_frame (command_config_soft_pwm_out 7 1000 0 5000) soft_pwm_pending_64
      1000 64 rfl).2.2.1,
    rfl⟩

/-- C15: for 32-bit `cycle_ticks` and `max_duration` and every `default_value` argument in
`0..255`, `command_config_soft_pwm_out` stores `default_value` as 1 if the argument is
nonzero and 0 otherwise, sets the pin up driven to that level, sets the flag word to
exactly is-on when the default is on and to 0 when it is off, stores `max_duration` and
`cycle_time` as given, and leaves the timer unarmed. -/
theorem config_soft_pwm_out_state (pin cycle_ticks default_value max_duration : Nat)
    (hc : cycle_ticks < 2 ^ 32) (hm : max_duration < 2 ^ 32) (hd : default_value ≤ 255) :
    (command_config_soft_pwm_out pin cycle_ticks default_value max_duration).default_value
        = (if default_value ≠ 0 then 1 else 0) ∧
    (command_config_soft_pwm_out pin cycle_ticks default_value max_duration).pin
        = gpio_out_setup (pin % 2 ^ 32) (if default_value ≠ 0 then 1 else 0) ∧
    (command_config_soft_pwm_out pin cycle_ticks default_value max_duration).pin.level
        = decide (default_value ≠ 0) ∧
    (command_config_soft_pwm_out pin cycle_ticks default_value max_duration).flags
        = (if default_value ≠ 0 then SPF_ON else 0) ∧
    (command_config_soft_pwm_out pin cycle_ticks default_value max_duration).max_duration
        = max_duration ∧
    (command_config_soft_pwm_out pin cycle_ticks default_value max_duration).cycle_time
        = cycle_ticks ∧
    (command_config_soft_pwm_out pin cycle_ticks default_value max_duration).timer.armed
        = false := by
  have hd32 : default_value % 2 ^ 32 = default_value := Nat.mod_eq_of_lt (by omega)
  have hc32 : cycle_ticks % 2 ^ 32 = cycle_ticks := Nat.mod_eq_of_lt hc
  have hm32 : max_duration % 2 ^ 32 = max_duration := Nat.mod_eq_of_lt hm
  refine ⟨?_, ?_, ?_, ?_, hm32, hc32, rfl⟩
  · show (if default_value % 2 ^ 32 ≠ 0 then 1 else 0) = _
    rw [hd32]
  · show gpio_out_setup (pin % 2 ^ 32) (if default_value % 2 ^ 32 ≠ 0 then 1 else 0) = _
    rw [hd32]
  · show decide ((if default_value % 2 ^ 32 ≠ 0 then 1 else 0) ≠ 0) = _
    rw [hd32]
    by_cases h : default_value = 0
    · subst h; rfl
    · simp [h]
  · show (if (if default_value % 2 ^ 32 ≠ 0 then 1 else 0) ≠ 0 then SPF_ON else 0) = _
    rw [hd32]
    by_cases h : default_value = 0
    · subst h; rfl
    · simp [h]

/-- C15 (witness): `default_value = 200` is stored as 1, flag word exactly is-on. -/
theorem config_soft_pwm_out_state_witness :
    ((1000 : Nat) < 2 ^ 32 ∧ (5000 : Nat) < 2 ^ 32 ∧ (200 : Nat) ≤ 255) ∧
    ((command_config_soft_pwm_out 7 1000 200 5000).default_value
        = (if (200 : Nat) ≠ 0 then 1 else 0) ∧
      (command_config_soft_pwm_out 7 1000 200 5000).pin
        = gpio_out_setup (7 % 2 ^ 32) (if (200 : Nat) ≠ 0 then 1 else 0) ∧
      (command_config_soft_pwm_out 7 1000 200 5000).pin.level = decide ((200 : Nat) ≠ 0) ∧
      (command_config_soft_pwm_out 7 1000 200 5000).flags
        = (if (200 : Nat) ≠ 0 then SPF_ON else 0) ∧
      (command_config_soft_pwm_out 7 1000 200 5000).max_duration = 5000 ∧
      (command_config_soft_pwm_out 7 1000 200 5000).cycle_time = 1000 ∧
      (command_config_soft_pwm_out 7 1000 200 5000).timer.armed = false) ∧
    ((command_config_soft_pwm_out 7 1000 200 5000).default_value = 1 ∧
      (command_config_soft_pwm_out 7 1000 200 5000).flags = 1 ∧
      (command_config_soft_pwm_out 7 1000 200 5000).pin.level = true) :=
  ⟨⟨by decide, by decide, by decide⟩,
    config_soft_pwm_out_state 7 1000 200 5000 (by decide) (by decide) (by decide),
    ⟨rfl, rfl, rfl⟩⟩

/-- C19: for every record with a 32-bit `cycle_time` and `pulse_time = cycle_time / 255`
and every `value` with `0 < value < 255`, the product `pulse_time * value` does not
overflow 32 bits and is at most `cycle_time`, the durations computed by the schedule
command are `pulse_time * value` and `cycle_time - pulse_time * value` without
wraparound, they add up to `cycle_time` exactly, and `next_on_duration * 255 =
cycle_time * value` whenever 255 divides `cycle_time`. -/
theorem soft_pwm_duty_no_wraparound (s : soft_pwm_s) (value : Nat)
    (hc : s.cycle_time < 2 ^ 32) (hp : s.pulse_time = s.cycle_time / 255)
    (hv0 : 0 < value) (hv : value < 255) :
    s.pulse_time * value < 2 ^ 32 ∧
    s.pulse_time * value ≤ s.cycle_time ∧
    (schedule_soft_pwm_next s value).1 = s.pulse_time * value ∧
    (schedule_soft_pwm_next s value).2.1 = s.cycle_time - s.pulse_time * value ∧
    (schedule_soft_pwm_next s value).1 + (schedule_soft_pwm_next s value).2.1 = s.cycle_time ∧
    (255 ∣ s.cycle_time →
      (schedule_soft_pwm_next s value).1 * 255 = s.cycle_time * value) := by
  have h0 : ¬ (value = 0 ∨ value = 255) := by omega
  have hon : (schedule_soft_pwm_next s value).1 = (s.pulse_time * value) % 2 ^ 32 := by
    unfold schedule_soft_pwm_next; simp only [if_neg h0]
  have hoff : (schedule_soft_pwm_next s value).2.1 =
      (s.cycle_time + (2 ^ 32 - (s.pulse_time * value) % 2 ^ 32)) % 2 ^ 32 := by
    unfold schedule_soft_pwm_next; simp only [if_neg h0]
  have h1 : s.pulse_time * value ≤ s.pulse_time * 254 := Nat.mul_le_mul_left _ (by omega)
  have h2 : s.pulse_time * 255 ≤ s.cycle_time := by
    rw [hp]; exact Nat.div_mul_le_self _ _
  have hdiv : 255 ∣ s.cycle_time → s.pulse_time * value * 255 = s.cycle_time * value := by
    intro hd
    obtain ⟨q, hq⟩ := hd
    have : s.pulse_time = q := by rw [hp, hq]; simp
    rw [this, hq]; ring
  rw [hon, hoff]
  generalize s.pulse_time * value = m at *
  have hm : m % 2 ^ 32 = m := Nat.mod_eq_of_lt (by omega)
  rw [hm]
  refine ⟨by omega, by omega, rfl, by omega, by omega, hdiv⟩

/-- C19 (witness): `cycle_time = 2550`, `value = 128`. -/
theorem soft_pwm_duty_no_wraparound_witness :
    ((command_config_soft_pwm_out 3 2550 0 0).cycle_time < 2 ^ 32 ∧
      (command_config_soft_pwm_out 3 2550 0 0).pulse_time
        = (command_config_soft_pwm_out 3 2550 0 0).cycle_time / 255 ∧
      0 < 128 ∧ 128 < 255) ∧
    ((command_config_soft_pwm_out 3 2550 0 0).pulse_time * 128 < 2 ^ 32 ∧
      (command_config_soft_pwm_out 3 2550 0 0).pulse_time * 128
        ≤ (command_config_soft_pwm_out 3 2550 0 0).cycle_time ∧
      (schedule_soft_pwm_next (command_config_soft_pwm_out 3 2550 0 0) 128).1
        = (command_config_soft_pwm_out 3 2550 0 0).pulse_time * 128 ∧
      (schedule_soft_pwm_next (command_config_soft_pwm_out 3 2550 0 0) 128).2.1
        = (command_config_soft_pwm_out 3 2550 0 0).cycle_time
          - (command_config_soft_pwm_out 3 2550 0 0).pulse_time * 128 ∧
      (schedule_soft_pwm_next (command_config_soft_pwm_out 3 2550 0 0) 128).1
          + (schedule_soft_pwm_next (command_config_soft_pwm_out 3 2550 0 0) 128).2.1
        = (command_config_soft_pwm_out 3 2550 0 0).cycle_time ∧
      (255 ∣ (command_config_soft_pwm_out 3 2550 0 0).cycle_time →
        (schedule_soft_pwm_next (command_config_soft_pwm_out 3 2550 0 0) 128).1 * 255
          = (command_config_soft_pwm_out 3 2550 0 0).cycle_time * 128)) ∧
    schedule_soft_pwm_next (command_config_soft_pwm_out 3 2550 0 0) 128 = (1280, 1270, 60) :=
  ⟨⟨by decide, by decide, by decide, by decide⟩,
    soft_pwm_duty_no_wraparound (command_config_soft_pwm_out 3 2550 0 0) 128
      (by decide) (by decide) (by decide) (by decide),
    rfl⟩

/-- C20: for every record, every `t` and every `v`, after `command_schedule_soft_pwm_out`
returns without halting the current must-check-end flag and the have-next flag are both
set and `end_time = t`; consequently an immediately following
`command_schedule_soft_pwm_out` with target `t2` halts if and only if `t` is before `t2`
under the wraparound comparison. -/
theorem schedule_soft_pwm_arms_end_check (s s1 : soft_pwm_s) (clock value : Nat)
    (hok : command_schedule_soft_pwm_out s clock value = Except.ok s1) :
    s1.flags &&& SPF_CHECK_END ≠ 0 ∧
    s1.flags &&& SPF_HAVE_NEXT ≠ 0 ∧
    s1.end_time = clock % 2 ^ 32 ∧
    ∀ clock2 value2,
      (halted (command_schedule_soft_pwm_out s1 clock2 value2) = true ↔
        sched_is_before (clock % 2 ^ 32) (clock2 % 2 ^ 32) = true) := by
  obtain ⟨h1, h2⟩ := schedule_sets_check_end s s1 clock value hok
  have h3 := schedule_end_time s s1 clock value hok
  refine ⟨h1, h2, h3, fun clock2 value2 => ?_⟩
  rw [schedule_halted_iff, h3]
  exact ⟨fun h => h.2, fun h => ⟨h1, h⟩⟩

/-- C20 (witness): `max_duration = 0` and `value = 0` equal to the default level; the
following schedule at `t2 = 2000` halts and the one at `t2 = 500` does not. -/
theorem schedule_soft_pwm_arms_end_check_witness :
    command_schedule_soft_pwm_out (command_config_soft_pwm_out 7 1000 0 0) 1000 0
        = Except.ok soft_pwm_pending_default ∧
    (soft_pwm_pending_default.flags &&& SPF_CHECK_END ≠ 0 ∧
      soft_pwm_pending_default.flags &&& SPF_HAVE_NEXT ≠ 0 ∧
      soft_pwm_pending_default.end_time = 1000 % 2 ^ 32 ∧
      ∀ clock2 value2,
        (halted (command_schedule_soft_pwm_out soft_pwm_pending_default clock2 value2) = true ↔
          sched_is_before (1000 % 2 ^ 32) (clock2 % 2 ^ 32) = true)) ∧
    (halted (command_schedule_soft_pwm_out soft_pwm_pending_default 2000 0) = true ∧
      halted (command_schedule_soft_pwm_out soft_pwm_pending_default 500 0) = false) :=
  ⟨rfl,
    schedule_soft_pwm_arms_end_check (command_config_soft_pwm_out 7 1000 0 0)
      soft_pwm_pending_default 1000 0 rfl,
    ⟨by decide, by decide⟩⟩

/-- A schedule command leaves the current is-on bit as it was. -/
theorem schedule_keeps_on (s s1 : soft_pwm_s) (clock value : Nat)
    (hok : command_schedule_soft_pwm_out s clock value = Except.ok s1) :
    s1.flags.testBit 0 = s.flags.testBit 0 := by
  rw [schedule_flags s s1 clock value hok, Nat.testBit_mod_two_pow, Nat.testBit_or,
    (next_flags_bits s (value % 2 ^ 8)).1]
  simp

theorem SPF_ON_decide (x : Nat) : decide (x &&& SPF_ON ≠ 0) = x.testBit 0 := by
  cases h : x.testBit 0
  · rw [decide_eq_false_iff_not, not_not, SPF_ON_test]; exact h
  · rw [decide_eq_true_iff, Ne, SPF_ON_test, h]; simp

/-- On every reachable record the pin level agrees with the is-on bit. -/
theorem soft_pwm_reachable_pin (s : soft_pwm_s) (h : soft_pwm_reachable s) :
    s.pin.level = decide (s.flags &&& SPF_ON ≠ 0) := by
  induction h with
  | config pin cycle_ticks default_value max_duration =>
    show decide ((if default_value % 2 ^ 32 ≠ 0 then 1 else 0) ≠ 0)
      = decide ((if (if default_value % 2 ^ 32 ≠ 0 then 1 else 0) ≠ 0 then SPF_ON else 0)
          &&& SPF_ON ≠ 0)
    by_cases hd : default_value % 2 ^ 32 = 0
    · rw [if_neg (not_not.2 hd)]; decide
    · rw [if_pos hd]; decide
  | @schedule s s1 clock value _ hok ih =>
    rw [(schedule_frame_fields s s1 clock value hok).2.2.1, ih, SPF_ON_decide, SPF_ON_decide,
      schedule_keeps_on s s1 clock value hok]
  | @fire s s1 _ harmed hfire ih =>
    unfold soft_pwm_fire at hfire
    split at hfire
    · have e := (Except.ok.inj hfire).symm
      obtain ⟨-, -, -, f4, f5, -, -⟩ := toggle_event_fields s
      have hp : s1.pin = gpio_out_toggle s.pin := by rw [e]; exact f4
      have hfl : s1.flags = (s.flags ^^^ SPF_ON) % 2 ^ 8 := by rw [e]; exact f5
      rw [hp, hfl, SPF_ON_decide, xor_SPF_ON_testBit_zero]
      show (!s.pin.level) = _
      rw [ih, SPF_ON_decide]
    · have hn : s.flags &&& SPF_HAVE_NEXT ≠ 0 := by
        intro hn
        rw [load_halt_message s hn] at hfire
        exact Except.noConfusion hfire
      obtain ⟨s2, r, hl, hflags, hpin⟩ := load_ok s hn
      rw [hl] at hfire
      have e := (Except.ok.inj hfire).symm
      have hp : s1.pin = gpio_out_write s.pin ((s.flags >>> 4) % 2 ^ 8 &&& SPF_ON) := by
        rw [e]; exact hpin
      have hfl : s1.flags = (s.flags >>> 4) % 2 ^ 8 := by rw [e]; exact hflags
      rw [hp, hfl]
      rfl
    · have e := (Except.ok.inj hfire).symm
      rw [e]
      exact ih

/-- C17: one firing of `soft_pwm_toggle_event` on a record whose flag byte is below `2^8` and
whose timer callback is the toggle callback. It toggles the pin, flips the is-on bit and
leaves every other flag bit as it was, and where the pin level agreed with the is-on bit
before it agrees after. With `w'` the old wake time plus `on_duration` if is-on is now set
and plus `off_duration` otherwise, modulo `2^32`, it returns reschedule and the timer is
armed again; the callback becomes `soft_pwm_load_event` if and only if must-check-end is set
and `w'` is not before `end_time`, in which case the wake time is `end_time`, and otherwise
the callback stays `soft_pwm_toggle_event` at wake time `w'`. -/
theorem soft_pwm_toggle_event_step (s : soft_pwm_s) (hf : s.flags < 2 ^ 8)
    (hfunc : s.timer.func = timer_func.soft_pwm_toggle_event) :
    ((soft_pwm_toggle_event s).1.pin = gpio_out_toggle s.pin ∧
      (soft_pwm_toggle_event s).1.flags = s.flags ^^^ SPF_ON ∧
      ((soft_pwm_toggle_event s).1.flags &&& SPF_ON ≠ 0 ↔ s.flags &&& SPF_ON = 0) ∧
      (∀ i, i ≠ 0 → (soft_pwm_toggle_event s).1.flags.testBit i = s.flags.testBit i) ∧
      (s.pin.level = decide (s.flags &&& SPF_ON ≠ 0) →
        (soft_pwm_toggle_event s).1.pin.level
          = decide ((soft_pwm_toggle_event s).1.flags &&& SPF_ON ≠ 0))) ∧
    ((soft_pwm_toggle_event s).2 = sched_flag.SF_RESCHEDULE ∧
      (sched_after_callback (soft_pwm_toggle_event s).1.timer
        (soft_pwm_toggle_event s).2).armed = true) ∧
    (((soft_pwm_toggle_event s).1.timer.func = timer_func.soft_pwm_load_event ↔
        (s.flags &&& SPF_CHECK_END ≠ 0 ∧
          sched_is_before
            (if (soft_pwm_toggle_event s).1.flags &&& SPF_ON ≠ 0
              then (s.timer.waketime + s.on_duration) % 2 ^ 32
              else (s.timer.waketime + s.off_duration) % 2 ^ 32) s.end_time = false)) ∧
      ((soft_pwm_toggle_event s).1.timer.func = timer_func.soft_pwm_load_event →
        (soft_pwm_toggle_event s).1.timer.waketime = s.end_time) ∧
      ((soft_pwm_toggle_event s).1.timer.func ≠ timer_func.soft_pwm_load_event →
        (soft_pwm_toggle_event s).1.timer.func = timer_func.soft_pwm_toggle_event ∧
        (soft_pwm_toggle_event s).1.timer.waketime =
          (if (soft_pwm_toggle_event s).1.flags &&& SPF_ON ≠ 0
            then (s.timer.waketime + s.on_duration) % 2 ^ 32
            else (s.timer.waketime + s.off_duration) % 2 ^ 32))) := by
  obtain ⟨-, -, -, f4, f5, -, f7⟩ := toggle_event_fields s
  obtain ⟨t1, t2⟩ := toggle_event_timer s
  have hx : (s.flags ^^^ SPF_ON) % 2 ^ 8 = s.flags ^^^ SPF_ON :=
    Nat.mod_eq_of_lt (Nat.xor_lt_two_pow hf (by decide))
  have hlevel : s.pin.level = decide (s.flags &&& SPF_ON ≠ 0) →
      (soft_pwm_toggle_event s).1.pin.level
        = decide ((soft_pwm_toggle_event s).1.flags &&& SPF_ON ≠ 0) := by
    intro hsync
    rw [f4, f5, SPF_ON_decide, xor_SPF_ON_testBit_zero]
    show (!s.pin.level) = _
    rw [hsync, SPF_ON_decide]
  have hce : ((s.flags ^^^ SPF_ON) % 2 ^ 8 &&& SPF_CHECK_END ≠ 0) ↔
      s.flags &&& SPF_CHECK_END ≠ 0 := by
    rw [Ne, Ne, SPF_CHECK_END_test, SPF_CHECK_END_test, xor_SPF_ON_testBit_succ _ 1 (by decide)]
  have hif : (if (soft_pwm_toggle_event s).1.flags &&& SPF_ON ≠ 0
      then (s.timer.waketime + s.on_duration) % 2 ^ 32
      else (s.timer.waketime + s.off_duration) % 2 ^ 32)
      = (if (s.flags ^^^ SPF_ON) % 2 ^ 8 &&& SPF_ON ≠ 0
          then (s.timer.waketime + s.on_duration) % 2 ^ 32
          else (s.timer.waketime + s.off_duration) % 2 ^ 32) := by
    rw [f5]
  rw [hif]
  refine ⟨⟨f4, by rw [f5, hx], ?_, ?_, hlevel⟩, ⟨f7, by rw [f7]; rfl⟩, ?_⟩
  · rw [f5, Ne, SPF_ON_test, SPF_ON_test, xor_SPF_ON_testBit_zero]
    simp
  · intro i hi
    rw [f5, hx, Nat.testBit_xor]
    have e : SPF_ON = 2 ^ 0 := rfl
    rw [e, Nat.testBit_two_pow]
    have : decide (0 = i) = false := by simpa using (Ne.symm hi)
    rw [this]
    simp
  · by_cases hc : ((s.flags ^^^ SPF_ON) % 2 ^ 8 &&& SPF_CHECK_END ≠ 0 ∧
        sched_is_before
          (if (s.flags ^^^ SPF_ON) % 2 ^ 8 &&& SPF_ON ≠ 0
            then (s.timer.waketime + s.on_duration) % 2 ^ 32
            else (s.timer.waketime + s.off_duration) % 2 ^ 32) s.end_time = false)
    · have ht := t1 hc
      have hfl : (soft_pwm_toggle_event s).1.timer.func = timer_func.soft_pwm_load_event := by
        rw [ht]
      exact ⟨⟨fun _ => ⟨hce.1 hc.1, hc.2⟩, fun _ => hfl⟩, fun _ => by rw [ht],
        fun h => absurd hfl h⟩
    · have ht := t2 hc
      have hfl : (soft_pwm_toggle_event s).1.timer.func = timer_func.soft_pwm_toggle_event := by
        rw [ht]; exact hfunc
      refine ⟨⟨fun h => ?_, fun h => absurd ⟨hce.2 h.1, h.2⟩ hc⟩, fun h => ?_,
        fun _ => ⟨hfl, by rw [ht]⟩⟩
      · rw [hfl] at h; exact timer_func.noConfusion h
      · rw [hfl] at h; exact timer_func.noConfusion h

/-- C17 (witness): the first toggle firing of the request `clock = 1000, value = 64` turns
the pin off and re-arms the toggle callback at `1192 + 808 = 2000`; the ninth firing of that
program, at `5192`, hands over to the load callback at `end_time = 6000`. -/
theorem soft_pwm_toggle_event_step_witness :
    (soft_pwm_loaded_64.flags < 2 ^ 8 ∧
      soft_pwm_loaded_64.timer.func = timer_func.soft_pwm_toggle_event) ∧
    ((soft_pwm_toggle_event soft_pwm_loaded_64).1.pin = gpio_out_toggle soft_pwm_loaded_64.pin ∧
      (soft_pwm_toggle_event soft_pwm_loaded_64).1.flags = soft_pwm_loaded_64.flags ^^^ SPF_ON ∧
      ((soft_pwm_toggle_event soft_pwm_loaded_64).1.flags &&& SPF_ON ≠ 0 ↔
        soft_pwm_loaded_64.flags &&& SPF_ON = 0) ∧
      (∀ i, i ≠ 0 → (soft_pwm_toggle_event soft_pwm_loaded_64).1.flags.testBit i
        = soft_pwm_loaded_64.flags.testBit i) ∧
      (soft_pwm_loaded_64.pin.level = decide (soft_pwm_loaded_64.flags &&& SPF_ON ≠ 0) →
        (soft_pwm_toggle_event soft_pwm_loaded_64).1.pin.level
          = decide ((soft_pwm_toggle_event soft_pwm_loaded_64).1.flags &&& SPF_ON ≠ 0))) ∧
    ((soft_pwm_toggle_event soft_pwm_loaded_64).1.pin.level = false ∧
      (soft_pwm_toggle_event soft_pwm_loaded_64).1.flags = 6 ∧
      (soft_pwm_toggle_event soft_pwm_loaded_64).2 = sched_flag.SF_RESCHEDULE ∧
      (soft_pwm_toggle_event soft_pwm_loaded_64).1.timer =
        { func := timer_func.soft_pwm_toggle_event, waketime := 2000, armed := true } ∧
      (soft_pwm_toggle_event (soft_pwm_toggle_run soft_pwm_loaded_64 8)).1.timer =
        { func := timer_func.soft_pwm_load_event, waketime := 6000, armed := true }) :=
  ⟨⟨by decide, rfl⟩,
    (soft_pwm_toggle_event_step soft_pwm_loaded_64 (by decide) rfl).1,
    ⟨by decide, by decide, rfl, by decide, by decide⟩⟩

/-- The wraparound comparison in terms of the forward distance: `a` is before `b` when the
distance from `a` to `b` is between `1` and `2^31`. -/
theorem before_iff_ticks (a b : Nat) :
    sched_is_before a b = true ↔ (ticks_until a b ≠ 0 ∧ ticks_until a b ≤ 2 ^ 31) := by
  unfold sched_is_before ticks_until
  rw [decide_eq_true_iff]
  have ha : a % 2 ^ 32 < 2 ^ 32 := Nat.mod_lt _ (by norm_num)
  have hb : b % 2 ^ 32 < 2 ^ 32 := Nat.mod_lt _ (by norm_num)
  omega

/-- A target less than `2^31` ticks ahead is not before the present. -/
theorem not_before_of_ticks_lt (a b : Nat) (h : ticks_until a b < 2 ^ 31) :
    sched_is_before b a = false := by
  unfold sched_is_before
  unfold ticks_until at h
  rw [decide_eq_false_iff_not]
  have ha : a % 2 ^ 32 < 2 ^ 32 := Nat.mod_lt _ (by norm_num)
  have hb : b % 2 ^ 32 < 2 ^ 32 := Nat.mod_lt _ (by norm_num)
  omega

/-- Advancing the present by `dur` ticks, not past the target, shortens the distance by
`dur`. -/
theorem ticks_until_advance (w dur e : Nat) (h : dur ≤ ticks_until w e) :
    ticks_until ((w + dur) % 2 ^ 32) e = ticks_until w e - dur := by
  unfold ticks_until at *
  have ha : w % 2 ^ 32 < 2 ^ 32 := Nat.mod_lt _ (by norm_num)
  have hb : e % 2 ^ 32 < 2 ^ 32 := Nat.mod_lt _ (by norm_num)
  omega

/-- With distance and step below `2^31`, the advanced time is still before the target
exactly when the step is shorter than the distance. -/
theorem before_advance_iff (w dur e : Nat) (hd : ticks_until w e < 2 ^ 31)
    (hdur : dur < 2 ^ 31) :
    sched_is_before ((w + dur) % 2 ^ 32) e = true ↔ dur < ticks_until w e := by
  unfold sched_is_before
  unfold ticks_until at *
  rw [decide_eq_true_iff]
  have ha : w % 2 ^ 32 < 2 ^ 32 := Nat.mod_lt _ (by norm_num)
  have hb : e % 2 ^ 32 < 2 ^ 32 := Nat.mod_lt _ (by norm_num)
  omega

/-- The duration the next toggle firing adds to the wake time: the pin is on now, so it goes
off and stays off for `off_duration`, or the other way round. -/
theorem toggle_next_waketime (s : soft_pwm_s) :
    (if (s.flags ^^^ SPF_ON) % 2 ^ 8 &&& SPF_ON ≠ 0
      then (s.timer.waketime + s.on_duration) % 2 ^ 32
      else (s.timer.waketime + s.off_duration) % 2 ^ 32)
    = (s.timer.waketime
        + (if s.flags.testBit 0 = true then s.off_duration else s.on_duration)) % 2 ^ 32 := by
  have h : ((s.flags ^^^ SPF_ON) % 2 ^ 8 &&& SPF_ON ≠ 0) ↔ s.flags.testBit 0 = false := by
    rw [Ne, SPF_ON_test, xor_SPF_ON_testBit_zero]
    simp
  cases hb : s.flags.testBit 0
  · rw [if_pos (h.2 hb)]; simp
  · rw [if_neg (fun hh => by rw [h.1 hh] at hb; exact Bool.noConfusion hb)]; simp

/-- Flipping is-on leaves must-check-end as it was. -/
theorem toggle_check_end (s : soft_pwm_s) :
    ((s.flags ^^^ SPF_ON) % 2 ^ 8 &&& SPF_CHECK_END ≠ 0) ↔ s.flags &&& SPF_CHECK_END ≠ 0 := by
  rw [Ne, Ne, SPF_CHECK_END_test, SPF_CHECK_END_test, xor_SPF_ON_testBit_succ _ 1 (by decide)]

/-- One toggle firing with the end check on, in terms of the distance to `end_time`. -/
theorem toggle_step_ticks (s : soft_pwm_s) (hce : s.flags &&& SPF_CHECK_END ≠ 0)
    (hd : ticks_until s.timer.waketime s.end_time < 2 ^ 31)
    (hdur : (if s.flags.testBit 0 = true then s.off_duration else s.on_duration) < 2 ^ 31) :
    ((if s.flags.testBit 0 = true then s.off_duration else s.on_duration)
        < ticks_until s.timer.waketime s.end_time →
      (soft_pwm_toggle_event s).1.timer =
        { s.timer with waketime :=
            (s.timer.waketime
              + (if s.flags.testBit 0 = true then s.off_duration else s.on_duration))
              % 2 ^ 32 }) ∧
    (ticks_until s.timer.waketime s.end_time
        ≤ (if s.flags.testBit 0 = true then s.off_duration else s.on_duration) →
      (soft_pwm_toggle_event s).1.timer =
        { s.timer with func := timer_func.soft_pwm_load_event, waketime := s.end_time }) := by
  obtain ⟨t1, t2⟩ := toggle_event_timer s
  rw [toggle_next_waketime s] at t1 t2
  have hiff := before_advance_iff s.timer.waketime
    (if s.flags.testBit 0 = true then s.off_duration else s.on_duration) s.end_time hd hdur
  constructor
  · intro hlt
    apply t2
    rintro ⟨-, hb⟩
    rw [hiff.2 hlt] at hb
    exact Bool.noConfusion hb
  · intro hle
    apply t1
    refine ⟨(toggle_check_end s).2 hce, ?_⟩
    rw [Bool.eq_false_iff]
    intro hb
    have := hiff.1 hb
    omega

/-- Running `k + 1` toggle firings is one firing followed by `k` more. -/
theorem toggle_run_shift (s : soft_pwm_s) (k : Nat) :
    soft_pwm_toggle_run s (k + 1) = soft_pwm_toggle_run (soft_pwm_toggle_event s).1 k := by
  induction k with
  | zero => rfl
  | succ k ih =>
    show (soft_pwm_toggle_event (soft_pwm_toggle_run s (k + 1))).1 = _
    rw [ih]
    rfl

/-- Toggle firings change no flag bit other than is-on. -/
theorem toggle_run_flags_bit (s : soft_pwm_s) (i : Nat) (hi : i + 1 < 8) (k : Nat) :
    (soft_pwm_toggle_run s k).flags.testBit (i + 1) = s.flags.testBit (i + 1) := by
  induction k with
  | zero => rfl
  | succ k ih =>
    show (soft_pwm_toggle_event (soft_pwm_toggle_run s k)).1.flags.testBit (i + 1) = _
    rw [(toggle_event_fields (soft_pwm_toggle_run s k)).2.2.2.2.1,
      xor_SPF_ON_testBit_succ _ i hi, ih]

/-- Induction behind the handover: the measure is twice the distance to `end_time`, plus one
when the duration the next firing adds is zero. -/
theorem toggle_reaches_load_aux (A B E : Nat) (hpos : 0 < A + B) :
    ∀ (n : Nat) (s : soft_pwm_s),
      s.on_duration = A → s.off_duration = B → s.end_time = E →
      s.timer.func = timer_func.soft_pwm_toggle_event →
      s.flags &&& SPF_CHECK_END ≠ 0 →
      0 < ticks_until s.timer.waketime E →
      ticks_until s.timer.waketime E + A + B < 2 ^ 31 →
      2 * ticks_until s.timer.waketime E
        + (if (if s.flags.testBit 0 = true then B else A) = 0 then 1 else 0) < n →
      ∃ k, 0 < k ∧
        (soft_pwm_toggle_run s k).timer =
          { s.timer with func := timer_func.soft_pwm_load_event, waketime := E } ∧
        ∀ j, j < k →
          (soft_pwm_toggle_run s j).timer.func = timer_func.soft_pwm_toggle_event ∧
          sched_is_before (soft_pwm_toggle_run s j).timer.waketime E = true := by
  intro n
  induction n with
  | zero => intro s _ _ _ _ _ _ _ h; exact absurd h (Nat.not_lt_zero _)
  | succ n ih =>
    intro s hA hB hE hfunc hce hd0 hrange hmu
    have hd : ticks_until s.timer.waketime s.end_time < 2 ^ 31 := by rw [hE]; omega
    have hdur : (if s.flags.testBit 0 = true then s.off_duration else s.on_duration) < 2 ^ 31 := by
      rw [hA, hB]; split_ifs <;> omega
    obtain ⟨step_go, step_load⟩ := toggle_step_ticks s hce hd hdur
    rw [hA, hB, hE] at step_go step_load
    have hbefore0 : sched_is_before s.timer.waketime E = true := by
      rw [before_iff_ticks]; omega
    by_cases hcase : (if s.flags.testBit 0 = true then B else A) < ticks_until s.timer.waketime E
    · -- the toggle sequence goes on
      have htimer := step_go hcase
      obtain ⟨f1, f2, f3, -, f5, -, -⟩ := toggle_event_fields s
      have hbit : (soft_pwm_toggle_event s).1.flags.testBit 0 = !s.flags.testBit 0 := by
        rw [f5, xor_SPF_ON_testBit_zero]
      have hce1 : (soft_pwm_toggle_event s).1.flags &&& SPF_CHECK_END ≠ 0 := by
        rw [f5]; exact (toggle_check_end s).2 hce
      have hw1 : (soft_pwm_toggle_event s).1.timer.waketime
          = (s.timer.waketime + (if s.flags.testBit 0 = true then B else A)) % 2 ^ 32 := by
        rw [htimer]
      have hd1 : ticks_until (soft_pwm_toggle_event s).1.timer.waketime E
          = ticks_until s.timer.waketime E - (if s.flags.testBit 0 = true then B else A) := by
        rw [hw1]; exact ticks_until_advance _ _ _ (Nat.le_of_lt hcase)
      have hfunc1 : (soft_pwm_toggle_event s).1.timer.func = timer_func.soft_pwm_toggle_event := by
        rw [htimer]; exact hfunc
      have hmu1 : 2 * ticks_until (soft_pwm_toggle_event s).1.timer.waketime E
          + (if (if (soft_pwm_toggle_event s).1.flags.testBit 0 = true then B else A) = 0
              then 1 else 0) < n := by
        rw [hd1, hbit]
        cases hb : s.flags.testBit 0 <;> simp only [hb] at hcase hmu ⊢ <;>
          simp only [Bool.not_true, Bool.not_false, if_true, if_false, Bool.false_eq_true] at hcase hmu ⊢ <;>
          split_ifs at hmu ⊢ <;> omega
      obtain ⟨k, hk, hfin, hall⟩ := ih (soft_pwm_toggle_event s).1 (by rw [f1, hA])
        (by rw [f2, hB]) (by rw [f3, hE]) hfunc1 hce1 (by rw [hd1]; omega)
        (by rw [hd1]; omega) hmu1
      refine ⟨k + 1, Nat.succ_pos _, ?_, ?_⟩
      · rw [toggle_run_shift, hfin, htimer]
      · intro j hj
        cases j with
        | zero => exact ⟨hfunc, hbefore0⟩
        | succ j =>
          rw [toggle_run_shift]
          exact hall j (by omega)
    · -- the next toggle would not be before `end_time`: handover
      have htimer := step_load (Nat.le_of_not_lt hcase)
      refine ⟨1, Nat.one_pos, htimer, ?_⟩
      intro j hj
      have : j = 0 := by omega
      subst this
      exact ⟨hfunc, hbefore0⟩

/-- C18: for every toggling record with must-check-end set, `on_duration + off_duration > 0`,
its toggle timer armed at a wake time before `end_time`, and the distance from that wake
time to `end_time` plus `on_duration + off_duration` below `2^31`, some positive number `n`
of successive `soft_pwm_toggle_event` firings leaves the timer armed with
`soft_pwm_load_event` at wake time exactly `end_time`, still toggling, and before each of
those firings the callback is the toggle callback with a wake time before `end_time`. -/
theorem soft_pwm_toggle_reaches_load (s : soft_pwm_s)
    (htog : s.flags &&& SPF_TOGGLING ≠ 0) (hce : s.flags &&& SPF_CHECK_END ≠ 0)
    (hfunc : s.timer.func = timer_func.soft_pwm_toggle_event)
    (harmed : s.timer.armed = true)
    (hpos : 0 < s.on_duration + s.off_duration)
    (hbefore : sched_is_before s.timer.waketime s.end_time = true)
    (hrange : ticks_until s.timer.waketime s.end_time + s.on_duration + s.off_duration
      < 2 ^ 31) :
    ∃ n, 0 < n ∧
      (soft_pwm_toggle_run s n).timer =
        { func := timer_func.soft_pwm_load_event, waketime := s.end_time, armed := true } ∧
      (soft_pwm_toggle_run s n).flags &&& SPF_TOGGLING ≠ 0 ∧
      ∀ j, j < n →
        (soft_pwm_toggle_run s j).timer.func = timer_func.soft_pwm_toggle_event ∧
        sched_is_before (soft_pwm_toggle_run s j).timer.waketime s.end_time = true := by
  have hd0 : 0 < ticks_until s.timer.waketime s.end_time := by
    have := (before_iff_ticks _ _).1 hbefore
    omega
  obtain ⟨k, hk, hfin, hall⟩ := toggle_reaches_load_aux s.on_duration s.off_duration s.end_time
    hpos (2 * ticks_until s.timer.waketime s.end_time + 2) s rfl rfl rfl hfunc hce hd0 hrange
    (by split_ifs <;> omega)
  refine ⟨k, hk, ?_, ?_, hall⟩
  · rw [hfin, ← harmed]
  · rw [Ne, SPF_TOGGLING_test, toggle_run_flags_bit s 0 (by decide) k]
    rw [Ne, SPF_TOGGLING_test] at htog
    exact htog

/-- C18 (witness): the program `clock = 1000, value = 64` with `max_duration = 5000`: the
toggle timer runs from 1192, is at 5192 after eight firings, and the ninth arms the load
callback at `end_time = 6000`. -/
theorem soft_pwm_toggle_reaches_load_witness :
    (soft_pwm_loaded_64.flags &&& SPF_TOGGLING ≠ 0 ∧
      soft_pwm_loaded_64.flags &&& SPF_CHECK_END ≠ 0 ∧
      soft_pwm_loaded_64.timer.func = timer_func.soft_pwm_toggle_event ∧
      soft_pwm_loaded_64.timer.armed = true ∧
      0 < soft_pwm_loaded_64.on_duration + soft_pwm_loaded_64.off_duration ∧
      sched_is_before soft_pwm_loaded_64.timer.waketime soft_pwm_loaded_64.end_time = true ∧
      ticks_until soft_pwm_loaded_64.timer.waketime soft_pwm_loaded_64.end_time
        + soft_pwm_loaded_64.on_duration + soft_pwm_loaded_64.off_duration < 2 ^ 31) ∧
    (∃ n, 0 < n ∧
      (soft_pwm_toggle_run soft_pwm_loaded_64 n).timer =
        { func := timer_func.soft_pwm_load_event
          waketime := soft_pwm_loaded_64.end_time, armed := true } ∧
      (soft_pwm_toggle_run soft_pwm_loaded_64 n).flags &&& SPF_TOGGLING ≠ 0 ∧
      ∀ j, j < n →
        (soft_pwm_toggle_run soft_pwm_loaded_64 j).timer.func
          = timer_func.soft_pwm_toggle_event ∧
        sched_is_before (soft_pwm_toggle_run soft_pwm_loaded_64 j).timer.waketime
          soft_pwm_loaded_64.end_time = true) ∧
    ((soft_pwm_toggle_run soft_pwm_loaded_64 8).timer =
        { func := timer_func.soft_pwm_toggle_event, waketime := 5192, armed := true } ∧
      (soft_pwm_toggle_run soft_pwm_loaded_64 9).timer =
        { func := timer_func.soft_pwm_load_event, waketime := 6000, armed := true }) :=
  ⟨⟨by decide, by decide, rfl, rfl, by decide, by decide, by decide⟩,
    soft_pwm_toggle_reaches_load soft_pwm_loaded_64 (by decide) (by decide) rfl rfl
      (by decide) (by decide) (by decide),
    ⟨by decide, by decide⟩⟩

/-- A toggle firing leaves the configuration constants and the pending program as they
were. -/
theorem toggle_event_frame (s : soft_pwm_s) :
    (soft_pwm_toggle_event s).1.cycle_time = s.cycle_time ∧
    (soft_pwm_toggle_event s).1.max_duration = s.max_duration ∧
    (soft_pwm_toggle_event s).1.pulse_time = s.pulse_time ∧
    (soft_pwm_toggle_event s).1.next_on_duration = s.next_on_duration ∧
    (soft_pwm_toggle_event s).1.next_off_duration = s.next_off_duration ∧
    (soft_pwm_toggle_event s).1.default_value = s.default_value := by
  unfold soft_pwm_toggle_event
  simp only []
  split_ifs <;> exact ⟨rfl, rfl, rfl, rfl, rfl, rfl⟩

/-- The durations a schedule command computes are at most `cycle_time`. -/
theorem next_durations_le (s : soft_pwm_s) (v : Nat) (hv : v ≤ 255)
    (hc : s.cycle_time < 2 ^ 32) (hp : s.pulse_time = s.cycle_time / 255) :
    (schedule_soft_pwm_next s v).1 ≤ s.cycle_time ∧
    (schedule_soft_pwm_next s v).2.1 ≤ s.cycle_time := by
  by_cases h0 : v = 0 ∨ v = 255
  · unfold schedule_soft_pwm_next
    simp only [if_pos h0]
    exact ⟨Nat.zero_le _, Nat.zero_le _⟩
  · have hon : (schedule_soft_pwm_next s v).1 = (s.pulse_time * v) % 2 ^ 32 := by
      unfold schedule_soft_pwm_next; simp only [if_neg h0]
    have hoff : (schedule_soft_pwm_next s v).2.1 =
        (s.cycle_time + (2 ^ 32 - (s.pulse_time * v) % 2 ^ 32)) % 2 ^ 32 := by
      unfold schedule_soft_pwm_next; simp only [if_neg h0]
    have h1 : s.pulse_time * v ≤ s.pulse_time * 255 := Nat.mul_le_mul_left _ hv
    have h2 : s.pulse_time * 255 ≤ s.cycle_time := by
      rw [hp]; exact Nat.div_mul_le_self _ _
    rw [hon, hoff]
    generalize s.pulse_time * v = m at *
    omega

/-- The load callback arms the first toggle `a` ticks after the old `end_time` and moves
`end_time` on by `b` ticks: with `a <= b < 2^31` the new deadline is less than `2^31`
ticks ahead of that wake time. -/
theorem ticks_until_load (e a b : Nat) (hab : a ≤ b) (hb : b < 2 ^ 31) :
    ticks_until ((e + a) % 2 ^ 32) ((e + b) % 2 ^ 32) < 2 ^ 31 := by
  unfold ticks_until
  omega

/-- Half a turn of the tick circle turns "before" into "not before". -/
theorem not_before_half_turn (w e q : Nat) (h : sched_is_before (w % 2 ^ 32) e = true) :
    sched_is_before ((w + (2 ^ 32 * q + 2 ^ 31)) % 2 ^ 32) e = false := by
  unfold sched_is_before at *
  rw [decide_eq_true_iff] at h
  rw [decide_eq_false_iff_not]
  omega

/-- Stepping round the tick circle by a period that is not a multiple of `2^32` reaches,
after some positive number of steps, a time that is not before `e`. -/
theorem exists_mul_not_before (w e c : Nat) (hc : c % 2 ^ 32 ≠ 0) :
    ∃ k, 0 < k ∧ sched_is_before ((w + k * c) % 2 ^ 32) e = false := by
  cases hb : sched_is_before (w % 2 ^ 32) e
  · refine ⟨2 ^ 32, by decide, ?_⟩
    rw [Nat.add_mul_mod_self_left]
    exact hb
  · have hc0 : c ≠ 0 := by
      intro h0
      rw [h0] at hc
      exact hc rfl
    obtain ⟨a, o, ho, hco⟩ := Nat.exists_eq_two_pow_mul_odd hc0
    have ha : a < 32 := by
      by_contra hge
      have hle : 32 ≤ a := Nat.le_of_not_lt hge
      apply hc
      rw [hco]
      obtain ⟨b, rfl⟩ := Nat.exists_eq_add_of_le hle
      rw [pow_add, mul_assoc]
      exact Nat.mul_mod_right _ _
    obtain ⟨q, hq⟩ := ho
    refine ⟨2 ^ (31 - a), Nat.pow_pos (by decide), ?_⟩
    have hk : 2 ^ (31 - a) * c = 2 ^ 32 * q + 2 ^ 31 := by
      rw [hco, ← mul_assoc, ← pow_add, Nat.sub_add_cancel (by omega), hq]
      ring
    rw [hk]
    exact not_before_half_turn w e q hb


/-- Two successive toggle firings add `on_duration + off_duration`. -/
theorem toggle_two_steps (w a b : Nat) (bit : Bool) :
    ((w + (if bit = true then b else a)) % 2 ^ 32
        + (if (!bit) = true then b else a)) % 2 ^ 32
      = (w + (a + b)) % 2 ^ 32 := by
  cases bit <;> simp only [Bool.not_true, Bool.not_false, if_true, if_false,
    Bool.false_eq_true] <;> omega

/-- Induction behind the unconditional handover: if some positive multiple `k <= K` of the
period, added to the wake time, is not before `end_time`, the toggle firings reach the load
callback. -/
theorem toggle_handover_aux (A B E : Nat) :
    ∀ (K : Nat) (s : soft_pwm_s),
      s.on_duration = A → s.off_duration = B → s.end_time = E →
      s.timer.func = timer_func.soft_pwm_toggle_event →
      s.flags &&& SPF_CHECK_END ≠ 0 →
      (∃ k, 0 < k ∧ k ≤ K ∧
        sched_is_before ((s.timer.waketime + k * (A + B)) % 2 ^ 32) E = false) →
      ∃ n, 0 < n ∧
        (soft_pwm_toggle_run s n).timer =
          { s.timer with func := timer_func.soft_pwm_load_event, waketime := E } ∧
        ∀ j, j < n →
          (soft_pwm_toggle_run s j).timer.func = timer_func.soft_pwm_toggle_event := by
  intro K
  induction K with
  | zero =>
    intro s _ _ _ _ _ h
    obtain ⟨k, hk, hk0, -⟩ := h
    omega
  | succ K ih =>
    intro s hA hB hE hfunc hce h
    obtain ⟨k, hk, hkK, hnb⟩ := h
    obtain ⟨t1, t2⟩ := toggle_event_timer s
    rw [toggle_next_waketime s] at t1 t2
    obtain ⟨f1, f2, f3, -, f5, -, -⟩ := toggle_event_fields s
    by_cases hc1 : ((s.flags ^^^ SPF_ON) % 2 ^ 8 &&& SPF_CHECK_END ≠ 0 ∧
        sched_is_before ((s.timer.waketime
          + (if s.flags.testBit 0 = true then s.off_duration else s.on_duration)) % 2 ^ 32)
          s.end_time = false)
    · refine ⟨1, Nat.one_pos, ?_, ?_⟩
      · show (soft_pwm_toggle_event s).1.timer = _
        rw [t1 hc1, hE]
      · intro j hj
        have : j = 0 := by omega
        subst this
        exact hfunc
    · have ht1 := t2 hc1
      have hfunc1 : (soft_pwm_toggle_event s).1.timer.func
          = timer_func.soft_pwm_toggle_event := by
        rw [ht1]; exact hfunc
      have hbit : (soft_pwm_toggle_event s).1.flags.testBit 0 = !s.flags.testBit 0 := by
        rw [f5, xor_SPF_ON_testBit_zero]
      have hce1 : (soft_pwm_toggle_event s).1.flags &&& SPF_CHECK_END ≠ 0 := by
        rw [f5]; exact (toggle_check_end s).2 hce
      obtain ⟨u1, u2⟩ := toggle_event_timer (soft_pwm_toggle_event s).1
      rw [toggle_next_waketime (soft_pwm_toggle_event s).1] at u1 u2
      obtain ⟨g1, g2, g3, -, -, -, -⟩ := toggle_event_fields (soft_pwm_toggle_event s).1
      have hw2 : ((soft_pwm_toggle_event s).1.timer.waketime
          + (if (soft_pwm_toggle_event s).1.flags.testBit 0 = true
              then (soft_pwm_toggle_event s).1.off_duration
              else (soft_pwm_toggle_event s).1.on_duration)) % 2 ^ 32
          = (s.timer.waketime + (A + B)) % 2 ^ 32 := by
        rw [hbit, f1, f2, ht1, hA, hB]
        exact toggle_two_steps s.timer.waketime A B (s.flags.testBit 0)
      rw [hw2] at u1 u2
      by_cases hc2 : (((soft_pwm_toggle_event s).1.flags ^^^ SPF_ON) % 2 ^ 8
            &&& SPF_CHECK_END ≠ 0 ∧
          sched_is_before ((s.timer.waketime + (A + B)) % 2 ^ 32)
            (soft_pwm_toggle_event s).1.end_time = false)
      · refine ⟨2, by decide, ?_, ?_⟩
        · show (soft_pwm_toggle_event (soft_pwm_toggle_event s).1).1.timer = _
          rw [u1 hc2, ht1, f3, hE]
        · intro j hj
          have hj2 : j = 0 ∨ j = 1 := by omega
          rcases hj2 with rfl | rfl
          · exact hfunc
          · exact hfunc1
      · have ht2 := u2 hc2
        have hbefore : sched_is_before ((s.timer.waketime + (A + B)) % 2 ^ 32) E = true := by
          cases hb : sched_is_before ((s.timer.waketime + (A + B)) % 2 ^ 32) E
          · exfalso
            apply hc2
            refine ⟨(toggle_check_end (soft_pwm_toggle_event s).1).2 hce1, ?_⟩
            rw [f3, hE]
            exact hb
          · rfl
        have hk2 : 2 ≤ k := by
          by_contra hlt
          have hk1 : k = 1 := by omega
          rw [hk1, Nat.one_mul, hbefore] at hnb
          exact Bool.noConfusion hnb
        have hfunc2 : (soft_pwm_toggle_event (soft_pwm_toggle_event s).1).1.timer.func
            = timer_func.soft_pwm_toggle_event := by
          rw [ht2]; exact hfunc1
        have hce2 : (soft_pwm_toggle_event (soft_pwm_toggle_event s).1).1.flags
            &&& SPF_CHECK_END ≠ 0 := by
          rw [(toggle_event_fields (soft_pwm_toggle_event s).1).2.2.2.2.1]
          exact (toggle_check_end (soft_pwm_toggle_event s).1).2 hce1
        have hw3 : (soft_pwm_toggle_event (soft_pwm_toggle_event s).1).1.timer.waketime
            = (s.timer.waketime + (A + B)) % 2 ^ 32 := by
          rw [ht2]
        obtain ⟨n, hn, hfin, hall⟩ := ih (soft_pwm_toggle_event (soft_pwm_toggle_event s).1).1
          (by rw [g1, f1, hA]) (by rw [g2, f2, hB]) (by rw [g3, f3, hE]) hfunc2 hce2
          ⟨k - 1, by omega, by omega, by
            rw [hw3]
            obtain ⟨k1, rfl⟩ := Nat.exists_eq_add_of_le hk2
            have e1 : (2 + k1) * (A + B) = (1 + k1) * (A + B) + (A + B) := by ring
            have e2 : 2 + k1 - 1 = 1 + k1 := by omega
            rw [e1] at hnb
            rw [e2]
            generalize (1 + k1) * (A + B) = m at hnb ⊢
            have e3 : ((s.timer.waketime + (A + B)) % 2 ^ 32 + m) % 2 ^ 32
                = (s.timer.waketime + (m + (A + B))) % 2 ^ 32 := by omega
            rw [e3]
            exact hnb⟩
        refine ⟨n + 2, by omega, ?_, ?_⟩
        · rw [toggle_run_shift, toggle_run_shift, hfin, ht2, ht1]
        · intro j hj
          cases j with
          | zero => exact hfunc
          | succ j =>
            cases j with
            | zero => exact hfunc1
            | succ j =>
              rw [toggle_run_shift, toggle_run_shift]
              exact hall j (by omega)

/-- For every record whose toggle callback is armed with the end check on and whose period
`on_duration + off_duration` is not a multiple of `2^32`, some positive number of toggle
firings arms the load callback at `end_time`, and the callback is the toggle callback before
each of them. -/
theorem toggle_run_reaches_load (s : soft_pwm_s)
    (hfunc : s.timer.func = timer_func.soft_pwm_toggle_event)
    (hce : s.flags &&& SPF_CHECK_END ≠ 0)
    (hper : (s.on_duration + s.off_duration) % 2 ^ 32 ≠ 0) :
    ∃ n, 0 < n ∧
      (soft_pwm_toggle_run s n).timer =
        { s.timer with func := timer_func.soft_pwm_load_event, waketime := s.end_time } ∧
      ∀ j, j < n →
        (soft_pwm_toggle_run s j).timer.func = timer_func.soft_pwm_toggle_event := by
  obtain ⟨k, hk, hnb⟩ := exists_mul_not_before s.timer.waketime s.end_time
    (s.on_duration + s.off_duration) hper
  exact toggle_handover_aux s.on_duration s.off_duration s.end_time k s rfl rfl rfl hfunc hce
    ⟨k, hk, Nat.le_refl _, hnb⟩


/-- The two durations a schedule command computes add up to at most `cycle_time`. -/
theorem next_durations_sum_le (s : soft_pwm_s) (v : Nat) (hv : v ≤ 255)
    (hc : s.cycle_time < 2 ^ 32) (hp : s.pulse_time = s.cycle_time / 255) :
    (schedule_soft_pwm_next s v).1 + (schedule_soft_pwm_next s v).2.1 ≤ s.cycle_time := by
  by_cases h0 : v = 0 ∨ v = 255
  · unfold schedule_soft_pwm_next
    simp only [if_pos h0]
    exact Nat.zero_le _
  · have hon : (schedule_soft_pwm_next s v).1 = (s.pulse_time * v) % 2 ^ 32 := by
      unfold schedule_soft_pwm_next; simp only [if_neg h0]
    have hoff : (schedule_soft_pwm_next s v).2.1 =
        (s.cycle_time + (2 ^ 32 - (s.pulse_time * v) % 2 ^ 32)) % 2 ^ 32 := by
      unfold schedule_soft_pwm_next; simp only [if_neg h0]
    have h1 : s.pulse_time * v ≤ s.pulse_time * 255 := Nat.mul_le_mul_left _ hv
    have h2 : s.pulse_time * 255 ≤ s.cycle_time := by
      rw [hp]; exact Nat.div_mul_le_self _ _
    rw [hon, hoff]
    generalize s.pulse_time * v = m at *
    omega

/-- On every reachable record `cycle_time` is a 32-bit value, `pulse_time` is
`cycle_time / 255`, and the current and the pending pair of durations each add up to at most
`cycle_time`. -/
theorem soft_pwm_reachable_durations (s : soft_pwm_s) (h : soft_pwm_reachable s) :
    s.cycle_time < 2 ^ 32 ∧ s.pulse_time = s.cycle_time / 255 ∧
    s.on_duration + s.off_duration ≤ s.cycle_time ∧
    s.next_on_duration + s.next_off_duration ≤ s.cycle_time := by
  induction h with
  | config pin cycle_ticks default_value max_duration =>
    exact ⟨Nat.mod_lt _ (by decide), rfl, Nat.zero_le _, Nat.zero_le _⟩
  | @schedule s s1 clock value _ hok ih =>
    obtain ⟨a1, a2, a3, a4⟩ := ih
    obtain ⟨f1, f2, -, f4, f5, -, -⟩ := schedule_frame_fields s s1 clock value hok
    obtain ⟨n1, n2⟩ := schedule_next_durations s s1 clock value hok
    have hv : value % 2 ^ 8 ≤ 255 := by
      have := Nat.mod_lt value (show 0 < 2 ^ 8 by decide)
      omega
    have hs := next_durations_sum_le s (value % 2 ^ 8) hv a1 a2
    refine ⟨by rw [f4]; exact a1, by rw [f5, f4]; exact a2, by rw [f1, f2, f4]; exact a3, ?_⟩
    rw [n1, n2, f4]
    exact hs
  | @fire s s1 _ harmed hfire ih =>
    obtain ⟨a1, a2, a3, a4⟩ := ih
    unfold soft_pwm_fire at hfire
    split at hfire
    · have he := (Except.ok.inj hfire).symm
      obtain ⟨f1, f2, -, -, -, -, -⟩ := toggle_event_fields s
      obtain ⟨g1, -, g3, g4, g5, -⟩ := toggle_event_frame s
      have k1 : s1.cycle_time = s.cycle_time := by rw [he]; exact g1
      have k3 : s1.pulse_time = s.pulse_time := by rw [he]; exact g3
      have k4 : s1.next_on_duration = s.next_on_duration := by rw [he]; exact g4
      have k5 : s1.next_off_duration = s.next_off_duration := by rw [he]; exact g5
      have k6 : s1.on_duration = s.on_duration := by rw [he]; exact f1
      have k7 : s1.off_duration = s.off_duration := by rw [he]; exact f2
      rw [k1, k3, k4, k5, k6, k7]
      exact ⟨a1, a2, a3, a4⟩
    · have hn : s.flags &&& SPF_HAVE_NEXT ≠ 0 := by
        intro hn
        rw [load_halt_message s hn] at hfire
        exact Except.noConfusion hfire
      by_cases ht : (s.flags >>> 4) % 2 ^ 8 &&& SPF_TOGGLING = 0
      · by_cases hc : (s.flags >>> 4) % 2 ^ 8 &&& SPF_CHECK_END = 0
        · rw [load_event_steady_done_eq s hn ht hc] at hfire
          have he := (Except.ok.inj hfire).symm
          rw [he]
          exact ⟨a1, a2, a3, a4⟩
        · rw [load_event_steady_check_eq s hn ht hc] at hfire
          have he := (Except.ok.inj hfire).symm
          rw [he]
          exact ⟨a1, a2, a3, a4⟩
      · rw [load_event_toggling_eq s hn ht] at hfire
        have he := (Except.ok.inj hfire).symm
        rw [he]
        exact ⟨a1, a2, a4, a4⟩
    · have he := (Except.ok.inj hfire).symm
      rw [he]
      exact ⟨a1, a2, a3, a4⟩

/-- A toggle timer with `on_duration = off_duration = 0` whose wake time is before
`end_time` never moves: every firing arms the toggle callback at the same wake time. -/
theorem toggle_run_stuck (n : Nat) :
    ∀ s : soft_pwm_s, s.on_duration = 0 → s.off_duration = 0 →
      s.timer.waketime < 2 ^ 32 →
      sched_is_before s.timer.waketime s.end_time = true →
      (soft_pwm_toggle_run s n).timer = s.timer := by
  induction n with
  | zero => intro s _ _ _ _; rfl
  | succ n ih =>
    intro s hon hoff hw hb
    obtain ⟨-, t2⟩ := toggle_event_timer s
    rw [toggle_next_waketime s] at t2
    obtain ⟨f1, f2, f3, -, -, -, -⟩ := toggle_event_fields s
    have hw0 : (s.timer.waketime
        + (if s.flags.testBit 0 = true then s.off_duration else s.on_duration)) % 2 ^ 32
        = s.timer.waketime := by
      rw [hon, hoff, ite_self, Nat.add_zero]
      exact Nat.mod_eq_of_lt hw
    rw [hw0] at t2
    have ht : (soft_pwm_toggle_event s).1.timer = s.timer := by
      rw [t2 (fun hc => by rw [hb] at hc; exact Bool.noConfusion hc.2)]
    rw [toggle_run_shift, ih (soft_pwm_toggle_event s).1 (by rw [f1, hon]) (by rw [f2, hoff])
      (by rw [ht]; exact hw) (by rw [ht, f3]; exact hb), ht]

/-- C9 (the closing sentence fails): configure `cycle_ticks = 0`, schedule
`clock = 1000, value = 128` and fire the load callback; the program toggles with
`on_duration = off_duration = 0`. A schedule command at `t = 3000` succeeds and keeps the
toggle timer, whose wake time 1000 is before 3000, and every later toggle firing arms the
toggle callback at 1000 again: the load callback at `t` is never armed. -/
theorem schedule_soft_pwm_kept_timer_never_loads :
    soft_pwm_reachable soft_pwm_zero_cycle_loaded ∧
    (command_schedule_soft_pwm_out (command_config_soft_pwm_out 7 0 0 0) 1000 128
        >>= soft_pwm_fire) = Except.ok soft_pwm_zero_cycle_loaded ∧
    command_schedule_soft_pwm_out soft_pwm_zero_cycle_loaded 3000 0
      = Except.ok soft_pwm_zero_cycle_then_0 ∧
    soft_pwm_zero_cycle_then_0.end_time = 3000 ∧
    soft_pwm_fire soft_pwm_zero_cycle_then_0
      = Except.ok (soft_pwm_toggle_event soft_pwm_zero_cycle_then_0).1 ∧
    ∀ n, (soft_pwm_toggle_run soft_pwm_zero_cycle_then_0 n).timer =
      { func := timer_func.soft_pwm_toggle_event, waketime := 1000, armed := true } :=
  ⟨soft_pwm_reachable.fire
      (soft_pwm_reachable.schedule 1000 128 (soft_pwm_reachable.config 7 0 0 0) rfl)
      rfl rfl,
    rfl, rfl, rfl, rfl,
    fun n => toggle_run_stuck n soft_pwm_zero_cycle_then_0 rfl rfl (by decide) (by decide)⟩

/-- C9 (amended): for every record and every `(t, v)` for which
`command_schedule_soft_pwm_out` does not halt: if the current is-toggling bit is set and the
wake time of the timer is before `t`, the callback, wake time and armed status of the timer
are left exactly as they were; in every other case the timer is armed with
`soft_pwm_load_event` at wake time exactly `t`. In both cases must-check-end and have-next
are set and `end_time = t`. On a reachable record the timer is armed afterwards, either with
the load callback at `t`, or with the running toggle callback whose wake time is before
`end_time = t`; and in the second case, unless `on_duration` and `off_duration` are both
zero, some positive number of toggle firings arms the load callback at wake time exactly
`t`, the callback being the toggle callback before each of them. -/
theorem schedule_soft_pwm_arms_timer (s s1 : soft_pwm_s) (clock value : Nat)
    (hok : command_schedule_soft_pwm_out s clock value = Except.ok s1) :
    ((s.flags &&& SPF_TOGGLING ≠ 0 ∧
        sched_is_before s.timer.waketime (clock % 2 ^ 32) = true) →
      s1.timer = s.timer) ∧
    (¬ (s.flags &&& SPF_TOGGLING ≠ 0 ∧
        sched_is_before s.timer.waketime (clock % 2 ^ 32) = true) →
      s1.timer =
        { func := timer_func.soft_pwm_load_event, waketime := clock % 2 ^ 32
          armed := true }) ∧
    (s1.flags &&& SPF_CHECK_END ≠ 0 ∧ s1.flags &&& SPF_HAVE_NEXT ≠ 0 ∧
      s1.end_time = clock % 2 ^ 32) ∧
    (soft_pwm_reachable s →
      s1.timer.armed = true ∧
      ((s1.timer.func = timer_func.soft_pwm_load_event ∧
          s1.timer.waketime = clock % 2 ^ 32) ∨
        (s1.timer.func = timer_func.soft_pwm_toggle_event ∧
          s1.flags &&& SPF_TOGGLING ≠ 0 ∧
          sched_is_before s1.timer.waketime s1.end_time = true ∧
          (0 < s1.on_duration + s1.off_duration →
            ∃ n, 0 < n ∧
              (soft_pwm_toggle_run s1 n).timer =
                { func := timer_func.soft_pwm_load_event, waketime := clock % 2 ^ 32
                  armed := true } ∧
              ∀ j, j < n →
                (soft_pwm_toggle_run s1 j).timer.func
                  = timer_func.soft_pwm_toggle_event)))) := by
  have hce := schedule_sets_check_end s s1 clock value hok
  have het := schedule_end_time s s1 clock value hok
  refine ⟨schedule_timer_kept s s1 clock value hok, schedule_timer_armed s s1 clock value hok,
    ⟨hce.1, hce.2, het⟩, ?_⟩
  intro hr
  obtain ⟨i1, i2⟩ := soft_pwm_reachable_timer s hr
  have hr1 := soft_pwm_reachable.schedule clock value hr hok
  obtain ⟨j1, -⟩ := soft_pwm_reachable_timer s1 hr1
  obtain ⟨d1, -, d3, -⟩ := soft_pwm_reachable_durations s1 hr1
  by_cases hb : s.flags &&& SPF_TOGGLING ≠ 0 ∧
      sched_is_before s.timer.waketime (clock % 2 ^ 32) = true
  · have ht := schedule_timer_kept s s1 clock value hok hb
    have htog := (schedule_keeps_toggling s s1 clock value hok).2 hb.1
    obtain ⟨ha, hfn⟩ := j1 htog
    refine ⟨ha, ?_⟩
    rcases hfn with hfn | hfn
    · refine Or.inr ⟨hfn, htog, ?_, ?_⟩
      · rw [ht, het]
        exact hb.2
      · intro hpos
        obtain ⟨n, hn, hfin, hall⟩ := toggle_run_reaches_load s1 hfn hce.1
          (by rw [Nat.mod_eq_of_lt (by omega)]; omega)
        refine ⟨n, hn, ?_, hall⟩
        rw [hfin, het, ← ha]
    · exfalso
      rw [ht] at hfn ha
      obtain ⟨c1, c2⟩ := i2 hfn ha
      have hh := (schedule_halted_iff s clock value).2 ⟨c1, by rw [← c2]; exact hb.2⟩
      rw [hok] at hh
      exact Bool.noConfusion hh
  · have ht := schedule_timer_armed s s1 clock value hok hb
    rw [ht]
    exact ⟨rfl, Or.inl ⟨rfl, rfl⟩⟩

/-- C9 (witness): a schedule command at `t = 3000` on the toggling record
`soft_pwm_loaded_64`, whose next toggle is due at 1192, keeps the timer; the toggle firings
at 1192, 2000 and 2192 follow, and the third arms the load callback at 3000. -/
theorem schedule_soft_pwm_arms_timer_witness :
    (command_schedule_soft_pwm_out soft_pwm_loaded_64 3000 0
        = Except.ok soft_pwm_loaded_64_then_0 ∧
      (soft_pwm_loaded_64.flags &&& SPF_TOGGLING ≠ 0 ∧
        sched_is_before soft_pwm_loaded_64.timer.waketime (3000 % 2 ^ 32) = true) ∧
      soft_pwm_reachable soft_pwm_loaded_64) ∧
    soft_pwm_loaded_64_then_0.timer = soft_pwm_loaded_64.timer ∧
    (soft_pwm_loaded_64_then_0.timer.armed = true ∧
      ((soft_pwm_loaded_64_then_0.timer.func = timer_func.soft_pwm_load_event ∧
          soft_pwm_loaded_64_then_0.timer.waketime = 3000 % 2 ^ 32) ∨
        (soft_pwm_loaded_64_then_0.timer.func = timer_func.soft_pwm_toggle_event ∧
          soft_pwm_loaded_64_then_0.flags &&& SPF_TOGGLING ≠ 0 ∧
          sched_is_before soft_pwm_loaded_64_then_0.timer.waketime
            soft_pwm_loaded_64_then_0.end_time = true ∧
          (0 < soft_pwm_loaded_64_then_0.on_duration + soft_pwm_loaded_64_then_0.off_duration →
            ∃ n, 0 < n ∧
              (soft_pwm_toggle_run soft_pwm_loaded_64_then_0 n).timer =
                { func := timer_func.soft_pwm_load_event, waketime := 3000 % 2 ^ 32
                  armed := true } ∧
              ∀ j, j < n →
                (soft_pwm_toggle_run soft_pwm_loaded_64_then_0 j).timer.func
                  = timer_func.soft_pwm_toggle_event)))) ∧
    (0 < soft_pwm_loaded_64_then_0.on_duration + soft_pwm_loaded_64_then_0.off_duration ∧
      (soft_pwm_toggle_run soft_pwm_loaded_64_then_0 1).timer =
        { func := timer_func.soft_pwm_toggle_event, waketime := 2000, armed := true } ∧
      (soft_pwm_toggle_run soft_pwm_loaded_64_then_0 2).timer =
        { func := timer_func.soft_pwm_toggle_event, waketime := 2192, armed := true } ∧
      (soft_pwm_toggle_run soft_pwm_loaded_64_then_0 3).timer =
        { func := timer_func.soft_pwm_load_event, waketime := 3000, armed := true }) :=
  have hr : soft_pwm_reachable soft_pwm_loaded_64 :=
    soft_pwm_reachable.fire
      (soft_pwm_reachable.schedule 1000 64 (soft_pwm_reachable.config 7 1000 0 5000) rfl)
      rfl rfl
  ⟨⟨rfl, by decide, hr⟩,
    (schedule_soft_pwm_arms_timer soft_pwm_loaded_64 soft_pwm_loaded_64_then_0 3000 0 rfl).1
      (by decide),
    (schedule_soft_pwm_arms_timer soft_pwm_loaded_64 soft_pwm_loaded_64_then_0 3000 0 rfl).2.2.2
      hr,
    ⟨by decide, by decide, by decide, by decide⟩⟩

/-- The invariant of the in-range records: the constants are in range, the durations are
at most `cycle_time`, the flag word fits a byte, a pending deadline-checked program has
`next_on_duration <= max_duration`, and a toggle timer whose end check is on is due at
most `2^31` ticks before `end_time`. -/
theorem soft_pwm_in_range_inv (s : soft_pwm_s) (h : soft_pwm_reachable_in_range s) :
    (s.cycle_time < 2 ^ 31 ∧ s.max_duration < 2 ^ 31 ∧ s.pulse_time = s.cycle_time / 255) ∧
    (s.on_duration ≤ s.cycle_time ∧ s.off_duration ≤ s.cycle_time ∧
      s.next_on_duration ≤ s.cycle_time ∧ s.next_off_duration ≤ s.cycle_time) ∧
    s.flags < 2 ^ 8 ∧
    (s.flags &&& SPF_NEXT_CHECK_END ≠ 0 → s.next_on_duration ≤ s.max_duration) ∧
    (s.timer.func = timer_func.soft_pwm_toggle_event → s.flags &&& SPF_CHECK_END ≠ 0 →
      ticks_until s.timer.waketime s.end_time ≤ 2 ^ 31) := by
  induction h with
  | config pin cycle_ticks default_value max_duration hc hm =>
    refine ⟨⟨hc, hm, rfl⟩, ⟨Nat.zero_le _, Nat.zero_le _, Nat.zero_le _, Nat.zero_le _⟩, ?_,
      fun _ => Nat.zero_le _, fun hf => timer_func.noConfusion hf⟩
    have := config_soft_pwm_flags_lt pin cycle_ticks default_value max_duration
    omega
  | @schedule s s1 clock value _ hok hnext ih =>
    obtain ⟨⟨a1, a2, a3⟩, ⟨b1, b2, b3, b4⟩, c, d, e⟩ := ih
    obtain ⟨f1, f2, -, f4, f5, f6, -⟩ := schedule_frame_fields s s1 clock value hok
    obtain ⟨n1, n2⟩ := schedule_next_durations s s1 clock value hok
    have hv : value % 2 ^ 8 ≤ 255 := by
      have := Nat.mod_lt value (show 0 < 2 ^ 8 by decide)
      omega
    obtain ⟨l1, l2⟩ := next_durations_le s (value % 2 ^ 8) hv (by omega) a3
    refine ⟨⟨by rw [f4]; exact a1, by rw [f6]; exact a2, by rw [f5, f4]; exact a3⟩,
      ⟨by rw [f1, f4]; exact b1, by rw [f2, f4]; exact b2, by rw [n1, f4]; exact l1,
        by rw [n2, f4]; exact l2⟩, ?_, hnext, ?_⟩
    · rw [schedule_flags s s1 clock value hok]
      exact Nat.mod_lt _ (by decide)
    · intro hfunc _
      by_cases hb : s.flags &&& SPF_TOGGLING ≠ 0 ∧
          sched_is_before s.timer.waketime (clock % 2 ^ 32) = true
      · rw [schedule_timer_kept s s1 clock value hok hb, schedule_end_time s s1 clock value hok]
        exact ((before_iff_ticks _ _).1 hb.2).2
      · rw [schedule_timer_armed s s1 clock value hok hb] at hfunc
        exact timer_func.noConfusion hfunc
  | @fire s s1 _ harmed hfire ih =>
    obtain ⟨⟨a1, a2, a3⟩, ⟨b1, b2, b3, b4⟩, c, d, e⟩ := ih
    unfold soft_pwm_fire at hfire
    split at hfire
    · rename_i hfunc
      have he := (Except.ok.inj hfire).symm
      obtain ⟨f1, f2, f3, -, f5, -, f7⟩ := toggle_event_fields s
      obtain ⟨g1, g2, g3, g4, g5, -⟩ := toggle_event_frame s
      obtain ⟨t1, t2⟩ := toggle_event_timer s
      have hs1t : s1.timer = sched_timer (soft_pwm_toggle_event s).1.timer := by
        rw [he]
        show sched_after_callback _ (soft_pwm_toggle_event s).2 = _
        rw [f7]
        rfl
      have k1 : s1.cycle_time = s.cycle_time := by rw [he]; exact g1
      have k2 : s1.max_duration = s.max_duration := by rw [he]; exact g2
      have k3 : s1.pulse_time = s.pulse_time := by rw [he]; exact g3
      have k4 : s1.next_on_duration = s.next_on_duration := by rw [he]; exact g4
      have k5 : s1.next_off_duration = s.next_off_duration := by rw [he]; exact g5
      have k6 : s1.on_duration = s.on_duration := by rw [he]; exact f1
      have k7 : s1.off_duration = s.off_duration := by rw [he]; exact f2
      have k8 : s1.end_time = s.end_time := by rw [he]; exact f3
      have k9 : s1.flags = (s.flags ^^^ SPF_ON) % 2 ^ 8 := by rw [he]; exact f5
      refine ⟨⟨by rw [k1]; exact a1, by rw [k2]; exact a2, by rw [k3, k1]; exact a3⟩,
        ⟨by rw [k6, k1]; exact b1, by rw [k7, k1]; exact b2, by rw [k4, k1]; exact b3,
          by rw [k5, k1]; exact b4⟩, ?_, ?_, ?_⟩
      · rw [k9]; exact Nat.mod_lt _ (by decide)
      · intro hbit
        rw [k4, k2]
        apply d
        rw [k9, Ne, SPF_NEXT_CHECK_END_test, xor_SPF_ON_testBit_succ _ 5 (by decide)] at hbit
        rw [Ne, SPF_NEXT_CHECK_END_test]
        exact hbit
      · intro hf1 hce1
        rw [k9] at hce1
        by_cases hc : ((s.flags ^^^ SPF_ON) % 2 ^ 8 &&& SPF_CHECK_END ≠ 0 ∧
            sched_is_before
              (if (s.flags ^^^ SPF_ON) % 2 ^ 8 &&& SPF_ON ≠ 0
                then (s.timer.waketime + s.on_duration) % 2 ^ 32
                else (s.timer.waketime + s.off_duration) % 2 ^ 32) s.end_time = false)
        · rw [hs1t, t1 hc] at hf1
          exact timer_func.noConfusion hf1
        · have hbefore : sched_is_before
              (if (s.flags ^^^ SPF_ON) % 2 ^ 8 &&& SPF_ON ≠ 0
                then (s.timer.waketime + s.on_duration) % 2 ^ 32
                else (s.timer.waketime + s.off_duration) % 2 ^ 32) s.end_time = true := by
            cases hb : sched_is_before
              (if (s.flags ^^^ SPF_ON) % 2 ^ 8 &&& SPF_ON ≠ 0
                then (s.timer.waketime + s.on_duration) % 2 ^ 32
                else (s.timer.waketime + s.off_duration) % 2 ^ 32) s.end_time
            · exact absurd ⟨hce1, hb⟩ hc
            · rfl
          rw [hs1t, t2 hc, k8]
          exact ((before_iff_ticks _ _).1 hbefore).2
    · rename_i hfunc
      have hn : s.flags &&& SPF_HAVE_NEXT ≠ 0 := by
        intro hn
        rw [load_halt_message s hn] at hfire
        exact Except.noConfusion hfire
      have hfl8 : (s.flags >>> 4) % 2 ^ 8 < 2 ^ 8 := Nat.mod_lt _ (by decide)
      have hnc : ¬ ((s.flags >>> 4) % 2 ^ 8 &&& SPF_NEXT_CHECK_END ≠ 0) := by
        rw [Ne, not_not, SPF_NEXT_CHECK_END_test, Nat.testBit_mod_two_pow,
          Nat.testBit_shiftRight]
        have : s.flags.testBit (4 + 6) = false := testBit_false_of_lt (i := 8) c (by decide)
        rw [this]
        simp
      by_cases ht : (s.flags >>> 4) % 2 ^ 8 &&& SPF_TOGGLING = 0
      · by_cases hc : (s.flags >>> 4) % 2 ^ 8 &&& SPF_CHECK_END = 0
        · rw [load_event_steady_done_eq s hn ht hc] at hfire
          have he := (Except.ok.inj hfire).symm
          rw [he]
          exact ⟨⟨a1, a2, a3⟩, ⟨b1, b2, b3, b4⟩, hfl8, fun hb => absurd hb hnc,
            fun hf => timer_func.noConfusion
              (hfunc.symm.trans (show s.timer.func = timer_func.soft_pwm_toggle_event from hf))⟩
        · rw [load_event_steady_check_eq s hn ht hc] at hfire
          have he := (Except.ok.inj hfire).symm
          rw [he]
          exact ⟨⟨a1, a2, a3⟩, ⟨b1, b2, b3, b4⟩, hfl8, fun hb => absurd hb hnc,
            fun hf => timer_func.noConfusion
              (hfunc.symm.trans (show s.timer.func = timer_func.soft_pwm_toggle_event from hf))⟩
      · rw [load_event_toggling_eq s hn ht] at hfire
        have he := (Except.ok.inj hfire).symm
        rw [he]
        refine ⟨⟨a1, a2, a3⟩, ⟨b3, b4, b3, b4⟩, hfl8, fun hb => absurd hb hnc, ?_⟩
        intro _ hce
        have hbit : s.flags &&& SPF_NEXT_CHECK_END ≠ 0 := by
          have hce2 : (s.flags >>> 4) % 2 ^ 8 &&& SPF_CHECK_END ≠ 0 := hce
          rw [Ne, SPF_CHECK_END_test, shifted_flags_testBit _ 2 (by decide)] at hce2
          rw [Ne, SPF_NEXT_CHECK_END_test]
          exact hce2
        exact Nat.le_of_lt
          (ticks_until_load s.end_time s.next_on_duration s.max_duration (d hbit) a2)
    · have he := (Except.ok.inj hfire).symm
      rw [he]
      exact ⟨⟨a1, a2, a3⟩, ⟨b1, b2, b3, b4⟩, c, d, e⟩

/-- A handover from a wake time at most `2^31` ticks before `end_time`, by a step shorter
than `2^31` ticks: `end_time` is not before that wake time. -/
theorem handover_not_late (w dur e : Nat) (hd : ticks_until w e ≤ 2 ^ 31)
    (hdur : dur < 2 ^ 31) (hover : sched_is_before ((w + dur) % 2 ^ 32) e = false) :
    sched_is_before e w = false := by
  unfold sched_is_before at *
  unfold ticks_until at hd
  rw [decide_eq_false_iff_not] at *
  omega

/-- The in-range chain: configure `cycle_ticks = 1000, max_duration = 500`, schedule
`clock = 1000, value = 128`, fire the load callback. -/
theorem soft_pwm_loaded_near_deadline_in_range :
    soft_pwm_reachable_in_range soft_pwm_loaded_near_deadline :=
  soft_pwm_reachable_in_range.fire
    (soft_pwm_reachable_in_range.schedule 1000 128
      (soft_pwm_reachable_in_range.config 7 1000 0 500 (by decide) (by decide))
      rfl (fun _ => by decide))
    rfl rfl

/-- C16 (amended): on every record reached from `command_config_soft_pwm_out` with
`cycle_ticks` and `max_duration` below `2^31`, through schedule commands whose
deadline-checked program has `next_on_duration <= max_duration` and through firings of
the armed callback, whenever `soft_pwm_toggle_event` fires at wake time `w` and switches the
timer to `soft_pwm_load_event`, the wake time it arms equals `end_time` and is not before
`w`. -/
theorem soft_pwm_load_handover_not_late (s : soft_pwm_s)
    (h : soft_pwm_reachable_in_range s)
    (hfunc : s.timer.func = timer_func.soft_pwm_toggle_event)
    (hload : (soft_pwm_toggle_event s).1.timer.func = timer_func.soft_pwm_load_event) :
    (soft_pwm_toggle_event s).1.timer.waketime = s.end_time ∧
    sched_is_before (soft_pwm_toggle_event s).1.timer.waketime s.timer.waketime = false := by
  obtain ⟨⟨a1, -, -⟩, ⟨b1, b2, -, -⟩, -, -, e⟩ := soft_pwm_in_range_inv s h
  obtain ⟨t1, t2⟩ := toggle_event_timer s
  by_cases hc : ((s.flags ^^^ SPF_ON) % 2 ^ 8 &&& SPF_CHECK_END ≠ 0 ∧
      sched_is_before
        (if (s.flags ^^^ SPF_ON) % 2 ^ 8 &&& SPF_ON ≠ 0
          then (s.timer.waketime + s.on_duration) % 2 ^ 32
          else (s.timer.waketime + s.off_duration) % 2 ^ 32) s.end_time = false)
  · have hw : (soft_pwm_toggle_event s).1.timer.waketime = s.end_time := by rw [t1 hc]
    rw [hw]
    refine ⟨rfl, ?_⟩
    have hover := hc.2
    rw [toggle_next_waketime s] at hover
    refine handover_not_late s.timer.waketime
      (if s.flags.testBit 0 = true then s.off_duration else s.on_duration) s.end_time
      (e hfunc ((toggle_check_end s).1 hc.1)) ?_ hover
    split_ifs <;> omega
  · have hf : (soft_pwm_toggle_event s).1.timer.func = timer_func.soft_pwm_toggle_event := by
      rw [t2 hc]; exact hfunc
    rw [hf] at hload
    exact timer_func.noConfusion hload

/-- C16 (witness): the program `clock = 1000, value = 128` with `cycle_ticks = 1000` and
`max_duration = 500`: the toggle firing at 1384 hands over to the load callback at
`end_time = 1500`, which is not before 1384. -/
theorem soft_pwm_load_handover_not_late_witness :
    (soft_pwm_reachable_in_range soft_pwm_loaded_near_deadline ∧
      soft_pwm_loaded_near_deadline.timer.func = timer_func.soft_pwm_toggle_event ∧
      (soft_pwm_toggle_event soft_pwm_loaded_near_deadline).1.timer.func
        = timer_func.soft_pwm_load_event) ∧
    ((soft_pwm_toggle_event soft_pwm_loaded_near_deadline).1.timer.waketime
        = soft_pwm_loaded_near_deadline.end_time ∧
      sched_is_before (soft_pwm_toggle_event soft_pwm_loaded_near_deadline).1.timer.waketime
        soft_pwm_loaded_near_deadline.timer.waketime = false) ∧
    (soft_pwm_toggle_event soft_pwm_loaded_near_deadline).1.timer =
      { func := timer_func.soft_pwm_load_event, waketime := 1500, armed := true } :=
  ⟨⟨soft_pwm_loaded_near_deadline_in_range, rfl, rfl⟩,
    soft_pwm_load_handover_not_late soft_pwm_loaded_near_deadline
      soft_pwm_loaded_near_deadline_in_range rfl rfl,
    by decide⟩

/-- C16 (counterexample): configure `cycle_ticks = 1000, max_duration = 100`, schedule
`clock = 1000, value = 128` and fire the load callback at 1000: the toggle timer is armed at
`1000 + 384 = 1384` while `end_time = 1000 + 100 = 1100`. The toggle firing at 1384 then
switches to `soft_pwm_load_event` at wake time 1100, which is before 1384. -/
theorem soft_pwm_load_handover_late :
    soft_pwm_reachable soft_pwm_loaded_past_deadline ∧
    (command_schedule_soft_pwm_out (command_config_soft_pwm_out 7 1000 0 100) 1000 128
        >>= soft_pwm_fire) = Except.ok soft_pwm_loaded_past_deadline ∧
    soft_pwm_loaded_past_deadline.timer =
      { func := timer_func.soft_pwm_toggle_event, waketime := 1384, armed := true } ∧
    soft_pwm_loaded_past_deadline.end_time = 1100 ∧
    soft_pwm_fire soft_pwm_loaded_past_deadline
      = Except.ok { (soft_pwm_toggle_event soft_pwm_loaded_past_deadline).1 with
          timer := { func := timer_func.soft_pwm_load_event, waketime := 1100, armed := true } } ∧
    (soft_pwm_toggle_event soft_pwm_loaded_past_deadline).1.timer =
      { func := timer_func.soft_pwm_load_event, waketime := 1100, armed := true } ∧
    sched_is_before (soft_pwm_toggle_event soft_pwm_loaded_past_deadline).1.timer.waketime
      soft_pwm_loaded_past_deadline.timer.waketime = true :=
  ⟨soft_pwm_reachable.fire
      (soft_pwm_reachable.schedule 1000 128 (soft_pwm_reachable.config 7 1000 0 100) rfl)
      rfl rfl,
    rfl, rfl, rfl, rfl, by decide, by decide⟩


/-- The bound on `max_duration` is needed: with `max_duration = 2^31 + 1001` and
`next_on_duration = 384 <= max_duration` the first toggle firing, at 1384, hands over to the
load callback at `end_time = 2^31 + 2001`, which the wraparound comparison places before
1384. -/
theorem soft_pwm_load_handover_late_long_deadline :
    ∃ s, (command_schedule_soft_pwm_out
          (command_config_soft_pwm_out 7 1000 0 (2 ^ 31 + 1001)) 1000 128
        >>= soft_pwm_fire) = Except.ok s ∧
      s.cycle_time < 2 ^ 31 ∧ s.next_on_duration ≤ s.max_duration ∧
      s.timer.func = timer_func.soft_pwm_toggle_event ∧
      (soft_pwm_toggle_event s).1.timer.func = timer_func.soft_pwm_load_event ∧
      sched_is_before (soft_pwm_toggle_event s).1.timer.waketime s.timer.waketime = true :=
  ⟨{ timer := { func := timer_func.soft_pwm_toggle_event, waketime := 1384, armed := true }
     on_duration := 384
     off_duration := 616
     end_time := 2147485649
     next_on_duration := 384
     next_off_duration := 616
     max_duration := 2147484649
     cycle_time := 1000
     pulse_time := 3
     pin := { pin := 7, level := true }
     default_value := 0
     flags := 7 },
    rfl, by decide, by decide, rfl, by decide, by decide⟩

/-- The bound on `cycle_ticks` is needed: with `cycle_ticks = 2^32 - 1`, `max_duration = 0`
and `value = 1` the off phase is longer than `2^31` ticks; a schedule command whose target
is exactly `2^31` ticks after the pending toggle keeps the timer, and that toggle firing
hands over to the load callback at the target, which the wraparound comparison places
before the wake time of the firing. -/
theorem soft_pwm_load_handover_late_long_cycle :
    ∃ s, (command_schedule_soft_pwm_out (command_config_soft_pwm_out 7 (2 ^ 32 - 1) 0 0) 1000 1
        >>= soft_pwm_fire
        >>= fun s0 => command_schedule_soft_pwm_out s0 (s0.timer.waketime + 2 ^ 31) 0)
        = Except.ok s ∧
      s.max_duration < 2 ^ 31 ∧ s.flags &&& SPF_NEXT_CHECK_END = 0 ∧
      s.timer.func = timer_func.soft_pwm_toggle_event ∧
      (soft_pwm_toggle_event s).1.timer.func = timer_func.soft_pwm_load_event ∧
      sched_is_before (soft_pwm_toggle_event s).1.timer.waketime s.timer.waketime = true :=
  ⟨{ timer := { func := timer_func.soft_pwm_toggle_event, waketime := 16844009, armed := true }
     on_duration := 16843009
     off_duration := 4278124286
     end_time := 2164327657
     next_on_duration := 0
     next_off_duration := 0
     max_duration := 0
     cycle_time := 4294967295
     pulse_time := 16843009
     pin := { pin := 7, level := true }
     default_value := 0
     flags := 15 },
    rfl, by decide, by decide, rfl, by decide, by decide⟩

end Gpiocmds
